import Mathlib

/-!
# Session engine of airdcpp-core: search queue, hub connection, private chat

A shallow embedding of `SearchQueue` (src/airdcpp/SearchQueue.cpp), of the hub
connection `Client` (src/Client.cpp, src/Client.h) and of the private chat `PrivateChat`
with its direct channel (src/PrivateChat.cpp), with the properties of the natural-language
specification stated and settled over it.

Conventions of the embedding:
* `uint64_t` and `uint32_t` values are natural numbers reduced modulo `2^64` and
  `2^32` where the source computes with them; `int` values are integers.
* `GET_TICK()` is an argument of the operation that reads it.
* `std::deque<SearchPtr>` is a list, head first; `std::set<void*>` is a list of
  owner tokens kept in increasing order without repetition.
* Notifications to listeners and calls to collaborators are appended to a log of
  effects, in the order the source makes them; settings and answers of collaborators are
  arguments of the operation that reads them.
* A pointer is an optional value, `none` for the null pointer; a call through the user
  connection pointer of a private chat is logged with the value the pointer has at the call.
* Where the source runs into undefined behaviour (the insertion at an invalidated
  iterator in `SearchQueue::add`), the outcome is an argument of the operation: the
  properties hold for whatever the undefined step leaves, or say that they exclude it.
* Delayed events are a list of pending events; the callback of an event is an event of
  the chat of its own, which takes the pending event off the list when it runs.
-/

namespace dcpp

/-! ## Data model -/

/-- Modelled from the spec: the `Priority` enumeration is declared in a header that is
not among the sources. The spec names the levels HIGHEST, HIGH, NORMAL, LOW, LOWEST. -/
inductive Priority where
  | HIGHEST
  | HIGH
  | NORMAL
  | LOW
  | LOWEST
  deriving DecidableEq, Repr

/-- Modelled from the spec: the numeric value of a `Priority` enumerator, which is what
`s->priority < (*i)->priority` compares. The declaration is not among the sources; the
spec orders the queue "higher first" and makes `add` stop at "the first entry of strictly
lower priority", so the levels are numbered in the order the spec lists them, HIGHEST
first. -/
def Priority.rank : Priority → Nat
  | .HIGHEST => 0
  | .HIGH => 1
  | .NORMAL => 2
  | .LOW => 3
  | .LOWEST => 4

instance : LT Priority := ⟨fun a b => a.rank < b.rank⟩

instance (a b : Priority) : Decidable (a < b) :=
  inferInstanceAs (Decidable (a.rank < b.rank))

/-- Modelled from the spec: the `Search` record (its header is not among the sources), cut
down to what `SearchQueue` reads. `query` stands for the fields of the request that
`operator==` compares, `owners` is the `std::set<void*>` of owner tokens. -/
structure Search where
  query : Nat
  priority : Priority
  owners : List Nat
  deriving DecidableEq, Repr

/-- Modelled from the spec: `s == *i` in `SearchQueue::add`, the spec's "query-equal": two
requests are equal when they ask the same query, whatever their priority and owners. The
source compares two `SearchPtr`, whose declaration is not among the sources; the
comparison is taken to be that of the requests pointed to, not of their addresses. -/
def Search.queryEqual (a b : Search) : Bool := a.query == b.query

/-- The call `owners.insert(aOwner)` on a `std::set<void*>`. -/
def ownersInsert (a : Nat) (l : List Nat) : List Nat :=
  if a ∈ l then l else l.orderedInsert (· ≤ ·) a

/-- The call `owners.erase(aOwner)` on a `std::set<void*>`. -/
def ownersErase (a : Nat) (l : List Nat) : List Nat :=
  l.filter (fun b => b != a)

/-- The fields of `SearchQueue`. The class declaration is not among the sources; the
types are those the methods use the fields at: `lastSearchTime` is a `uint64_t` tick,
`nextInterval` and `minInterval` are `int` (`nextInterval` is set to -1 and tested for
being negative, `minInterval` is compared with the `int ret` of `getInterval`). -/
structure SearchQueue where
  searchQueue : List Search
  lastSearchTime : Nat
  nextInterval : Int
  minInterval : Int
  deriving DecidableEq, Repr

/-- The constructor `SearchQueue::SearchQueue() : nextInterval(10 * 1000)`. The two
members initialised in the header (not among the sources) are arguments: `minInterval` is
the hub's search interval and `lastSearchTime` the tick of the last dispatch. -/
def SearchQueue.new (minInterval : Int) (lastSearchTime : Nat) : SearchQueue :=
  { searchQueue := [], lastSearchTime := lastSearchTime, nextInterval := 10 * 1000,
    minInterval := minInterval }

/-! ## Operations of `SearchQueue` -/

/-- The method `SearchQueue::getInterval`, with `minInterval` passed explicitly. -/
def getInterval (minInterval : Int) (aPriority : Priority) : Int :=
  let ret : Int :=
    match aPriority with
    | .HIGHEST => 5000
    | .HIGH => 5000
    | .NORMAL => 10000
    | .LOW => 15000
    | _ => 20000
  max ret minInterval

/-- The method `SearchQueue::clear`. -/
def SearchQueue.clear (q : SearchQueue) : SearchQueue :=
  { q with searchQueue := [] }

/-- The method `SearchQueue::getNextSearchTick`: `lastSearchTime + nextInterval` computed
in `uint64_t`, the `int` operand being converted first. -/
def SearchQueue.getNextSearchTick (q : SearchQueue) : Nat :=
  (((q.lastSearchTime : Int) + q.nextInterval) % 2 ^ 64).toNat

/-- The statement `x += getInterval(...)` on the `uint32_t x`. -/
def addInterval (x : Nat) (i : Int) : Nat :=
  (((x : Int) + i) % 2 ^ 32).toNat

/-- The scan loop of `SearchQueue::add` together with the insertion that follows it. The
result is the final `x` and the new queue. In the branch that meets a query-equal entry of
strictly lower priority the source erases the entry at the iterator `i` and then inserts
at that same iterator, which the erase has invalidated: what the deque holds afterwards is
not defined by the source, and the result is `none`. -/
def addScan (minInterval : Int) (s : Search) :
    List Search → Nat → Nat × Option (List Search)
  | [], x => (x, some [s])
  | e :: rest, x =>
    if s.priority < e.priority then
      if e.queryEqual s then (x, none)
      else (x, some (s :: e :: rest))
    else if s.queryEqual e then
      match s.owners with
      | [] => (x, some (e :: rest))
      | aOwner :: _ => (x, some ({ e with owners := ownersInsert aOwner e.owners } :: rest))
    else
      let r := addScan minInterval s rest (addInterval x (getInterval minInterval e.priority))
      (r.1, r.2.map (fun l => e :: l))

/-- The queue that `SearchQueue::add` leaves: the one the scan and the insertion produce,
or, after the insertion at the invalidated iterator, the queue `u` that this undefined
step happens to leave. -/
def addQueue (minInterval : Int) (s : Search) (l u : List Search) : List Search :=
  match (addScan minInterval s l 0).2 with
  | some l1 => l1
  | none => u

/-- The method `SearchQueue::add`, called when `GET_TICK()` reads `now`. The result is the
returned `uint64_t` and the queue afterwards. `u` is what the deque holds after an
insertion at the invalidated iterator, see `addScan`; it is not read otherwise. An empty
deque, of which the source would take `front()`, can only be such a `u`, and
`nextInterval` is then left as it is. -/
def SearchQueue.add (q : SearchQueue) (s : Search) (now : Nat) (u : List Search) :
    Nat × SearchQueue :=
  let x := (addScan q.minInterval s q.searchQueue 0).1
  let q1 : SearchQueue := { q with searchQueue := addQueue q.minInterval s q.searchQueue u }
  if 0 < x then
    if q1.getNextSearchTick ≤ now then (x, q1)
    else ((x + (q1.getNextSearchTick - now)) % 2 ^ 64, q1)
  else
    match addQueue q.minInterval s q.searchQueue u with
    | [] => (0, q1)
    | front :: _ =>
      let q2 : SearchQueue := { q1 with nextInterval := getInterval q.minInterval front.priority }
      if q2.getNextSearchTick ≤ now then (0, q2)
      else (q2.getNextSearchTick - now, q2)

/-- The method `SearchQueue::pop`. `now` is the first reading of `GET_TICK()`, the one
the gate tests, and `tick` the second one, stored in `lastSearchTime`. -/
def SearchQueue.pop (q : SearchQueue) (now tick : Nat) : Option Search × SearchQueue :=
  if now ≤ q.getNextSearchTick then (none, q)
  else
    match q.searchQueue with
    | s :: rest =>
      (some s,
        { q with
          searchQueue := rest
          lastSearchTime := tick
          nextInterval :=
            match rest with
            | front :: _ => getInterval q.minInterval front.priority
            | [] => q.minInterval })
    | [] => (none, { q with nextInterval := -1 })

/-- The method `SearchQueue::hasWaitingTime`. -/
def SearchQueue.hasWaitingTime (q : SearchQueue) (aTick : Nat) : Bool :=
  decide (q.nextInterval < 0) || decide (aTick < q.getNextSearchTick)

/-- The loop of `SearchQueue::cancelSearch` over the queue. -/
def cancelScan (aOwner : Nat) : List Search → Bool × List Search
  | [] => (false, [])
  | e :: rest =>
    if aOwner ∈ e.owners then
      if ownersErase aOwner e.owners = [] then (true, rest)
      else (true, { e with owners := ownersErase aOwner e.owners } :: rest)
    else
      let r := cancelScan aOwner rest
      (r.1, e :: r.2)

/-- The method `SearchQueue::cancelSearch`. -/
def SearchQueue.cancelSearch (q : SearchQueue) (aOwner : Nat) : Bool × SearchQueue :=
  let r := cancelScan aOwner q.searchQueue
  (r.1, { q with searchQueue := r.2 })

/-! ## Runs of a `SearchQueue` -/

/-- One call on a `SearchQueue`, with the clock readings the call makes; for `add` also
the queue `u` that an insertion at the invalidated iterator leaves, should the call make
one. -/
inductive Op where
  | add (s : Search) (now : Nat) (u : List Search)
  | pop (now tick : Nat)
  | cancelSearch (aOwner : Nat)
  | clear
  deriving DecidableEq, Repr

/-- The queue after one call. -/
def SearchQueue.step (q : SearchQueue) : Op → SearchQueue
  | .add s now u => (q.add s now u).2
  | .pop now tick => (q.pop now tick).2
  | .cancelSearch aOwner => (q.cancelSearch aOwner).2
  | .clear => q.clear

/-- The queue after a sequence of calls. -/
def SearchQueue.run (q : SearchQueue) (ops : List Op) : SearchQueue :=
  ops.foldl SearchQueue.step q

/-- The dispatches of a run: for every `pop` that returned a search, the tick its gate
tested and the tick it stored in `lastSearchTime`, in the order of the calls. -/
def SearchQueue.dispatches (q : SearchQueue) : List Op → List (Nat × Nat)
  | [] => []
  | .pop now tick :: ops =>
    if (q.pop now tick).1.isSome then (now, tick) :: (q.pop now tick).2.dispatches ops
    else (q.pop now tick).2.dispatches ops
  | op :: ops => (q.step op).dispatches ops

/-- The interval of a non-empty queue is known: `nextInterval` lies between the smallest
and the largest value of `getInterval`, so it is not the sentinel. -/
def SearchQueue.IntervalSet (q : SearchQueue) : Prop :=
  q.searchQueue ≠ [] →
    max 5000 q.minInterval ≤ q.nextInterval ∧ q.nextInterval ≤ max 20000 q.minInterval

/-- The queue is ordered by priority: no entry is followed by one of strictly higher
priority. -/
def PrioritySorted (l : List Search) : Prop :=
  l.Pairwise (fun a b => ¬ b.priority < a.priority)

/-- The test of the scan loop of `SearchQueue::add` that lets the scan pass an entry:
it is neither of strictly lower priority than `s` nor query-equal to it. -/
def scanPasses (s e : Search) : Bool :=
  !decide (s.priority < e.priority) && !s.queryEqual e

/-- The scan loop of `SearchQueue::add` for the request `s` over the queue `l` ends at a
query-equal entry of strictly lower priority, the branch that erases the entry and whose
insertion then uses the invalidated iterator. -/
def reachesErase (s : Search) (l : List Search) : Bool :=
  match l.dropWhile (scanPasses s) with
  | e :: _ => decide (s.priority < e.priority) && e.queryEqual s
  | [] => false

/-- No `add` of the run reaches the branch that erases and inserts at the invalidated
iterator. -/
def SearchQueue.avoidsErase (q : SearchQueue) : List Op → Bool
  | [] => true
  | .add s now u :: ops =>
    !reachesErase s q.searchQueue && (q.add s now u).2.avoidsErase ops
  | .pop now tick :: ops => (q.pop now tick).2.avoidsErase ops
  | .cancelSearch aOwner :: ops => (q.cancelSearch aOwner).2.avoidsErase ops
  | .clear :: ops => q.clear.avoidsErase ops

/-- The test `s->priority < (*i)->priority` of the scan loop of `SearchQueue::add` fails:
the queued entry `e` is of equal or higher priority than `s`, and the scan goes on. -/
def staysAhead (s e : Search) : Bool :=
  !decide (s.priority < e.priority)

/-- The value of the `uint32_t x` of `SearchQueue::add` after the scan has passed the
entries of `l`, starting from `x`. -/
def scanSum (minInterval : Int) (l : List Search) (x : Nat) : Nat :=
  l.foldl (fun y e => addInterval y (getInterval minInterval e.priority)) x

/-- The estimate of `add` in the words of the specification: the sum of the intervals of
the entries ahead, minus the time elapsed since the last dispatch. -/
def specAddEstimate (minInterval : Int) (ahead : List Search) (now lastSearchTime : Nat) : Int :=
  (ahead.map (fun e => getInterval minInterval e.priority)).sum - ((now : Int) - lastSearchTime)

/-! ## The hub connection (`Client`) -/

/-- The enumeration `Client::State`. -/
inductive State where
  | STATE_CONNECTING
  | STATE_PROTOCOL
  | STATE_IDENTIFY
  | STATE_VERIFY
  | STATE_NORMAL
  | STATE_DISCONNECTED
  deriving DecidableEq, Repr

/-- The enumeration `LogMessage::Severity` of src/Message.h. -/
inductive Severity where
  | SEV_INFO
  | SEV_WARNING
  | SEV_ERROR
  deriving DecidableEq, Repr

/-- Modelled from the spec: the flag handed to `Client::statusMessage`, declared with
`ClientListener` in a header that is not among the sources; the source names
`FLAG_NORMAL` and `FLAG_IS_SPAM`. -/
inductive StatusFlag where
  | FLAG_NORMAL
  | FLAG_IS_SPAM
  deriving DecidableEq, Repr

/-- What a `Client` method does to its surroundings, in the order it happens: the
notifications it fires, the calls it makes to the socket, to the protocol subclass and to
the managers, and the messages it appends to the message cache that observers read. -/
inductive Effect where
  | ConnectStateChanged (aState : State)
  | Failed (hubUrl : String) (aError : String)
  | putSocket
  | sockConnect
  | search (s : Search)
  | Connected
  | Disconnecting
  | StatusMessage (text : String) (aSeverity : Severity) (aFlag : StatusFlag)
  | AddLine (text : String)
  | MessagesRead
  | MessagesCleared
  | Redirect (redirectUrl : String)
  | Redirected (hubUrl : String) (redirectUrl : String)
  | managerRedirect (hubUrl : String) (redirectUrl : String)
  | cacheAddMessage (text : String)
  | logStatus (text : String)
  | clearUsers
  | removeUserCommand (hubUrl : String)
  | removeTimerListener
  | sockDisconnect (graceLess : Bool)
  | sockRemoveListener
  | putSocketThen
  | logChat (text : String)
  | ChatMessage (text : String)
  deriving DecidableEq, Repr

/-- Modelled from the spec: a message held by the `MessageCache`, a chat message or a
status line, with its read mark (the `read` member of src/Message.h). -/
structure CachedMessage where
  text : String
  isChat : Bool
  read : Bool
  deriving DecidableEq, Repr

/-- Modelled from the spec: the `MessageCache` collaborator, whose header is not among the
sources: "append-only bounded history of chat/status messages per conversation, tracks
read/unread count, supports clear", with the interface `addMessage(msg)`,
`setRead() -> count`, `clear() -> count`. `limit` is the bound of the history. -/
structure MessageCache where
  messages : List CachedMessage
  limit : Nat
  deriving DecidableEq, Repr

/-- Modelled from the spec: `MessageCache::addMessage`, which appends the message and
keeps the history within its bound by dropping the oldest messages. -/
def MessageCache.addMessage (m : MessageCache) (msg : CachedMessage) : MessageCache :=
  { m with messages := (m.messages ++ [msg]).drop ((m.messages ++ [msg]).length - m.limit) }

/-- Modelled from the spec: `MessageCache::setRead`, which marks every message read and
returns the number of messages newly marked. -/
def MessageCache.setRead (m : MessageCache) : Nat × MessageCache :=
  ((m.messages.filter (fun x => !x.read)).length,
    { m with messages := m.messages.map (fun x => { x with read := true }) })

/-- Modelled from the spec: `MessageCache::clear`, which removes every message and returns
the number of messages removed. -/
def MessageCache.clear (m : MessageCache) : Nat × MessageCache :=
  (m.messages.length, { m with messages := [] })

/-- Modelled from the spec: the flags of the local `Identity` that `Client::updateCounts`
reads through `isOp()` and `isRegistered()`; the class is declared in a header that is not
among the sources. -/
structure Identity where
  isOp : Bool
  isRegistered : Bool
  deriving DecidableEq, Repr

/-- The enumeration `Client::CountType` of src/Client.h. -/
inductive CountType where
  | COUNT_NORMAL
  | COUNT_REGISTERED
  | COUNT_OP
  | COUNT_UNCOUNTED
  deriving DecidableEq, Repr

/-- The process-wide array `Client::counts`, of which the entries at `COUNT_NORMAL`,
`COUNT_REGISTERED` and `COUNT_OP` are used. -/
structure Counts where
  normal : Int
  registered : Int
  op : Int
  deriving DecidableEq, Repr

/-- The members of `Client` that the modelled methods read or write. `sock` tells whether
the socket pointer is non-null; `effects` is the log of effects so far. -/
structure Client where
  state : State
  sock : Bool
  redirectUrl : String
  autoReconnect : Bool
  reconnDelay : Nat
  registered : Bool
  lastActivity : Nat
  hubUrl : String
  searchQueue : SearchQueue
  effects : List Effect
  myIdentity : Identity
  countType : CountType
  secure : Bool
  keyprint : String
  iskeypError : Bool
  cache : MessageCache
  deriving DecidableEq, Repr

/-- How the socket calls inside the `try` block of `Client::connect` end. -/
inductive SockResult where
  | ok
  | getSocketThrows (error : String)
  | connectThrows (error : String)
  deriving DecidableEq, Repr

/-- What `Client::connect` reads from its surroundings: the value of `Util::rand(0, 60)`,
the hub setting `SearchInterval`, the outcome of the socket calls, `GET_TICK()`, and the
flags of the fresh identity `Identity(ClientManager::getInstance()->getMe(), 0)`. -/
structure ConnectEnv where
  rand : Nat
  searchInterval : Int
  sockResult : SockResult
  tick : Nat
  me : Identity
  deriving DecidableEq, Repr

/-- The method `Client::setConnectState`. -/
def Client.setConnectState (c : Client) (aState : State) : Client :=
  if c.state = aState then c
  else { c with state := aState, effects := c.effects ++ [Effect.ConnectStateChanged aState] }

/-- The method `Client::isConnected`. -/
def Client.isConnected (c : Client) : Bool :=
  c.state != State.STATE_CONNECTING && c.state != State.STATE_DISCONNECTED

/-- Modelled from the spec: `Client::updateActivity`, whose body is not among the sources;
the spec says every call to connect updates the last-activity timestamp. -/
def Client.updateActivity (c : Client) (tick : Nat) : Client :=
  { c with lastActivity := tick }

/-- The method `Client::connect`. Of `reloadSettings` the write to
`searchQueue.minInterval` is kept; the hub identity and the favourite settings it and
`connect` reset are not members of this model. -/
def Client.connect (c : Client) (env : ConnectEnv) : Client :=
  let c1 : Client :=
    if c.sock then { c with sock := false, effects := c.effects ++ [Effect.putSocket] } else c
  let c2 : Client :=
    { c1 with
      redirectUrl := ""
      autoReconnect := true
      reconnDelay := (120 + env.rand) % 2 ^ 32
      searchQueue := { c1.searchQueue with minInterval := env.searchInterval * 1000 }
      registered := false
      myIdentity := env.me }
  let c3 := c2.setConnectState State.STATE_CONNECTING
  let c4 : Client :=
    match env.sockResult with
    | .ok => { c3 with sock := true, effects := c3.effects ++ [Effect.sockConnect] }
    | .getSocketThrows e =>
      let d := c3.setConnectState State.STATE_DISCONNECTED
      { d with effects := d.effects ++ [Effect.Failed d.hubUrl e] }
    | .connectThrows e =>
      let d := { c3 with sock := true }.setConnectState State.STATE_DISCONNECTED
      { d with effects := d.effects ++ [Effect.Failed d.hubUrl e] }
  c4.updateActivity env.tick

/-- The second half of `Client::on(Second)`: the search dispatch. `popNow` and `popTick`
are the two readings of `GET_TICK()` inside `SearchQueue::pop`. -/
def Client.searchTick (c : Client) (aTick popNow popTick : Nat) : Client :=
  if c.searchQueue.hasWaitingTime aTick then c
  else if c.isConnected then
    let r := c.searchQueue.pop popNow popTick
    match r.1 with
    | some s => { c with searchQueue := r.2, effects := c.effects ++ [Effect.search s] }
    | none => { c with searchQueue := r.2 }
  else c

/-- The guard of the reconnect in `Client::on(Second)`:
`state == STATE_DISCONNECTED && getAutoReconnect() &&
aTick > getLastActivity() + getReconnDelay() * 1000`, the product in `uint32_t` and the
sum in `uint64_t`. -/
def Client.reconnectDue (c : Client) (aTick : Nat) : Bool :=
  decide (c.state = State.STATE_DISCONNECTED) && c.autoReconnect &&
    decide ((c.lastActivity + (c.reconnDelay * 1000) % 2 ^ 32) % 2 ^ 64 < aTick)

/-- The handler `Client::on(Second, aTick)`. -/
def Client.onSecond (c : Client) (aTick : Nat) (env : ConnectEnv) (popNow popTick : Nat) :
    Client :=
  let c1 := if c.reconnectDue aTick then c.connect env else c
  c1.searchTick aTick popNow popTick

/-! ## More of the hub connection: messages, redirects, failures and counts -/

/-- Modelled from the spec: the text `STRING(CONNECTED)`; the string table is not among
the sources and the key stands for the text. -/
def STRING_CONNECTED : String := "CONNECTED"

/-- Modelled from the spec: the text `STRING(REDIRECT_ALREADY_CONNECTED)`, the spec's
"already connected" status message. -/
def STRING_REDIRECT_ALREADY_CONNECTED : String := "REDIRECT_ALREADY_CONNECTED"

/-- Modelled from the spec: the text `STRING(HUB_NOT_PROTECTED)`. -/
def STRING_HUB_NOT_PROTECTED : String := "HUB_NOT_PROTECTED"

/-- The method `Client::stateNormal` of src/Client.h. -/
def Client.stateNormal (c : Client) : Bool :=
  c.state == State.STATE_NORMAL

/-- The method `Client::disconnect`. -/
def Client.disconnect (c : Client) (graceLess : Bool) : Client :=
  if c.sock then { c with effects := c.effects ++ [Effect.sockDisconnect graceLess] } else c

/-- The method `Client::reconnect`. -/
def Client.reconnect (c : Client) : Client :=
  { c.disconnect true with autoReconnect := true, reconnDelay := 0 }

/-- The call `cache.addMessage(message)` made by a `Client` method. -/
def Client.cacheAdd (c : Client) (text : String) (isChat : Bool) : Client :=
  { c with
    cache := c.cache.addMessage { text := text, isChat := isChat, read := false }
    effects := c.effects ++ [Effect.cacheAddMessage text] }

/-- The body of `if (aFlag != ClientListener::FLAG_IS_SPAM)` in `Client::statusMessage`;
`logStatusMessages` is `SETTING(LOG_STATUS_MESSAGES)`. -/
def Client.statusKeep (c : Client) (aMessage : String) (logStatusMessages : Bool) : Client :=
  if logStatusMessages then
    { c.cacheAdd aMessage false with
      effects := (c.cacheAdd aMessage false).effects ++ [Effect.logStatus aMessage] }
  else c.cacheAdd aMessage false

/-- The method `Client::statusMessage`. -/
def Client.statusMessage (c : Client) (aMessage : String) (aSeverity : Severity)
    (aFlag : StatusFlag) (logStatusMessages : Bool) : Client :=
  if aFlag ≠ StatusFlag.FLAG_IS_SPAM then
    { c.statusKeep aMessage logStatusMessages with
      effects := (c.statusKeep aMessage logStatusMessages).effects ++
        [Effect.StatusMessage aMessage aSeverity aFlag] }
  else { c with effects := c.effects ++ [Effect.StatusMessage aMessage aSeverity aFlag] }

/-- The method `Client::onChatMessage`. `ignoredOrFiltered` is the answer of
`MessageManager::isIgnoredOrFiltered` for the message and `logMainChat` is the hub
setting `LogMainChat`; the line written to the chat log is recorded as `logChat`. -/
def Client.onChatMessage (c : Client) (aMessage : String) (ignoredOrFiltered : Bool)
    (logMainChat : Bool) : Client :=
  if ignoredOrFiltered then c
  else if logMainChat then
    { c with
      cache := c.cache.addMessage { text := aMessage, isChat := true, read := false }
      effects := c.effects ++ [Effect.logChat aMessage, Effect.cacheAddMessage aMessage,
        Effect.ChatMessage aMessage] }
  else
    { c with
      cache := c.cache.addMessage { text := aMessage, isChat := true, read := false }
      effects := c.effects ++ [Effect.cacheAddMessage aMessage, Effect.ChatMessage aMessage] }

/-- The method `Client::setRead`. -/
def Client.setRead (c : Client) : Client :=
  if 0 < c.cache.setRead.1 then
    { c with cache := c.cache.setRead.2, effects := c.effects ++ [Effect.MessagesRead] }
  else { c with cache := c.cache.setRead.2 }

/-- The method `Client::clearCache`, with the value it returns. -/
def Client.clearCache (c : Client) : Nat × Client :=
  if 0 < c.cache.clear.1 then
    (c.cache.clear.1,
      { c with cache := c.cache.clear.2, effects := c.effects ++ [Effect.MessagesCleared] })
  else (c.cache.clear.1, { c with cache := c.cache.clear.2 })

/-- The method `Client::doRedirect`. `hasClient` is `ClientManager::hasClient`, the test
whether a session for a hub URL exists. -/
def Client.doRedirect (c : Client) (hasClient : String → Bool) (logStatusMessages : Bool) :
    Client :=
  if c.redirectUrl = "" then c
  else if hasClient c.redirectUrl then
    c.statusMessage STRING_REDIRECT_ALREADY_CONNECTED Severity.SEV_INFO StatusFlag.FLAG_NORMAL
      logStatusMessages
  else
    { c with
      effects := c.effects ++
        [Effect.managerRedirect c.hubUrl c.redirectUrl, Effect.Redirected c.hubUrl c.redirectUrl] }

/-- The method `Client::onRedirect`; `autoFollow` is `SETTING(AUTO_FOLLOW)`. -/
def Client.onRedirect (c : Client) (aRedirectUrl : String) (hasClient : String → Bool)
    (autoFollow logStatusMessages : Bool) : Client :=
  if hasClient aRedirectUrl then
    c.statusMessage STRING_REDIRECT_ALREADY_CONNECTED Severity.SEV_INFO StatusFlag.FLAG_NORMAL
      logStatusMessages
  else if autoFollow then
    Client.doRedirect { c with redirectUrl := aRedirectUrl } hasClient logStatusMessages
  else
    { c with redirectUrl := aRedirectUrl, effects := c.effects ++ [Effect.Redirect aRedirectUrl] }

/-- The method `Client::allowUntrustedConnect`. -/
def Client.allowUntrustedConnect (c : Client) (env : ConnectEnv) : Client :=
  if c.isConnected || !c.iskeypError then c
  else Client.connect { c with keyprint := "" } env

/-- The handler `Client::on(BufferedSocketListener::Connected)`. -/
def Client.onConnected (c : Client) (tick : Nat) (logStatusMessages : Bool) : Client :=
  let c1 := (c.statusMessage STRING_CONNECTED Severity.SEV_INFO StatusFlag.FLAG_NORMAL
    logStatusMessages).updateActivity tick
  Client.setConnectState { c1 with effects := c1.effects ++ [Effect.Connected] }
    State.STATE_PROTOCOL

/-- The test `secure && SETTING(ALLOW_UNTRUSTED_HUBS) && sock && !sock->isKeyprintMatch()`
of `Client::on(Failed)`. -/
def Client.keyprintFailure (c : Client) (allowUntrustedHubs keyprintMatch : Bool) : Bool :=
  c.secure && allowUntrustedHubs && c.sock && !keyprintMatch

/-- The text `aError` that `Client::on(Failed)` reports for the line `aLine`. -/
def Client.failedText (c : Client) (aLine : String) (allowUntrustedHubs keyprintMatch : Bool) :
    String :=
  if c.keyprintFailure allowUntrustedHubs keyprintMatch then
    aLine ++ ", type /allow to proceed with untrusted connection"
  else aLine

/-- The first half of `Client::on(Failed)`, up to the change of state: the roster is
cleared, the user commands of a hub in state NORMAL are removed and a keyprint failure is
recorded. -/
def Client.failedStart (c : Client) (allowUntrustedHubs keyprintMatch : Bool) : Client :=
  { c with
    effects := c.effects ++ [Effect.clearUsers] ++
      (if c.stateNormal then [Effect.removeUserCommand c.hubUrl] else [])
    iskeypError := c.iskeypError || c.keyprintFailure allowUntrustedHubs keyprintMatch }

/-- The handler `Client::on(Failed, aLine)`. `sock->removeListener(this)` is a call on the
socket that delivers the failure. -/
def Client.onFailed (c : Client) (aLine : String)
    (allowUntrustedHubs keyprintMatch logStatusMessages : Bool) : Client :=
  let c1 := ((c.failedStart allowUntrustedHubs keyprintMatch).setConnectState
    State.STATE_DISCONNECTED).statusMessage
      (c.failedText aLine allowUntrustedHubs keyprintMatch) Severity.SEV_WARNING
      StatusFlag.FLAG_NORMAL logStatusMessages
  { c1 with
    effects := c1.effects ++
      [Effect.sockRemoveListener,
        Effect.Failed c.hubUrl (c.failedText aLine allowUntrustedHubs keyprintMatch)] }

/-- The statements `counts[t]++` and `counts[t]--`: `d` is added to the entry at `t`. The
source never indexes the array with `COUNT_UNCOUNTED`. -/
def Counts.add (n : Counts) (t : CountType) (d : Int) : Counts :=
  match t with
  | .COUNT_NORMAL => { n with normal := n.normal + d }
  | .COUNT_REGISTERED => { n with registered := n.registered + d }
  | .COUNT_OP => { n with op := n.op + d }
  | .COUNT_UNCOUNTED => n

/-- The method `Client::getTotalCounts` of src/Client.h: the sum of the three `long`
counters, returned as an `int`. -/
def getTotalCounts (n : Counts) : Int :=
  (n.normal + n.registered + n.op + 2 ^ 31) % 2 ^ 32 - 2 ^ 31

/-- The first statement of `Client::updateCounts`: the count in place is removed. -/
def Client.uncount (c : Client) (n : Counts) : Client × Counts :=
  if c.countType ≠ CountType.COUNT_UNCOUNTED then
    ({ c with countType := CountType.COUNT_UNCOUNTED }, n.add c.countType (-1))
  else (c, n)

/-- The method `Client::updateCounts` on the process-wide counters `n`;
`disallowPassed` is `SETTING(DISALLOW_CONNECTION_TO_PASSED_HUBS)`. The result is the
returned flag, the session and the counters. -/
def Client.updateCounts (c : Client) (n : Counts) (aRemove disallowPassed : Bool) :
    Bool × Client × Counts :=
  if aRemove then (true, (c.uncount n).1, (c.uncount n).2)
  else if c.myIdentity.isOp then
    (true, { (c.uncount n).1 with countType := CountType.COUNT_OP },
      (c.uncount n).2.add CountType.COUNT_OP 1)
  else if c.myIdentity.isRegistered then
    (true, { (c.uncount n).1 with countType := CountType.COUNT_REGISTERED },
      (c.uncount n).2.add CountType.COUNT_REGISTERED 1)
  else if disallowPassed then
    (false,
      { Client.disconnect
          { (c.uncount n).1 with
            effects := (c.uncount n).1.effects ++ [Effect.AddLine STRING_HUB_NOT_PROTECTED] }
          true with autoReconnect := false },
      (c.uncount n).2)
  else
    (true, { (c.uncount n).1 with countType := CountType.COUNT_NORMAL },
      (c.uncount n).2.add CountType.COUNT_NORMAL 1)

/-- The synchronous part of `Client::shutdown`: the listeners are removed, observers are
told unless the session is being redirected, and the socket, when there is one, is handed
back together with the callback `Client.shutdownCallback`. -/
def Client.shutdown (c : Client) (aRedirect : Bool) : Client :=
  { c with
    effects := c.effects ++ [Effect.removeUserCommand c.hubUrl, Effect.removeTimerListener] ++
      (if aRedirect then [] else [Effect.Disconnecting]) ++
      (if c.sock then [Effect.putSocketThen] else []) }

/-- The callback that `Client::shutdown` hands to `BufferedSocket::putSocket`, run when the
socket is released. -/
def Client.shutdownCallback (c : Client) (n : Counts) (aRedirect : Bool) : Client × Counts :=
  Client.uncount
    { c with
      state := State.STATE_DISCONNECTED
      cache := if aRedirect then c.cache else c.cache.clear.2
      effects := c.effects ++ [Effect.clearUsers] } n

/-- The constructor `Client::Client` for a session without a predecessor. `secure` and
`keyprint` are what `setHubUrl` decodes from the URL, `me` the flags of the fresh
identity, `tick` the reading of `GET_TICK()`; the search queue is a new one. -/
def Client.new (hubUrl : String) (secure : Bool) (keyprint : String) (me : Identity)
    (tick : Nat) (cache : MessageCache) (minInterval : Int) (lastSearchTime : Nat) : Client :=
  { state := State.STATE_DISCONNECTED
    sock := false
    redirectUrl := ""
    autoReconnect := false
    reconnDelay := 120
    registered := false
    lastActivity := tick
    hubUrl := hubUrl
    searchQueue := SearchQueue.new minInterval lastSearchTime
    effects := []
    myIdentity := me
    countType := CountType.COUNT_UNCOUNTED
    secure := secure
    keyprint := keyprint
    iskeypError := false
    cache := cache }

/-! ## Runs of hub connections -/

/-- One event of a hub connection: a call of one of the modelled methods of `Client`,
with what the call reads from its surroundings. `setConnectState` and `setMyIdentity` are
the steps of the handshake made by the protocol subclass, `shutdownCallback` is the release
of the socket after `shutdown`. -/
inductive ClientOp where
  | connect (env : ConnectEnv)
  | onConnected (tick : Nat) (logStatusMessages : Bool)
  | onFailed (aLine : String) (allowUntrustedHubs keyprintMatch logStatusMessages : Bool)
  | onSecond (aTick : Nat) (env : ConnectEnv) (popNow popTick : Nat)
  | setConnectState (aState : State)
  | setMyIdentity (me : Identity)
  | updateCounts (aRemove disallowPassed : Bool)
  | shutdown (aRedirect : Bool)
  | shutdownCallback (aRedirect : Bool)
  | allowUntrustedConnect (env : ConnectEnv)
  | reconnect
  | onRedirect (aRedirectUrl : String) (hasClient : String → Bool)
      (autoFollow logStatusMessages : Bool)
  | doRedirect (hasClient : String → Bool) (logStatusMessages : Bool)
  | setRead
  | clearCache
  | queueSearch (s : Search) (now : Nat) (u : List Search)
  | cancelSearch (aOwner : Nat)

/-- The session and the process-wide counters after one event. The two socket callbacks
`on(Connected)` and `on(Failed)` are delivered by the socket of the session, so they only
arrive while there is one. -/
def Client.step (x : Client × Counts) : ClientOp → Client × Counts
  | .connect env => (x.1.connect env, x.2)
  | .onConnected tick l => (if x.1.sock then x.1.onConnected tick l else x.1, x.2)
  | .onFailed aLine a k l => (if x.1.sock then x.1.onFailed aLine a k l else x.1, x.2)
  | .onSecond aTick env popNow popTick => (x.1.onSecond aTick env popNow popTick, x.2)
  | .setConnectState aState => (x.1.setConnectState aState, x.2)
  | .setMyIdentity me => ({ x.1 with myIdentity := me }, x.2)
  | .updateCounts aRemove d => (x.1.updateCounts x.2 aRemove d).2
  | .shutdown aRedirect => (x.1.shutdown aRedirect, x.2)
  | .shutdownCallback aRedirect => x.1.shutdownCallback x.2 aRedirect
  | .allowUntrustedConnect env => (x.1.allowUntrustedConnect env, x.2)
  | .reconnect => (x.1.reconnect, x.2)
  | .onRedirect url hasClient a l => (x.1.onRedirect url hasClient a l, x.2)
  | .doRedirect hasClient l => (x.1.doRedirect hasClient l, x.2)
  | .setRead => (x.1.setRead, x.2)
  | .clearCache => (x.1.clearCache.2, x.2)
  | .queueSearch s now u =>
    ({ x.1 with searchQueue := (x.1.searchQueue.add s now u).2 }, x.2)
  | .cancelSearch aOwner =>
    ({ x.1 with searchQueue := (x.1.searchQueue.cancelSearch aOwner).2 }, x.2)

/-- The session and the counters after a sequence of events. -/
def Client.run (x : Client × Counts) (ops : List ClientOp) : Client × Counts :=
  ops.foldl Client.step x

/-- Some event of the run was a transport failure with a keyprint failure: the session was
secure, untrusted hubs were allowed and the socket reported a keyprint mismatch. -/
def Client.sawKeyprintFailure (x : Client × Counts) : List ClientOp → Bool
  | [] => false
  | .onFailed aLine a k l :: ops =>
    x.1.keyprintFailure a k ||
      Client.sawKeyprintFailure (Client.step x (.onFailed aLine a k l)) ops
  | op :: ops => Client.sawKeyprintFailure (Client.step x op) ops

/-- The searches dispatched so far: the calls of `search` in the log of effects. -/
def Client.dispatched (c : Client) : List Search :=
  c.effects.filterMap (fun e => match e with
    | .search s => some s
    | _ => none)

/-- All the hub connections of the process with the counters they share. -/
structure Hubs where
  clients : List Client
  counts : Counts

/-- The hubs after an event of the session at position `i`. -/
def Hubs.step (w : Hubs) (e : Nat × ClientOp) : Hubs :=
  match w.clients[e.1]? with
  | none => w
  | some c =>
    { clients := w.clients.set e.1 (Client.step (c, w.counts) e.2).1
      counts := (Client.step (c, w.counts) e.2).2 }

/-- The hubs after a sequence of events, each with the position of its session. -/
def Hubs.run (w : Hubs) (ops : List (Nat × ClientOp)) : Hubs :=
  ops.foldl Hubs.step w

/-- The number of sessions whose count classification is `t`. -/
def Hubs.classified (w : Hubs) (t : CountType) : Nat :=
  w.clients.countP (fun c => c.countType = t)

/-- The number of sessions in connection state NORMAL. -/
def Hubs.inStateNormal (w : Hubs) : Nat :=
  w.clients.countP (fun c => c.state = State.STATE_NORMAL)

/-- The counters agree with the classifications: each counter is the number of sessions
classified at its type. -/
def Hubs.CountsMatch (w : Hubs) : Prop :=
  w.counts.normal = w.classified CountType.COUNT_NORMAL ∧
  w.counts.registered = w.classified CountType.COUNT_REGISTERED ∧
  w.counts.op = w.classified CountType.COUNT_OP

/-! ## The private chat (`PrivateChat`) -/

/-- Modelled from the spec: the CCPM sub-state of `PrivateChat`, whose enumeration is
declared in a header that is not among the sources. -/
inductive CCPMState where
  | CONNECTING
  | CONNECTED
  | DISCONNECTED
  deriving DecidableEq, Repr

/-- Modelled from the spec: the numeric value of a CCPM sub-state. `PrivateChat::startCC`
returns early on `ccpmState < DISCONNECTED`, which the spec reads as "a channel attempt is
already in progress or established", so `CONNECTING` and `CONNECTED` lie below
`DISCONNECTED`; `ccpmStateToString` lists the states in the same order. -/
def CCPMState.rank : CCPMState → Nat
  | CCPMState.CONNECTING => 0
  | CCPMState.CONNECTED => 1
  | CCPMState.DISCONNECTED => 2

/-- Modelled from the spec: the info signals of the PMI extension, named as in
`PrivateChat::sendPMInfo`; `PMINFO_LAST` is the value that stands for no signal. -/
inductive PMInfo where
  | MSG_SEEN
  | TYPING_ON
  | TYPING_OFF
  | NO_AUTOCONNECT
  | QUIT
  | PMINFO_LAST
  deriving DecidableEq, Repr

/-- The kinds of delayed events that `PrivateChat` schedules on `delayEvents`. -/
inductive DelayEvent where
  | USER_UPDATE
  | CCPM_TIMEOUT
  | CCPM_AUTO
  deriving DecidableEq, Repr

/-- The callbacks that `PrivateChat` hands to `delayEvents.addEvent`: the calls of
`checkAlwaysCCPM` and of `checkCCPMTimeout`, the lambda of `on(UserDisconnected)` and the
lambda of `on(UserUpdated)`. -/
inductive DelayCallback where
  | checkAlwaysCCPM
  | checkCCPMTimeout
  | userDisconnectedUpdate
  | userUpdatedUpdate
  deriving DecidableEq, Repr

/-- A delayed event that is scheduled and has not fired yet. -/
structure PendingEvent where
  kind : DelayEvent
  callback : DelayCallback
  delay : Nat
  deriving DecidableEq, Repr

/-- Modelled from the spec: `DelayedEvents::addEvent`, "scheduled one-shot callbacks that
can be cancelled (superseded) by a subsequent event of the same kind before they fire";
the class is declared in a header that is not among the sources. -/
def addEvent (es : List PendingEvent) (kind : DelayEvent) (callback : DelayCallback)
    (delay : Nat) : List PendingEvent :=
  es.filter (fun e => e.kind ≠ kind) ++ [{ kind := kind, callback := callback, delay := delay }]

/-- Modelled from the spec: `DelayedEvents::removeEvent`, which cancels the pending event
of the given kind. -/
def removeEvent (es : List PendingEvent) (kind : DelayEvent) : List PendingEvent :=
  es.filter (fun e => e.kind ≠ kind)

/-- What a `PrivateChat` method does to its surroundings, in the order it happens: the
notifications it fires, the messages it appends to the message cache, the requests it
makes to `ClientManager` and `LogManager`, and the calls it makes through the user
connection pointer `uc`, each recorded with the value of the pointer at the call (`none`
is the null pointer). -/
inductive ChatEffect where
  | MessagesRead
  | MessagesCleared
  | StatusMessage (text : String) (aSeverity : Severity)
  | PrivateMessage (text : String)
  | UserUpdated
  | CCPMStatusUpdated
  | Close
  | cacheAddMessage (text : String)
  | PMStatus (aType : PMInfo)
  | connect (hint : String)
  | privateMessage (hint : String) (msg : String)
  | removePmCache
  | ucAddListener (uc : Option Nat)
  | ucRemoveListener (uc : Option Nat)
  | ucDisconnect (uc : Option Nat) (graceless : Bool)
  | ucPm (uc : Option Nat) (msg : String)
  | ucSend (uc : Option Nat) (name : String) (value : String)
  deriving DecidableEq, Repr

/-- The pointer through which a logged effect calls the user connection, if it is such a
call. -/
def ChatEffect.deref : ChatEffect → Option (Option Nat)
  | ChatEffect.ucAddListener uc => some uc
  | ChatEffect.ucRemoveListener uc => some uc
  | ChatEffect.ucDisconnect uc _ => some uc
  | ChatEffect.ucPm uc _ => some uc
  | ChatEffect.ucSend uc _ _ => some uc
  | _ => none

/-- The members of `PrivateChat` set by its constructor. `uc` is the user connection of
the direct channel, if any, `hint` is `replyTo.hint`, `delayEvents` holds the delayed
events that are pending. -/
structure PrivateChat where
  uc : Option Nat
  hint : String
  ccpmAttempts : Nat
  allowAutoCCPM : Bool
  lastCCPMAttempt : Nat
  ccpmState : CCPMState
  online : Bool
  hubName : String
  supportsCCPM : Bool
  lastCCPMError : String
  delayEvents : List PendingEvent
  cache : MessageCache
  effects : List ChatEffect
  deriving DecidableEq, Repr

/-- The method `PrivateChat::setRead`. -/
def PrivateChat.setRead (p : PrivateChat) : PrivateChat :=
  if 0 < p.cache.setRead.1 then
    { p with cache := p.cache.setRead.2, effects := p.effects ++ [ChatEffect.MessagesRead] }
  else { p with cache := p.cache.setRead.2 }

/-- The method `PrivateChat::clearCache`, with the value it returns. -/
def PrivateChat.clearCache (p : PrivateChat) : Nat × PrivateChat :=
  if 0 < p.cache.clear.1 then
    (p.cache.clear.1,
      { p with cache := p.cache.clear.2, effects := p.effects ++ [ChatEffect.MessagesCleared] })
  else (p.cache.clear.1, { p with cache := p.cache.clear.2 })

/-- Modelled from the spec: the text `STRING(CCPM_ESTABLISHED)`; as for the hub
connection, the key of the string table stands for the text. -/
def STRING_CCPM_ESTABLISHED : String := "CCPM_ESTABLISHED"

/-- Modelled from the spec: the text `STRING(CCPM_DISCONNECTED)`. -/
def STRING_CCPM_DISCONNECTED : String := "CCPM_DISCONNECTED"

/-- Modelled from the spec: the text `STRING(CCPM_ESTABLISHING)`. -/
def STRING_CCPM_ESTABLISHING : String := "CCPM_ESTABLISHING"

/-- Modelled from the spec: the text `STRING(CCPM_TIMEOUT)`, the timeout status message. -/
def STRING_CCPM_TIMEOUT : String := "CCPM_TIMEOUT"

/-- Modelled from the spec: the text `STRING(USER_WENT_OFFLINE)`. -/
def STRING_USER_WENT_OFFLINE : String := "USER_WENT_OFFLINE"

/-- Modelled from the spec: the text `STRING(USER_WENT_ONLINE)`. -/
def STRING_USER_WENT_ONLINE : String := "USER_WENT_ONLINE"

/-- Modelled from the spec: the text `STRING_F(MESSAGES_SENT_THROUGH_REMOTE, hub)`. -/
def STRING_F_MESSAGES_SENT_THROUGH_REMOTE (hub : String) : String :=
  "MESSAGES_SENT_THROUGH_REMOTE " ++ hub

/-- Modelled from the spec: the text `STRING_F(USER_OFFLINE_PM_CHANGE, a % b)`. -/
def STRING_F_USER_OFFLINE_PM_CHANGE (a b : String) : String :=
  "USER_OFFLINE_PM_CHANGE " ++ a ++ " " ++ b

/-- Modelled from the spec: the text `STRING_F(MESSAGES_SENT_THROUGH, hub)`. -/
def STRING_F_MESSAGES_SENT_THROUGH (hub : String) : String :=
  "MESSAGES_SENT_THROUGH " ++ hub

/-- Modelled from the spec: `PrivateChat::ccReady` of the header that is not among the
sources, "the direct channel is CONNECTED". -/
def PrivateChat.ccReady (p : PrivateChat) : Bool :=
  p.ccpmState == CCPMState.CONNECTED

/-- The method `PrivateChat::statusMessage`: the notification is fired first, the message
is appended to the cache after it. -/
def PrivateChat.statusMessage (p : PrivateChat) (aMessage : String) (aSeverity : Severity) :
    PrivateChat :=
  { p with
    cache := p.cache.addMessage { text := aMessage, isChat := false, read := false }
    effects := p.effects ++
      [ChatEffect.StatusMessage aMessage aSeverity, ChatEffect.cacheAddMessage aMessage] }

/-- The method `PrivateChat::setHubUrl`; `aHubName` is the answer of
`ClientManager::getHubName` for the new hint. -/
def PrivateChat.setHubUrl (p : PrivateChat) (hint : String) (aHubName : String) :
    PrivateChat :=
  { p with hint := hint, hubName := aHubName }

/-- A notification fired, or a call made, by a `PrivateChat` method, added to the log. -/
def PrivateChat.fire (p : PrivateChat) (e : ChatEffect) : PrivateChat :=
  { p with effects := p.effects ++ [e] }

/-- The parameter that `PrivateChat::sendPMInfo` adds to the PMI command for a signal. -/
def pmiParam : PMInfo → String × String
  | PMInfo.MSG_SEEN => ("SN", "1")
  | PMInfo.TYPING_ON => ("TP", "1")
  | PMInfo.TYPING_OFF => ("TP", "0")
  | PMInfo.NO_AUTOCONNECT => ("AC", "0")
  | PMInfo.QUIT => ("QU", "1")
  | PMInfo.PMINFO_LAST => ("\n", "")

/-- The method `PrivateChat::sendPMInfo`; `cpmi` is the answer of
`uc->isSet(UserConnection::FLAG_CPMI)`. -/
def PrivateChat.sendPMInfo (p : PrivateChat) (aType : PMInfo) (cpmi : Bool) : PrivateChat :=
  if p.ccReady && p.uc.isSome && cpmi then
    p.fire (ChatEffect.ucSend p.uc (pmiParam aType).1 (pmiParam aType).2)
  else p

/-- The method `PrivateChat::CCPMConnected`. -/
def PrivateChat.CCPMConnected (p : PrivateChat) (aUc : Option Nat) : PrivateChat :=
  ((({ p with ccpmState := CCPMState.CONNECTED, uc := aUc } : PrivateChat).fire
    (ChatEffect.ucAddListener aUc)).statusMessage STRING_CCPM_ESTABLISHED
      Severity.SEV_INFO).fire ChatEffect.CCPMStatusUpdated

/-- The statements of `PrivateChat::CCPMDisconnected` under `if (ccReady())`. -/
def PrivateChat.channelLost (p : PrivateChat) : PrivateChat :=
  { (((({ p with ccpmState := CCPMState.DISCONNECTED } : PrivateChat).fire
      (ChatEffect.ucRemoveListener p.uc)).statusMessage STRING_CCPM_DISCONNECTED
        Severity.SEV_INFO).fire ChatEffect.CCPMStatusUpdated) with
    uc := none
    delayEvents :=
      addEvent p.delayEvents DelayEvent.CCPM_AUTO DelayCallback.checkAlwaysCCPM 1000 }

/-- The method `PrivateChat::CCPMDisconnected`. -/
def PrivateChat.CCPMDisconnected (p : PrivateChat) : PrivateChat :=
  if p.ccReady then p.channelLost else p

/-- The method `PrivateChat::sendMessage`, with the value it returns; `relayed` is the
answer of `ClientManager::privateMessage`. -/
def PrivateChat.sendMessage (p : PrivateChat) (msg : String) (relayed : Bool) :
    Bool × PrivateChat :=
  if p.ccReady then (true, p.fire (ChatEffect.ucPm p.uc msg))
  else (relayed, p.fire (ChatEffect.privateMessage p.hint msg))

/-- The statements of `PrivateChat::closeCC` under `if (noAutoConnect)`. -/
def PrivateChat.closeCCNotify (p : PrivateChat) (noAutoConnect : Bool) (cpmi : Bool) :
    PrivateChat :=
  if noAutoConnect then { p.sendPMInfo PMInfo.NO_AUTOCONNECT cpmi with allowAutoCCPM := false }
  else p

/-- The statements of `PrivateChat::closeCC` under `if (now)`. -/
def PrivateChat.closeCCNow (p : PrivateChat) (now : Bool) : PrivateChat :=
  if now then
    { (({ p with ccpmState := CCPMState.DISCONNECTED } : PrivateChat).fire
        (ChatEffect.ucRemoveListener p.uc)) with uc := none }
  else p

/-- The method `PrivateChat::closeCC`; `cpmi` is the answer of
`uc->isSet(UserConnection::FLAG_CPMI)`. -/
def PrivateChat.closeCC (p : PrivateChat) (now : Bool) (noAutoConnect : Bool) (cpmi : Bool) :
    PrivateChat :=
  if p.ccReady then
    (((p.closeCCNotify noAutoConnect cpmi).fire
      (ChatEffect.ucDisconnect (p.closeCCNotify noAutoConnect cpmi).uc
        (now && !noAutoConnect))).closeCCNow now)
  else p

/-- The statements of `PrivateChat::handleMessage` under the test that the message comes
through another hub than `replyTo.hint`; `aHubUrl` is the hub URL of the reply-to user of
the message and `aHubName` the answer of `ClientManager::getHubName` for it. -/
def PrivateChat.handleHub (p : PrivateChat) (aHubUrl : String) (aHubName : String) :
    PrivateChat :=
  if aHubUrl ≠ p.hint then
    if !p.ccReady then
      (((p.statusMessage (STRING_F_MESSAGES_SENT_THROUGH_REMOTE aHubName)
        Severity.SEV_INFO).setHubUrl aHubUrl aHubName).fire ChatEffect.UserUpdated)
    else (p.setHubUrl aHubUrl aHubName).fire ChatEffect.UserUpdated
  else p

/-- The method `PrivateChat::handleMessage`: the hub change handled by `handleHub`, then
the append to the cache and the notification. -/
def PrivateChat.handleMessage (p : PrivateChat) (aMessage : String) (aHubUrl : String)
    (aHubName : String) : PrivateChat :=
  (({ (p.handleHub aHubUrl aHubName) with
      cache := (p.handleHub aHubUrl aHubName).cache.addMessage
        { text := aMessage, isChat := true, read := false } } : PrivateChat).fire
    (ChatEffect.cacheAddMessage aMessage)).fire (ChatEffect.PrivateMessage aMessage)

/-- The statements of `PrivateChat::close` between the `Close` notification and the request
to `LogManager`; `cpmi` is the answer of `uc->isSet(UserConnection::FLAG_CPMI)`. -/
def PrivateChat.closeChannel (p : PrivateChat) (cpmi : Bool) : PrivateChat :=
  if p.ccReady && p.uc.isSome then
    if cpmi then p.sendPMInfo PMInfo.QUIT cpmi else p.closeCC true false cpmi
  else p

/-- The method `PrivateChat::close`. -/
def PrivateChat.close (p : PrivateChat) (cpmi : Bool) : PrivateChat :=
  ((p.fire ChatEffect.Close).closeChannel cpmi).fire ChatEffect.removePmCache

/-! ## The private chat: attempts at a direct channel, presence and signals -/

/-- The outcome of the call `ClientManager::connect` made by `PrivateChat::startCC`: the
value it returns, the flag it leaves in `protocolError`, and the text it leaves in
`lastCCPMError`, which `startCC` empties before the call. -/
structure ConnectResult where
  connecting : Bool
  protocolError : Bool
  lastCCPMError : String
  deriving DecidableEq, Repr

/-- The statements of `PrivateChat::startCC` after the call of `ClientManager::connect`. -/
def PrivateChat.startCCResult (p : PrivateChat) (connecting : Bool) : PrivateChat :=
  if !connecting then
    if !p.lastCCPMError.isEmpty then
      ({ p with ccpmState := CCPMState.DISCONNECTED } : PrivateChat).statusMessage
        p.lastCCPMError Severity.SEV_ERROR
    else { p with ccpmState := CCPMState.DISCONNECTED }
  else
    { ((p.statusMessage STRING_CCPM_ESTABLISHING Severity.SEV_INFO).fire
        ChatEffect.CCPMStatusUpdated) with
      delayEvents :=
        addEvent p.delayEvents DelayEvent.CCPM_TIMEOUT DelayCallback.checkCCPMTimeout 30000 }

/-- The method `PrivateChat::startCC`; `userOnline` is the answer of
`replyTo.user->isOnline()` and `r` the outcome of `ClientManager::connect`. -/
def PrivateChat.startCC (p : PrivateChat) (userOnline : Bool) (r : ConnectResult) :
    PrivateChat :=
  if !userOnline || decide (p.ccpmState.rank < CCPMState.DISCONNECTED.rank) then p
  else
    (({ p with
        ccpmState := CCPMState.CONNECTING
        lastCCPMError := r.lastCCPMError
        allowAutoCCPM := !r.protocolError } : PrivateChat).fire
      (ChatEffect.connect p.hint)).startCCResult r.connecting

/-- What `PrivateChat::checkAlwaysCCPM` reads from its surroundings: the answers of
`replyTo.user->isOnline()`, `SETTING(ALWAYS_CCPM)`, `replyTo.user->isNMDC()` and
`replyTo.user->isSet(User::BOT)`. -/
structure AutoEnv where
  userOnline : Bool
  alwaysCCPM : Bool
  isNMDC : Bool
  isBot : Bool
  deriving DecidableEq, Repr

/-- The statement `allowAutoCCPM = allowAutoCCPM && ccpmAttempts++ < 3` of
`PrivateChat::checkAlwaysCCPM`: the counter is read, and incremented, only when the flag
is set, and it is compared before the increment. -/
def PrivateChat.countAttempt (p : PrivateChat) : PrivateChat :=
  if p.allowAutoCCPM then
    { p with allowAutoCCPM := decide (p.ccpmAttempts < 3), ccpmAttempts := p.ccpmAttempts + 1 }
  else p

/-- The method `PrivateChat::checkAlwaysCCPM`; `r` is the outcome of `ClientManager::connect`
if `startCC` calls it. -/
def PrivateChat.checkAlwaysCCPM (p : PrivateChat) (g : AutoEnv) (r : ConnectResult) :
    PrivateChat :=
  if !g.userOnline || !g.alwaysCCPM || !p.supportsCCPM || g.isNMDC || g.isBot then p
  else if p.allowAutoCCPM && p.ccpmState == CCPMState.DISCONNECTED then
    (p.startCC g.userOnline r).countAttempt
  else if p.ccReady then { p with allowAutoCCPM := true }
  else p

/-- The method `PrivateChat::checkCCPMTimeout`. -/
def PrivateChat.checkCCPMTimeout (p : PrivateChat) : PrivateChat :=
  if p.ccpmState = CCPMState.CONNECTING then
    { ((p.statusMessage STRING_CCPM_TIMEOUT Severity.SEV_INFO).fire
        ChatEffect.CCPMStatusUpdated) with ccpmState := CCPMState.DISCONNECTED }
  else p

/-- The outcome of the call `ClientManager::getSupportsCCPM(replyTo, lastCCPMError)`: the
value it returns and the text it leaves in `lastCCPMError`. -/
structure SupportsResult where
  supports : Bool
  lastCCPMError : String
  deriving DecidableEq, Repr

/-- The statement `setSupportsCCPM(... getSupportsCCPM(replyTo, lastCCPMError))`. -/
def PrivateChat.updateSupports (p : PrivateChat) (s : SupportsResult) : PrivateChat :=
  { p with supportsCCPM := s.supports, lastCCPMError := s.lastCCPMError }

/-- The statements of `PrivateChat::on(UserDisconnected)` under
`if (ccpmState == CONNECTING)`. -/
def PrivateChat.dropAttempt (p : PrivateChat) : PrivateChat :=
  if p.ccpmState = CCPMState.CONNECTING then
    { p with
      delayEvents := removeEvent p.delayEvents DelayEvent.CCPM_TIMEOUT
      ccpmState := CCPMState.DISCONNECTED }
  else p

/-- The statements of `PrivateChat::on(UserDisconnected)` under `if (wentOffline)`. -/
def PrivateChat.wentOffline (p : PrivateChat) (cpmi : Bool) : PrivateChat :=
  (({ ((({ p with delayEvents := removeEvent p.delayEvents DelayEvent.USER_UPDATE } :
        PrivateChat).dropAttempt).closeCC true false cpmi) with
      allowAutoCCPM := true
      online := false } : PrivateChat).fire ChatEffect.UserUpdated).statusMessage
    STRING_USER_WENT_OFFLINE Severity.SEV_INFO

/-- The method `PrivateChat::on(ClientManagerListener::UserDisconnected, ...)`; `sameUser`
says whether `aUser` is `replyTo.user`, `s` is the outcome of `getSupportsCCPM` and `cpmi`
the answer of `uc->isSet(UserConnection::FLAG_CPMI)`. -/
def PrivateChat.onUserDisconnected (p : PrivateChat) (sameUser : Bool) (wentOffline : Bool)
    (s : SupportsResult) (cpmi : Bool) : PrivateChat :=
  if !sameUser then p
  else if wentOffline then (p.updateSupports s).wentOffline cpmi
  else
    { (p.updateSupports s) with
      delayEvents :=
        addEvent p.delayEvents DelayEvent.USER_UPDATE DelayCallback.userDisconnectedUpdate 1000 }

/-- The method `PrivateChat::checkUserHub`; `hubs` is the answer of
`ClientManager::getHubs` for the user, pairs of a hub URL and a hub name. -/
def PrivateChat.checkUserHub (p : PrivateChat) (wentOffline : Bool)
    (hubs : List (String × String)) : PrivateChat :=
  match hubs with
  | [] => p
  | h :: _ =>
    if hubs.any (fun x => x.1 == p.hint) then p
    else if !p.ccReady then
      { (p.statusMessage
          (if wentOffline then STRING_F_USER_OFFLINE_PM_CHANGE p.hubName h.2
            else STRING_F_MESSAGES_SENT_THROUGH h.2) Severity.SEV_INFO) with
        hint := h.1, hubName := h.2 }
    else { p with hint := h.1, hubName := h.2 }

/-- The method `PrivateChat::on(ClientManagerListener::ClientDisconnected, ...)`. -/
def PrivateChat.onClientDisconnected (p : PrivateChat) (aHubUrl : String)
    (hubs : List (String × String)) : PrivateChat :=
  if aHubUrl = p.hint then (p.checkUserHub true hubs).fire ChatEffect.UserUpdated else p

/-- The lambda that `PrivateChat::on(UserDisconnected)` schedules as `USER_UPDATE`. -/
def PrivateChat.userDisconnectedUpdate (p : PrivateChat) (hubs : List (String × String)) :
    PrivateChat :=
  (p.checkUserHub true hubs).fire ChatEffect.UserUpdated

/-- The lambda that `PrivateChat::on(UserUpdated)` schedules as `USER_UPDATE`; `names` is
the text in brackets built from the formatted nicks and hub names. -/
def PrivateChat.userUpdatedUpdate (p : PrivateChat) (names : String)
    (hubs : List (String × String)) : PrivateChat :=
  if !p.online then
    ({ ((p.statusMessage (STRING_USER_WENT_ONLINE ++ names) Severity.SEV_INFO).checkUserHub
        false hubs) with online := true } : PrivateChat).fire ChatEffect.UserUpdated
  else p.fire ChatEffect.UserUpdated

/-- The method `PrivateChat::on(ClientManagerListener::UserUpdated, ...)`. -/
def PrivateChat.onUserUpdated (p : PrivateChat) (sameUser : Bool) (s : SupportsResult) :
    PrivateChat :=
  if !sameUser then p
  else
    { (p.updateSupports s) with
      delayEvents :=
        addEvent
          (addEvent p.delayEvents DelayEvent.USER_UPDATE DelayCallback.userUpdatedUpdate 1000)
          DelayEvent.CCPM_AUTO DelayCallback.checkAlwaysCCPM 3000 }

/-- What `PrivateChat::on(AdcCommand::PMI, ...)` reads from the received command: the
answers of `cmd.hasFlag("SN", 0)` and `cmd.hasFlag("QU", 0)`, and the values that
`cmd.getParam("TP", 0, tmp)` and `cmd.getParam("AC", 0, tmp)` find, `none` when the call
returns false. -/
structure PMICommand where
  hasSN : Bool
  tp : Option String
  ac : Option String
  hasQU : Bool
  deriving DecidableEq, Repr

/-- The value of `type` at the end of the chain of tests in
`PrivateChat::on(AdcCommand::PMI, ...)`. -/
def pmiType (cmd : PMICommand) : PMInfo :=
  if cmd.hasSN then PMInfo.MSG_SEEN
  else match cmd.tp with
    | some tmp => if tmp = "1" then PMInfo.TYPING_ON else PMInfo.TYPING_OFF
    | none =>
      match cmd.ac with
      | some _ => PMInfo.NO_AUTOCONNECT
      | none => if cmd.hasQU then PMInfo.QUIT else PMInfo.PMINFO_LAST

/-- The value of `allowAutoCCPM` at the end of the chain of tests in
`PrivateChat::on(AdcCommand::PMI, ...)`: the branch of `AC` assigns `tmp == "1"`. -/
def pmiAllow (cmd : PMICommand) (allowAutoCCPM : Bool) : Bool :=
  if cmd.hasSN then allowAutoCCPM
  else match cmd.tp with
    | some _ => allowAutoCCPM
    | none =>
      match cmd.ac with
      | some tmp => decide (tmp = "1")
      | none => allowAutoCCPM

/-- The method `PrivateChat::on(AdcCommand::PMI, ...)`. -/
def PrivateChat.onPMI (p : PrivateChat) (cmd : PMICommand) : PrivateChat :=
  if pmiType cmd ≠ PMInfo.PMINFO_LAST then
    ({ p with allowAutoCCPM := pmiAllow cmd p.allowAutoCCPM } : PrivateChat).fire
      (ChatEffect.PMStatus (pmiType cmd))
  else { p with allowAutoCCPM := pmiAllow cmd p.allowAutoCCPM }

/-- The constructor `PrivateChat::PrivateChat`; `userOnline` is the answer of
`aUser.user->isOnline()`, `aHubName` of `ClientManager::getHubName`, `s` the outcome of
`getSupportsCCPM` and `limit` the bound of the message cache. -/
def PrivateChat.new (hint : String) (aUc : Option Nat) (userOnline : Bool) (aHubName : String)
    (s : SupportsResult) (limit : Nat) : PrivateChat :=
  { uc := aUc
    hint := hint
    ccpmAttempts := 0
    allowAutoCCPM := true
    lastCCPMAttempt := 0
    ccpmState := if aUc.isSome then CCPMState.CONNECTED else CCPMState.DISCONNECTED
    online := userOnline
    hubName := aHubName
    supportsCCPM := s.supports
    lastCCPMError := s.lastCCPMError
    delayEvents :=
      if aUc.isSome then []
      else addEvent [] DelayEvent.CCPM_AUTO DelayCallback.checkAlwaysCCPM 1000
    cache := { messages := [], limit := limit }
    effects := if aUc.isSome then [ChatEffect.ucAddListener aUc] else [] }

/-! ## Runs of a private chat -/

/-- The events of a private chat: the calls of its public methods, the notifications it
listens to, and the firing of its delayed events (`checkCCPMTimeout`, `checkAlwaysCCPM`,
`userDisconnectedUpdate`, `userUpdatedUpdate`), each with what the method reads from its
surroundings. `CCPMConnected` comes with a connection that is not null. -/
inductive ChatOp where
  | startCC (userOnline : Bool) (r : ConnectResult)
  | CCPMConnected (aUc : Nat)
  | CCPMDisconnected
  | closeCC (now : Bool) (noAutoConnect : Bool) (cpmi : Bool)
  | close (cpmi : Bool)
  | checkCCPMTimeout
  | checkAlwaysCCPM (g : AutoEnv) (r : ConnectResult)
  | userDisconnected (sameUser : Bool) (wentOffline : Bool) (s : SupportsResult) (cpmi : Bool)
  | userUpdated (sameUser : Bool) (s : SupportsResult)
  | userDisconnectedUpdate (hubs : List (String × String))
  | userUpdatedUpdate (names : String) (hubs : List (String × String))
  | clientDisconnected (aHubUrl : String) (hubs : List (String × String))
  | pmi (cmd : PMICommand)
  | handleMessage (aMessage : String) (aHubUrl : String) (aHubName : String)
  | statusMessage (aMessage : String) (aSeverity : Severity)
  | sendMessage (msg : String) (relayed : Bool)
  | sendPMInfo (aType : PMInfo) (cpmi : Bool)
  | setRead
  | clearCache
  deriving DecidableEq, Repr

/-- Modelled from the spec: a delayed event that fires is one-shot, so it leaves the
pending events before its callback runs. -/
def PrivateChat.fired (p : PrivateChat) (kind : DelayEvent) : PrivateChat :=
  { p with delayEvents := removeEvent p.delayEvents kind }

/-- One event of a private chat. -/
def PrivateChat.step (p : PrivateChat) : ChatOp → PrivateChat
  | ChatOp.startCC userOnline r => p.startCC userOnline r
  | ChatOp.CCPMConnected aUc => p.CCPMConnected (some aUc)
  | ChatOp.CCPMDisconnected => p.CCPMDisconnected
  | ChatOp.closeCC now noAutoConnect cpmi => p.closeCC now noAutoConnect cpmi
  | ChatOp.close cpmi => p.close cpmi
  | ChatOp.checkCCPMTimeout => (p.fired DelayEvent.CCPM_TIMEOUT).checkCCPMTimeout
  | ChatOp.checkAlwaysCCPM g r => (p.fired DelayEvent.CCPM_AUTO).checkAlwaysCCPM g r
  | ChatOp.userDisconnected sameUser wentOffline s cpmi =>
    p.onUserDisconnected sameUser wentOffline s cpmi
  | ChatOp.userUpdated sameUser s => p.onUserUpdated sameUser s
  | ChatOp.userDisconnectedUpdate hubs =>
    (p.fired DelayEvent.USER_UPDATE).userDisconnectedUpdate hubs
  | ChatOp.userUpdatedUpdate names hubs =>
    (p.fired DelayEvent.USER_UPDATE).userUpdatedUpdate names hubs
  | ChatOp.clientDisconnected aHubUrl hubs => p.onClientDisconnected aHubUrl hubs
  | ChatOp.pmi cmd => p.onPMI cmd
  | ChatOp.handleMessage aMessage aHubUrl aHubName => p.handleMessage aMessage aHubUrl aHubName
  | ChatOp.statusMessage aMessage aSeverity => p.statusMessage aMessage aSeverity
  | ChatOp.sendMessage msg relayed => (p.sendMessage msg relayed).2
  | ChatOp.sendPMInfo aType cpmi => p.sendPMInfo aType cpmi
  | ChatOp.setRead => p.setRead
  | ChatOp.clearCache => p.clearCache.2

/-- A sequence of events of a private chat. -/
def PrivateChat.run (p : PrivateChat) (ops : List ChatOp) : PrivateChat :=
  ops.foldl PrivateChat.step p

/-- The number of connection requests (`ClientManager::connect`) in a log. -/
def connectRequests (es : List ChatEffect) : Nat :=
  es.countP (fun e => match e with
    | ChatEffect.connect _ => true
    | _ => false)

/-- The channel handle `uc` is set exactly when the CCPM sub-state is `CONNECTED`. -/
def PrivateChat.HandleMatchesState (p : PrivateChat) : Prop :=
  p.uc.isSome = true ↔ p.ccpmState = CCPMState.CONNECTED

/-- No call through the user connection pointer in the log was made on a null pointer. -/
def PrivateChat.NoNullDeref (p : PrivateChat) : Prop :=
  ∀ e ∈ p.effects, e.deref ≠ some none

/-- The events that can set `allowAutoCCPM` again without being a connection request of
an automatic check: a manual `startCC`, an established channel (`CCPMConnected`), a
peer-offline event for this peer, and a PMI command whose `AC` parameter is read and has
the value "1". -/
def ChatOp.reenables : ChatOp → Bool
  | ChatOp.startCC _ _ => true
  | ChatOp.CCPMConnected _ => true
  | ChatOp.userDisconnected sameUser wentOffline _ _ => sameUser && wentOffline
  | ChatOp.pmi cmd => pmiAllow cmd false
  | _ => false

/-- The policy gate of `checkAlwaysCCPM` lets the check through. -/
def AutoEnv.passes (g : AutoEnv) : Prop :=
  g.userOnline = true ∧ g.alwaysCCPM = true ∧ g.isNMDC = false ∧ g.isBot = false

/-! ## Concrete requests and states used in examples -/

/-- A request for query `query` with priority `p` and the single owner `aOwner`. -/
def mkSearch (query : Nat) (p : Priority) (aOwner : Nat) : Search :=
  { query := query, priority := p, owners := [aOwner] }

/-- A disconnected hub connection with auto-reconnect on, last active at tick
`lastActivity`, with a reconnect delay of 120 seconds and an empty search queue. -/
def idleClient (lastActivity : Nat) : Client :=
  { state := State.STATE_DISCONNECTED
    sock := false
    redirectUrl := ""
    autoReconnect := true
    reconnDelay := 120
    registered := false
    lastActivity := lastActivity
    hubUrl := "adc://hub.example:411"
    searchQueue := SearchQueue.new 10000 0
    effects := []
    myIdentity := { isOp := false, isRegistered := false }
    countType := CountType.COUNT_UNCOUNTED
    secure := false
    keyprint := ""
    iskeypError := false
    cache := { messages := [], limit := 100 } }

/-- A hub connection just constructed for a plain hub URL, with an empty message cache. -/
def newClient : Client :=
  Client.new "adc://hub.example:411" false "" { isOp := false, isRegistered := false } 0
    { messages := [], limit := 100 } 0 0

/-- A hub connection just constructed for a secure hub URL with a pinned keyprint. -/
def secureClient : Client :=
  Client.new "adcs://hub.example:411" true "SHA256/ABCD" { isOp := false, isRegistered := false }
    0 { messages := [], limit := 100 } 0 0

/-- A private chat without a direct channel and with an empty message cache. -/
def emptyChat : PrivateChat :=
  { uc := none
    hint := "adc://hub.example:411"
    ccpmAttempts := 0
    allowAutoCCPM := true
    lastCCPMAttempt := 0
    ccpmState := CCPMState.DISCONNECTED
    online := true
    hubName := "hub"
    supportsCCPM := false
    lastCCPMError := ""
    delayEvents := []
    cache := { messages := [], limit := 100 }
    effects := [] }

/-- A fresh private chat whose peer is online and advertises CCPM support. -/
def freshChat : PrivateChat :=
  PrivateChat.new "adc://hub.example:411" none true "hub" { supports := true, lastCCPMError := "" }
    100

/-- A policy environment that lets the automatic check through. -/
def passEnv : AutoEnv :=
  { userOnline := true, alwaysCCPM := true, isNMDC := false, isBot := false }

/-- A connection request that is rejected without a protocol error. -/
def rejected : ConnectResult :=
  { connecting := false, protocolError := false, lastCCPMError := "no slots" }

/-- A connection request that the collaborator reports as started. -/
def started : ConnectResult :=
  { connecting := true, protocolError := false, lastCCPMError := "" }

/-- A connection request that is rejected because the protocol does not support it. -/
def protocolRejected : ConnectResult :=
  { connecting := false, protocolError := true, lastCCPMError := "unsupported" }

/-- The answer of `getSupportsCCPM` for a peer that supports CCPM. -/
def supported : SupportsResult :=
  { supports := true, lastCCPMError := "" }

/-- A received PMI command that carries only the parameter `AC` with the given value. -/
def acCommand (value : String) : PMICommand :=
  { hasSN := false, tp := none, ac := some value, hasQU := false }

/-- A received PMI command that carries the flag `SN` and the parameter `AC` with the
value "0". -/
def seenAndDeclined : PMICommand :=
  { hasSN := true, tp := none, ac := some "0", hasQU := false }

/-- Five requests queued in the order HIGHEST, then four NORMAL ones, the first of them for
query 7, and then query 7 again at HIGH: the last `add` meets the queued entry for query 7
behind the HIGHEST one, erases it and inserts at the invalidated iterator, leaving `u`. -/
def eraseOps (u : List Search) : List Op :=
  [Op.add (mkSearch 1 .HIGHEST 1) 0 [], Op.add (mkSearch 7 .NORMAL 2) 0 [],
    Op.add (mkSearch 3 .NORMAL 3) 0 [], Op.add (mkSearch 4 .NORMAL 4) 0 [],
    Op.add (mkSearch 5 .NORMAL 5) 0 [], Op.add (mkSearch 7 .HIGH 6) 0 u]

/-- The queue of `eraseOps` with the request one slot ahead of the place of the erased
entry, where an insertion at the stale iterator puts it once the erase has moved the front
part of the deque. -/
def oneSlotEarly : List Search :=
  [mkSearch 7 .HIGH 6, mkSearch 1 .HIGHEST 1, mkSearch 3 .NORMAL 3, mkSearch 4 .NORMAL 4,
    mkSearch 5 .NORMAL 5]

/-- The process-wide counters at the start of the process. -/
def zeroCounts : Counts :=
  { normal := 0, registered := 0, op := 0 }

/-- A connect environment in which the socket accepts the request. -/
def okEnv (tick : Nat) : ConnectEnv :=
  { rand := 7, searchInterval := 10, sockResult := SockResult.ok, tick := tick,
    me := { isOp := false, isRegistered := false } }

end dcpp

/-! # Properties -/

namespace dcpp

/-! ## Auxiliary facts about the scans -/

theorem queryEqual_comm (a b : Search) : a.queryEqual b = b.queryEqual a := by
  simp only [Search.queryEqual]
  exact Bool.beq_comm

theorem priority_lt_iff (a b : Priority) : a < b ↔ a.rank < b.rank := Iff.rfl

theorem prioritySorted_cons (e : Search) (l : List Search) :
    PrioritySorted (e :: l) ↔
      (∀ b ∈ l, e.priority.rank ≤ b.priority.rank) ∧ PrioritySorted l := by
  simp [PrioritySorted, List.pairwise_cons, priority_lt_iff]

/-- The cases in which the scan of `add` produces a queue. -/
theorem addScan_cons_some (mi : Int) (s e : Search) (rest : List Search) (x : Nat)
    (l1 : List Search) (hl : (addScan mi s (e :: rest) x).2 = some l1) :
    (s.priority < e.priority ∧ e.queryEqual s = false ∧ l1 = s :: e :: rest) ∨
    (¬ s.priority < e.priority ∧ s.queryEqual e = true ∧
      (l1 = e :: rest ∨ ∃ a, l1 = { e with owners := ownersInsert a e.owners } :: rest)) ∨
    (¬ s.priority < e.priority ∧ s.queryEqual e = false ∧
      ∃ l2, (addScan mi s rest (addInterval x (getInterval mi e.priority))).2 = some l2 ∧
        l1 = e :: l2) := by
  by_cases hp : s.priority < e.priority
  · by_cases hq : e.queryEqual s = true
    · simp [addScan, hp, hq] at hl
    · simp only [Bool.not_eq_true] at hq
      simp only [addScan, hp, hq, if_true, Bool.false_eq_true, if_false,
        Option.some.injEq] at hl
      exact Or.inl ⟨hp, hq, hl.symm⟩
  · by_cases hq : s.queryEqual e = true
    · refine Or.inr (Or.inl ⟨hp, hq, ?_⟩)
      cases hso : s.owners with
      | nil =>
        simp only [addScan, hp, hq, hso, if_true, if_false, Option.some.injEq] at hl
        exact Or.inl hl.symm
      | cons a t =>
        simp only [addScan, hp, hq, hso, if_true, if_false, Option.some.injEq] at hl
        exact Or.inr ⟨a, hl.symm⟩
    · simp only [Bool.not_eq_true] at hq
      simp only [addScan, hp, hq, if_false, Bool.false_eq_true, Option.map_eq_some'] at hl
      obtain ⟨l2, hl2, h2⟩ := hl
      exact Or.inr (Or.inr ⟨hp, hq, l2, hl2, h2.symm⟩)

/-- Every entry of the queue after the scan of `add` has the priority of the new request
or that of an entry queued before. -/
theorem addScan_priority_mem (mi : Int) (s : Search) (l : List Search) (x : Nat)
    (l1 : List Search) (hl : (addScan mi s l x).2 = some l1) :
    ∀ b ∈ l1, b.priority = s.priority ∨ ∃ c ∈ l, c.priority = b.priority := by
  induction l generalizing x l1 with
  | nil =>
    simp only [addScan, Option.some.injEq] at hl
    subst hl
    simp
  | cons e rest ih =>
    intro b hb
    rcases addScan_cons_some mi s e rest x l1 hl with ⟨_, _, rfl⟩ | ⟨_, _, h⟩ | ⟨_, _, l2, hl2, rfl⟩
    · simp only [List.mem_cons] at hb
      rcases hb with rfl | rfl | hb
      · exact Or.inl rfl
      · exact Or.inr ⟨b, List.mem_cons_self _ _, rfl⟩
      · exact Or.inr ⟨b, List.mem_cons_of_mem _ hb, rfl⟩
    · rcases h with rfl | ⟨a, rfl⟩
      · exact Or.inr ⟨b, hb, rfl⟩
      · simp only [List.mem_cons] at hb
        rcases hb with rfl | hb
        · exact Or.inr ⟨e, List.mem_cons_self _ _, rfl⟩
        · exact Or.inr ⟨b, List.mem_cons_of_mem _ hb, rfl⟩
    · simp only [List.mem_cons] at hb
      rcases hb with rfl | hb
      · exact Or.inr ⟨b, List.mem_cons_self _ _, rfl⟩
      · rcases ih _ l2 hl2 b hb with h | ⟨c, hc, hcb⟩
        · exact Or.inl h
        · exact Or.inr ⟨c, List.mem_cons_of_mem _ hc, hcb⟩

/-- The scan of `add` keeps a priority-ordered queue priority-ordered, when it does not
end in the insertion at the invalidated iterator. -/
theorem addScan_sorted (mi : Int) (s : Search) (l : List Search) (x : Nat)
    (h : PrioritySorted l) (l1 : List Search) (hl : (addScan mi s l x).2 = some l1) :
    PrioritySorted l1 := by
  induction l generalizing x l1 with
  | nil =>
    simp only [addScan, Option.some.injEq] at hl
    subst hl
    simp [PrioritySorted]
  | cons e rest ih =>
    rw [prioritySorted_cons] at h
    obtain ⟨he, hrest⟩ := h
    rcases addScan_cons_some mi s e rest x l1 hl with
      ⟨h1, _, rfl⟩ | ⟨_, _, h2⟩ | ⟨h1, _, l2, hl2, rfl⟩
    · rw [prioritySorted_cons, prioritySorted_cons]
      rw [priority_lt_iff] at h1
      refine ⟨?_, he, hrest⟩
      intro b hb
      simp only [List.mem_cons] at hb
      rcases hb with rfl | hb
      · omega
      · have := he b hb; omega
    · rcases h2 with rfl | ⟨a, rfl⟩
      · simp only [prioritySorted_cons]; exact ⟨he, hrest⟩
      · simp only [prioritySorted_cons]; exact ⟨he, hrest⟩
    · simp only [prioritySorted_cons]
      refine ⟨?_, ih _ hrest l2 hl2⟩
      intro b hb
      rw [priority_lt_iff] at h1
      rcases addScan_priority_mem mi s rest _ l2 hl2 b hb with hb1 | ⟨c, hc, hcb⟩
      · rw [hb1]; omega
      · rw [← hcb]; exact he c hc

theorem cancelScan_mem (a : Nat) (l : List Search) :
    ∀ b ∈ (cancelScan a l).2, ∃ c ∈ l, c.priority = b.priority ∧ c.query = b.query := by
  induction l with
  | nil => simp [cancelScan]
  | cons e rest ih =>
    intro b hb
    unfold cancelScan at hb
    split_ifs at hb with h1 h2
    · exact ⟨b, List.mem_cons_of_mem _ hb, rfl, rfl⟩
    · simp only [List.mem_cons] at hb
      rcases hb with rfl | hb
      · exact ⟨e, List.mem_cons_self _ _, rfl, rfl⟩
      · exact ⟨b, List.mem_cons_of_mem _ hb, rfl, rfl⟩
    · simp only [List.mem_cons] at hb
      rcases hb with rfl | hb
      · exact ⟨b, List.mem_cons_self _ _, rfl, rfl⟩
      · obtain ⟨c, hc, h⟩ := ih b hb
        exact ⟨c, List.mem_cons_of_mem _ hc, h⟩

theorem cancelScan_sorted (a : Nat) (l : List Search) (h : PrioritySorted l) :
    PrioritySorted (cancelScan a l).2 := by
  induction l with
  | nil => simp [cancelScan, PrioritySorted]
  | cons e rest ih =>
    rw [prioritySorted_cons] at h
    obtain ⟨he, hrest⟩ := h
    unfold cancelScan
    split_ifs with h1 h2
    · exact hrest
    · simp only [prioritySorted_cons]; exact ⟨he, hrest⟩
    · simp only [prioritySorted_cons]
      refine ⟨?_, ih hrest⟩
      intro b hb
      obtain ⟨c, hc, hcb, _⟩ := cancelScan_mem a rest b hb
      rw [← hcb]; exact he c hc

theorem queryEqual_iff (a b : Search) : a.queryEqual b = true ↔ a.query = b.query := by
  simp [Search.queryEqual]

theorem queryEqual_false_iff (a b : Search) : a.queryEqual b = false ↔ a.query ≠ b.query := by
  simp [Search.queryEqual]

/-- Without a query-equal entry the scan of `add` is a stable insertion by priority. -/
theorem addScan_of_no_equal (mi : Int) (s : Search) (l : List Search) (x : Nat)
    (h : ∀ e ∈ l, s.queryEqual e = false) :
    (addScan mi s l x).2 =
      some (l.takeWhile (fun e => !decide (s.priority < e.priority)) ++
        s :: l.dropWhile (fun e => !decide (s.priority < e.priority))) := by
  induction l generalizing x with
  | nil => simp [addScan]
  | cons e rest ih =>
    have he : s.queryEqual e = false := h e (List.mem_cons_self _ _)
    have he2 : e.queryEqual s = false := by rw [queryEqual_comm]; exact he
    have hrest : ∀ e ∈ rest, s.queryEqual e = false := fun e1 h1 => h e1 (List.mem_cons_of_mem _ h1)
    by_cases hp : s.priority < e.priority
    · simp [addScan, hp, he2, List.takeWhile, List.dropWhile]
    · simp [addScan, hp, he, List.takeWhile, List.dropWhile, ih _ hrest]

/-- The scan of `add` walks over a leading segment of entries that all pass its tests. -/
theorem addScan_append (mi : Int) (s : Search) (A L : List Search) (x : Nat)
    (h : ∀ e ∈ A, scanPasses s e = true) :
    addScan mi s (A ++ L) x =
      ((addScan mi s L (scanSum mi A x)).1,
        (addScan mi s L (scanSum mi A x)).2.map (fun l => A ++ l)) := by
  induction A generalizing x with
  | nil => simp [scanSum]
  | cons e rest ih =>
    have he := h e (List.mem_cons_self _ _)
    simp only [scanPasses, Bool.and_eq_true, Bool.not_eq_true', decide_eq_false_iff_not] at he
    have hrest : ∀ e ∈ rest, scanPasses s e = true := fun e1 h1 => h e1 (List.mem_cons_of_mem _ h1)
    simp [addScan, he.1, he.2, ih _ hrest, scanSum, Function.comp_def]

/-- The loop of `cancelSearch` walks over a leading segment of entries without the owner. -/
theorem cancelScan_append (a : Nat) (A L : List Search) (h : ∀ e ∈ A, a ∉ e.owners) :
    cancelScan a (A ++ L) = ((cancelScan a L).1, A ++ (cancelScan a L).2) := by
  induction A with
  | nil => simp
  | cons e rest ih =>
    have he := h e (List.mem_cons_self _ _)
    have hrest : ∀ e ∈ rest, a ∉ e.owners := fun e1 h1 => h e1 (List.mem_cons_of_mem _ h1)
    simp [cancelScan, he, ih hrest]

theorem add_searchQueue (q : SearchQueue) (s : Search) (now : Nat) (u : List Search) :
    (q.add s now u).2.searchQueue = addQueue q.minInterval s q.searchQueue u := by
  unfold SearchQueue.add
  simp only
  split_ifs
  · rfl
  · rfl
  · split
    · next h => simp [h]
    · next f t h => split_ifs <;> simp [h]

/-- When the scan does not end in the insertion at the invalidated iterator, the queue
after `add` is the one the scan produces. -/
theorem add_searchQueue_of_some (q : SearchQueue) (s : Search) (now : Nat)
    (u l1 : List Search) (h : (addScan q.minInterval s q.searchQueue 0).2 = some l1) :
    (q.add s now u).2.searchQueue = l1 := by
  rw [add_searchQueue]
  simp [addQueue, h]

theorem add_minInterval (q : SearchQueue) (s : Search) (now : Nat) (u : List Search) :
    (q.add s now u).2.minInterval = q.minInterval := by
  unfold SearchQueue.add
  simp only
  split_ifs
  · rfl
  · rfl
  · split
    · rfl
    · split_ifs <;> rfl

theorem add_lastSearchTime (q : SearchQueue) (s : Search) (now : Nat) (u : List Search) :
    (q.add s now u).2.lastSearchTime = q.lastSearchTime := by
  unfold SearchQueue.add
  simp only
  split_ifs
  · rfl
  · rfl
  · split
    · rfl
    · split_ifs <;> rfl

theorem ownersInsert_pair (a b : Nat) (hab : a ≠ b) :
    a ∈ ownersInsert b [a] ∧ b ∈ ownersInsert b [a] ∧
      ownersErase a (ownersInsert b [a]) = [b] ∧ ownersErase b (ownersInsert b [a]) = [a] := by
  have hba : b ≠ a := fun h => hab h.symm
  have e1 : (a != b) = true := by simp [hab]
  have e2 : (b != a) = true := by simp [hba]
  by_cases h : b ≤ a
  · simp [ownersInsert, ownersErase, hba, hab, h, List.filter, e1, e2]
  · simp [ownersInsert, ownersErase, hba, hab, h, List.filter, e1, e2]

theorem ownersInsert_pair_mem (a b c : Nat) (hab : a ≠ b) :
    c ∈ ownersInsert b [a] ↔ c = a ∨ c = b := by
  have hba : b ≠ a := fun h => hab h.symm
  by_cases h : b ≤ a
  · simp [ownersInsert, hba, h, or_comm]
  · simp [ownersInsert, hba, h]

/-- Claim C1, amended. Take a queue in which no entry is query-equal to the requests and
no entry lists either owner token, and two query-equal requests with one distinct owner
token each, the second not of higher priority than the first. After adding the first and
then the second the queue holds exactly one entry for that query, owned by the two tokens;
cancelling either token then keeps that entry queued, owned by exactly the other token. -/
theorem add_twice_then_cancel (q : SearchQueue) (s1 s2 : Search) (a b now1 now2 : Nat)
    (u1 u2 : List Search)
    (hq : ∀ e ∈ q.searchQueue, e.queryEqual s1 = false)
    (ho : ∀ e ∈ q.searchQueue, a ∉ e.owners ∧ b ∉ e.owners)
    (h1 : s1.owners = [a]) (h2 : s2.owners = [b]) (hab : a ≠ b)
    (hs : s2.queryEqual s1 = true) (hp : ¬ s2.priority < s1.priority) :
    (((q.add s1 now1 u1).2.add s2 now2 u2).2.searchQueue.filter (fun e => e.queryEqual s1) =
        [{ s1 with owners := ownersInsert b [a] }] ∧
      ∀ c, c ∈ ownersInsert b [a] ↔ c = a ∨ c = b) ∧
    ((((q.add s1 now1 u1).2.add s2 now2 u2).2.cancelSearch a).1 = true ∧
      (((q.add s1 now1 u1).2.add s2 now2 u2).2.cancelSearch a).2.searchQueue.filter
        (fun e => e.queryEqual s1) = [{ s1 with owners := [b] }]) ∧
    ((((q.add s1 now1 u1).2.add s2 now2 u2).2.cancelSearch b).1 = true ∧
      (((q.add s1 now1 u1).2.add s2 now2 u2).2.cancelSearch b).2.searchQueue.filter
        (fun e => e.queryEqual s1) = [{ s1 with owners := [a] }]) := by
  obtain ⟨hma, hmb, hea, heb⟩ := ownersInsert_pair a b hab
  have hs12 : s2.query = s1.query := (queryEqual_iff _ _).1 hs
  have hq1 : ∀ e ∈ q.searchQueue, s1.queryEqual e = false := fun e he => by
    rw [queryEqual_comm]; exact hq e he
  -- the queue after the first add
  have hA : (q.add s1 now1 u1).2.searchQueue =
      q.searchQueue.takeWhile (fun e => !decide (s1.priority < e.priority)) ++
        s1 :: q.searchQueue.dropWhile (fun e => !decide (s1.priority < e.priority)) := by
    exact add_searchQueue_of_some _ _ _ _ _ (addScan_of_no_equal _ _ _ _ hq1)
  generalize hT : q.searchQueue.takeWhile (fun e => !decide (s1.priority < e.priority)) = T at hA
  generalize hD : q.searchQueue.dropWhile (fun e => !decide (s1.priority < e.priority)) = D at hA
  have hTq : ∀ e ∈ T, e ∈ q.searchQueue := fun e he => by
    rw [← hT] at he; exact (List.takeWhile_sublist _).subset he
  have hDq : ∀ e ∈ D, e ∈ q.searchQueue := fun e he => by
    rw [← hD] at he; exact (List.dropWhile_sublist _).subset he
  have hTp : ∀ e ∈ T, ¬ s1.priority < e.priority := fun e he => by
    rw [← hT] at he
    have := List.mem_takeWhile_imp he
    simpa using this
  -- the queue after the second add
  have hpass : ∀ e ∈ T, scanPasses s2 e = true := by
    intro e he
    have h3 := hTp e he
    have h4 := hq e (hTq e he)
    rw [priority_lt_iff] at h3 hp
    simp only [scanPasses, Bool.and_eq_true, Bool.not_eq_true', decide_eq_false_iff_not,
      priority_lt_iff]
    refine ⟨by omega, ?_⟩
    rw [queryEqual_false_iff] at h4 ⊢
    rw [hs12]; exact fun h => h4 h.symm
  have hB : ((q.add s1 now1 u1).2.add s2 now2 u2).2.searchQueue =
      T ++ { s1 with owners := ownersInsert b [a] } :: D := by
    apply add_searchQueue_of_some
    rw [hA, add_minInterval, addScan_append _ _ _ _ _ hpass]
    simp [addScan, hp, hs, h2, h1]
  have hfT : ∀ (o : List Nat), (T ++ ({ s1 with owners := o } : Search) :: D).filter
      (fun e => e.queryEqual s1) = [{ s1 with owners := o }] := by
    intro o
    have e1 : T.filter (fun e => e.queryEqual s1) = [] := by
      rw [List.filter_eq_nil_iff]
      intro e he; simp [hq e (hTq e he)]
    have e2 : D.filter (fun e => e.queryEqual s1) = [] := by
      rw [List.filter_eq_nil_iff]
      intro e he; simp [hq e (hDq e he)]
    have e3 : ({ s1 with owners := o } : Search).queryEqual s1 = true := by
      simp [Search.queryEqual]
    rw [List.filter_append, e1, List.filter_cons, e3, e2]
    rfl
  have hTa : ∀ e ∈ T, a ∉ e.owners := fun e he => (ho e (hTq e he)).1
  have hTb : ∀ e ∈ T, b ∉ e.owners := fun e he => (ho e (hTq e he)).2
  have hne1 : ([b] : List Nat) ≠ [] := by simp
  have hne2 : ([a] : List Nat) ≠ [] := by simp
  refine ⟨⟨?_, fun c => ownersInsert_pair_mem a b c hab⟩, ⟨?_, ?_⟩, ⟨?_, ?_⟩⟩
  · rw [hB]; exact hfT _
  · simp [SearchQueue.cancelSearch, hB, cancelScan_append _ _ _ hTa, cancelScan, hma, hea]
  · simp only [SearchQueue.cancelSearch, hB, cancelScan_append _ _ _ hTa, cancelScan, hma,
      if_true, hea, hne1, if_false]
    exact hfT _
  · simp [SearchQueue.cancelSearch, hB, cancelScan_append _ _ _ hTb, cancelScan, hmb, heb]
  · simp only [SearchQueue.cancelSearch, hB, cancelScan_append _ _ _ hTb, cancelScan, hmb,
      if_true, heb, hne2, if_false]
    exact hfT _

/-- Witness of `add_twice_then_cancel`: a queue holding another query, then two requests
for query 7 owned by tokens 1 and 2. -/
theorem add_twice_then_cancel_witness :
    ((((SearchQueue.new 0 0).add (mkSearch 5 .HIGH 9) 0 []).2.add (mkSearch 7 .NORMAL 1) 0 []).2.add
        (mkSearch 7 .NORMAL 2) 0 []).2.searchQueue.filter
      (fun e => e.queryEqual (mkSearch 7 .NORMAL 1)) =
      [{ mkSearch 7 .NORMAL 1 with owners := ownersInsert 2 [1] }] :=
  (add_twice_then_cancel ((SearchQueue.new 0 0).add (mkSearch 5 .HIGH 9) 0 []).2
    (mkSearch 7 .NORMAL 1) (mkSearch 7 .NORMAL 2) 1 2 0 0 [] []
    (by decide) (by decide) rfl rfl (by decide) (by decide) (by decide)).1.1

/-- Claim C1 fails as stated, for every queue state. When the queue already holds the query
for owner 3, adding it for owners 1 and 2 and cancelling owner 1 leaves the entry owned by
2 and 3, not by exactly the other token. When owner 1 already has another query queued
ahead, cancelling owner 1 removes that other entry and the entry of the two requests keeps
both tokens. -/
theorem add_twice_then_cancel_counterexample :
    ((((((SearchQueue.new 0 0).add (mkSearch 7 .NORMAL 3) 0 []).2.add (mkSearch 7 .NORMAL 1) 0 []).2.add
        (mkSearch 7 .NORMAL 2) 0 []).2.cancelSearch 1).2.searchQueue =
      [{ query := 7, priority := .NORMAL, owners := [2, 3] }] ∧
    ¬ ∃ e ∈ (((((SearchQueue.new 0 0).add (mkSearch 7 .NORMAL 3) 0 []).2.add
        (mkSearch 7 .NORMAL 1) 0 []).2.add (mkSearch 7 .NORMAL 2) 0 []).2.cancelSearch 1).2.searchQueue,
      e.owners = [2]) ∧
    (((((SearchQueue.new 0 0).add (mkSearch 5 .HIGH 1) 0 []).2.add (mkSearch 7 .NORMAL 1) 0 []).2.add
        (mkSearch 7 .NORMAL 2) 0 []).2.cancelSearch 1).2.searchQueue =
      [{ query := 7, priority := .NORMAL, owners := [1, 2] }] := by
  decide

/-- A request of higher priority than the queued query-equal entry makes `add` erase that
entry and insert at the invalidated iterator: the queue afterwards is whatever that
insertion leaves. The owners of the erased entry are not carried over to the request by
any statement of the source. -/
theorem add_erase_outcome (u : List Search) :
    (((SearchQueue.new 0 0).add (mkSearch 7 .LOW 1) 0 []).2.add
      (mkSearch 7 .HIGH 2) 0 u).2.searchQueue = u := by
  rw [add_searchQueue]
  rfl

/-- Claim C2, evaluated on the code: adding query 1 at NORMAL, query 2 at LOW and query 2
again at HIGH leaves two queued entries for query 2, so the run reaches a queue in which
two distinct entries are query-equal. -/
theorem run_reaches_duplicate :
    ((SearchQueue.new 0 0).run
        [Op.add (mkSearch 1 .NORMAL 1) 0 [], Op.add (mkSearch 2 .LOW 2) 0 [],
          Op.add (mkSearch 2 .HIGH 3) 0 []]).searchQueue =
      [mkSearch 2 .HIGH 3, mkSearch 1 .NORMAL 1, mkSearch 2 .LOW 2] ∧
    ¬ ((SearchQueue.new 0 0).run
        [Op.add (mkSearch 1 .NORMAL 1) 0 [], Op.add (mkSearch 2 .LOW 2) 0 [],
          Op.add (mkSearch 2 .HIGH 3) 0 []]).searchQueue.Pairwise
      (fun a b => a.queryEqual b = false) := by
  decide

theorem prioritySorted_tail (l : List Search) (h : PrioritySorted l) : PrioritySorted l.tail := by
  cases l with
  | nil => exact h
  | cons e rest => exact ((prioritySorted_cons e rest).1 h).2

theorem pop_searchQueue (q : SearchQueue) (now tick : Nat) :
    (q.pop now tick).2.searchQueue = q.searchQueue ∨
      (q.pop now tick).2.searchQueue = q.searchQueue.tail := by
  unfold SearchQueue.pop
  split_ifs
  · exact Or.inl rfl
  · cases h : q.searchQueue with
    | nil => exact Or.inl (by simp [h])
    | cons s rest => exact Or.inr (by simp)

/-- The scan of `add` produces no queue exactly when it reaches the erasing branch. -/
theorem addScan_none_iff (mi : Int) (s : Search) (l : List Search) (x : Nat) :
    (addScan mi s l x).2 = none ↔ reachesErase s l = true := by
  induction l generalizing x with
  | nil => simp [addScan, reachesErase]
  | cons e rest ih =>
    by_cases hp : s.priority < e.priority
    · by_cases hq : e.queryEqual s = true
      · simp [addScan, reachesErase, scanPasses, hp, hq]
      · simp [addScan, reachesErase, scanPasses, hp, hq]
    · by_cases hq : s.queryEqual e = true
      · cases hso : s.owners <;> simp [addScan, reachesErase, scanPasses, hp, hq, hso]
      · have hpass : scanPasses s e = true := by simp [scanPasses, hp, hq]
        have hr : reachesErase s (e :: rest) = reachesErase s rest := by
          simp [reachesErase, List.dropWhile, hpass]
        rw [hr, ← ih (addInterval x (getInterval mi e.priority))]
        simp [addScan, hp, hq]

theorem addScan_some_of_avoids (mi : Int) (s : Search) (l : List Search) (x : Nat)
    (h : reachesErase s l = false) : ∃ l1, (addScan mi s l x).2 = some l1 := by
  cases hc : (addScan mi s l x).2 with
  | none => rw [(addScan_none_iff mi s l x).1 hc] at h; exact absurd h (by decide)
  | some l1 => exact ⟨l1, rfl⟩

theorem step_sorted (q : SearchQueue) (op : Op) (h : PrioritySorted q.searchQueue)
    (ha : q.avoidsErase [op] = true) :
    PrioritySorted (q.step op).searchQueue := by
  cases op with
  | add s now u =>
    simp only [SearchQueue.avoidsErase, Bool.and_true, Bool.not_eq_true'] at ha
    obtain ⟨l1, hl1⟩ := addScan_some_of_avoids q.minInterval s q.searchQueue 0 ha
    simp only [SearchQueue.step, add_searchQueue_of_some q s now u l1 hl1]
    exact addScan_sorted _ _ _ _ h l1 hl1
  | pop now tick =>
    simp only [SearchQueue.step]
    rcases pop_searchQueue q now tick with h1 | h1
    · rw [h1]; exact h
    · rw [h1]; exact prioritySorted_tail _ h
  | cancelSearch a =>
    simp only [SearchQueue.step, SearchQueue.cancelSearch]
    exact cancelScan_sorted _ _ h
  | clear =>
    simp [SearchQueue.step, SearchQueue.clear, PrioritySorted]

theorem avoidsErase_cons (q : SearchQueue) (op : Op) (ops : List Op) :
    q.avoidsErase (op :: ops) = (q.avoidsErase [op] && (q.step op).avoidsErase ops) := by
  cases op <;> simp [SearchQueue.avoidsErase, SearchQueue.step]

theorem run_sorted (q : SearchQueue) (ops : List Op) (h : PrioritySorted q.searchQueue)
    (ha : q.avoidsErase ops = true) :
    PrioritySorted (q.run ops).searchQueue := by
  induction ops generalizing q with
  | nil => exact h
  | cons op ops ih =>
    rw [avoidsErase_cons, Bool.and_eq_true] at ha
    exact ih (q.step op) (step_sorted q op h ha.1) ha.2

/-- In a priority-ordered queue every entry behind the first one of strictly lower
priority than `s` is of strictly lower priority than `s` too. -/
theorem dropWhile_staysAhead_lower (s : Search) (l : List Search) (h : PrioritySorted l) :
    ∀ e ∈ l.dropWhile (staysAhead s), s.priority < e.priority := by
  induction l with
  | nil => simp
  | cons c rest ih =>
    obtain ⟨hc, hrest⟩ := (prioritySorted_cons c rest).1 h
    by_cases hp : s.priority < c.priority
    · have : staysAhead s c = false := by simp [staysAhead, hp]
      simp only [List.dropWhile, this]
      intro e he
      simp only [List.mem_cons] at he
      rcases he with rfl | he
      · exact hp
      · rw [priority_lt_iff] at hp ⊢
        have := hc e he
        omega
    · have : staysAhead s c = true := by simp [staysAhead, hp]
      simp only [List.dropWhile, this]
      exact ih hrest

/-- Claim C3, evaluated on the code. A request that is query-equal to no queued entry is
inserted by `add` immediately before the first entry of strictly lower priority: the
entries before it are the leading ones of equal or higher priority, and the entry right
behind it, if any, is of strictly lower priority. In a priority-ordered queue all entries
behind it are of strictly lower priority and the queue stays priority-ordered, and so it
does along every run in which no `add` reaches the erasing branch; adding HIGH, LOW, HIGH
and popping three times yields HIGH, HIGH, LOW. But a run whose `add` re-submits a queued
query at a higher priority (`eraseOps`) leaves the queue to the insertion at the
invalidated iterator: the queue is whatever that leaves, and when it leaves the request
one slot early the queue is not priority-ordered, a new HIGHEST request is then inserted
ahead of the queued HIGHEST entry, and the HIGH entry is popped before that queued HIGHEST
entry. -/
theorem add_inserts_by_priority (q : SearchQueue) (s : Search) (now : Nat) (u : List Search)
    (h : ∀ e ∈ q.searchQueue, s.queryEqual e = false) :
    (q.add s now u).2.searchQueue =
        q.searchQueue.takeWhile (staysAhead s) ++ s :: q.searchQueue.dropWhile (staysAhead s) ∧
    (∀ e ∈ q.searchQueue.takeWhile (staysAhead s), ¬ s.priority < e.priority) ∧
    (∀ e, (q.searchQueue.dropWhile (staysAhead s)).head? = some e → s.priority < e.priority) ∧
    (PrioritySorted q.searchQueue →
      (∀ e ∈ q.searchQueue.dropWhile (staysAhead s), s.priority < e.priority) ∧
        PrioritySorted (q.add s now u).2.searchQueue) ∧
    (∀ (mi : Int) (t0 : Nat) (ops : List Op), (SearchQueue.new mi t0).avoidsErase ops = true →
      PrioritySorted ((SearchQueue.new mi t0).run ops).searchQueue) ∧
    (((SearchQueue.new 0 0).run
        [Op.add (mkSearch 1 .HIGH 1) 0 [], Op.add (mkSearch 2 .LOW 2) 0 [],
          Op.add (mkSearch 3 .HIGH 3) 0 []]).pop 5001 5001).1 = some (mkSearch 1 .HIGH 1) ∧
    (((SearchQueue.new 0 0).run
        [Op.add (mkSearch 1 .HIGH 1) 0 [], Op.add (mkSearch 2 .LOW 2) 0 [],
          Op.add (mkSearch 3 .HIGH 3) 0 [], Op.pop 5001 5001]).pop 10002 10002).1 =
      some (mkSearch 3 .HIGH 3) ∧
    (((SearchQueue.new 0 0).run
        [Op.add (mkSearch 1 .HIGH 1) 0 [], Op.add (mkSearch 2 .LOW 2) 0 [],
          Op.add (mkSearch 3 .HIGH 3) 0 [], Op.pop 5001 5001, Op.pop 10002 10002]).pop
        25003 25003).1 = some (mkSearch 2 .LOW 2) ∧
    (∀ v, (SearchQueue.new 0 0).avoidsErase (eraseOps v) = false ∧
      ((SearchQueue.new 0 0).run (eraseOps v)).searchQueue = v) ∧
    ¬ PrioritySorted ((SearchQueue.new 0 0).run (eraseOps oneSlotEarly)).searchQueue ∧
    (((SearchQueue.new 0 0).run (eraseOps oneSlotEarly)).add
        (mkSearch 9 .HIGHEST 7) 0 []).2.searchQueue = mkSearch 9 .HIGHEST 7 :: oneSlotEarly ∧
    (((SearchQueue.new 0 0).run (eraseOps oneSlotEarly)).pop 5001 5001).1 =
      some (mkSearch 7 .HIGH 6) := by
  have hscan := addScan_of_no_equal q.minInterval s q.searchQueue 0 h
  refine ⟨?_, ?_, ?_, ?_, ?_, by decide, by decide, by decide, ?_, ?_, by decide, by decide⟩
  · exact add_searchQueue_of_some _ _ _ _ _ hscan
  · intro e he
    have := List.mem_takeWhile_imp he
    simpa [staysAhead] using this
  · intro e he
    have hne : q.searchQueue.dropWhile (staysAhead s) ≠ [] := by
      intro h0; rw [h0] at he; simp at he
    have h1 := List.head_dropWhile_not (staysAhead s) q.searchQueue hne
    have h2 : (q.searchQueue.dropWhile (staysAhead s)).head hne = e := by
      rw [List.head?_eq_head hne] at he
      exact Option.some.inj he
    rw [h2] at h1
    simpa [staysAhead] using h1
  · intro hs
    refine ⟨dropWhile_staysAhead_lower s _ hs, ?_⟩
    rw [add_searchQueue_of_some _ _ _ _ _ hscan]
    exact addScan_sorted _ _ _ _ hs _ hscan
  · intro mi t0 ops ha
    exact run_sorted _ _ (by simp [SearchQueue.new, PrioritySorted]) ha
  · intro v
    set_option maxRecDepth 8000 in
    exact ⟨rfl, rfl⟩
  · unfold PrioritySorted
    decide

/-- Witness of `add_inserts_by_priority`: a NORMAL request joins a queue of a HIGH and
a LOW request between the two. -/
theorem add_inserts_by_priority_witness :
    (((SearchQueue.new 0 0).run
        [Op.add (mkSearch 1 .HIGH 1) 0 [], Op.add (mkSearch 2 .LOW 2) 0 []]).add
        (mkSearch 3 .NORMAL 3) 0 []).2.searchQueue =
      [mkSearch 1 .HIGH 1, mkSearch 3 .NORMAL 3, mkSearch 2 .LOW 2] :=
  (add_inserts_by_priority
    ((SearchQueue.new 0 0).run [Op.add (mkSearch 1 .HIGH 1) 0 [], Op.add (mkSearch 2 .LOW 2) 0 []])
    (mkSearch 3 .NORMAL 3) 0 [] (by decide)).1

theorem getNextSearchTick_eq (q : SearchQueue) (h0 : 0 ≤ (q.lastSearchTime : Int) + q.nextInterval)
    (h1 : (q.lastSearchTime : Int) + q.nextInterval < 2 ^ 64) :
    (q.getNextSearchTick : Int) = q.lastSearchTime + q.nextInterval := by
  unfold SearchQueue.getNextSearchTick
  omega

theorem getNextSearchTick_lt (q : SearchQueue) : q.getNextSearchTick < 2 ^ 64 := by
  unfold SearchQueue.getNextSearchTick
  omega

theorem getInterval_bounds (mi : Int) (p : Priority) :
    max 5000 mi ≤ getInterval mi p ∧ getInterval mi p ≤ max 20000 mi := by
  cases p <;> simp only [getInterval] <;> omega

/-- Past the gate, `pop` on a non-empty queue dispatches the head. -/
theorem pop_of_gate_cons (q : SearchQueue) (now tick : Nat) (s : Search) (rest : List Search) :
    q.getNextSearchTick < now → q.searchQueue = s :: rest →
    q.pop now tick =
      (some s,
        { searchQueue := rest
          lastSearchTime := tick
          nextInterval :=
            match rest with
            | front :: _ => getInterval q.minInterval front.priority
            | [] => q.minInterval
          minInterval := q.minInterval }) := by
  intro hg hq
  have : ¬ now ≤ q.getNextSearchTick := by omega
  simp [SearchQueue.pop, this, hq]

/-- Claim C4. `pop` returns an entry exactly when `now` is past the tick
`lastSearchTime + nextInterval` and the queue is non-empty; then it returns the head,
removes only the head, stores the tick of the dispatch in `lastSearchTime` and sets
`nextInterval` from the new head, or to `minInterval` when the queue became empty. When
`now` is not past that tick it returns nothing and changes nothing; when it is and the
queue is empty it returns nothing and sets `nextInterval` to -1. The tick is the sum of
the two fields whenever that sum is a 64-bit unsigned value, and with the sentinel on an
empty queue `pop` changes nothing whatever the tick. -/
theorem pop_spec (q : SearchQueue) (now tick : Nat) :
    ((q.pop now tick).1.isSome = true ↔ q.getNextSearchTick < now ∧ q.searchQueue ≠ []) ∧
    (∀ s rest, q.getNextSearchTick < now → q.searchQueue = s :: rest →
      q.pop now tick =
        (some s,
          { searchQueue := rest
            lastSearchTime := tick
            nextInterval :=
              match rest with
              | front :: _ => getInterval q.minInterval front.priority
              | [] => q.minInterval
            minInterval := q.minInterval })) ∧
    (now ≤ q.getNextSearchTick → q.pop now tick = (none, q)) ∧
    (q.getNextSearchTick < now → q.searchQueue = [] →
      q.pop now tick = (none, { q with nextInterval := -1 })) ∧
    (0 ≤ (q.lastSearchTime : Int) + q.nextInterval →
      (q.lastSearchTime : Int) + q.nextInterval < 2 ^ 64 →
      (q.getNextSearchTick : Int) = q.lastSearchTime + q.nextInterval) ∧
    (q.nextInterval = -1 → q.searchQueue = [] → q.pop now tick = (none, q)) := by
  refine ⟨?_, ?_, ?_, ?_, getNextSearchTick_eq q, ?_⟩
  · unfold SearchQueue.pop
    split_ifs with h
    · simp; omega
    · cases hq : q.searchQueue with
      | nil => simp
      | cons s rest => simp; omega
  · intro s rest hg hq
    exact pop_of_gate_cons q now tick s rest hg hq
  · intro hg
    simp [SearchQueue.pop, hg]
  · intro hg hq
    have : ¬ now ≤ q.getNextSearchTick := by omega
    simp [SearchQueue.pop, this, hq]
  · intro hn hq
    unfold SearchQueue.pop
    split_ifs with h
    · rfl
    · rw [hq]
      cases q
      simp only at hn hq
      simp [hn, hq]

/-- Witness of `pop_spec`: from a queue of two NORMAL requests a pop past the first tick
returns the first request. -/
theorem pop_spec_witness :
    (((SearchQueue.new 0 0).run
        [Op.add (mkSearch 1 .NORMAL 1) 0 [], Op.add (mkSearch 2 .NORMAL 2) 0 []]).pop 10001 10001).1.isSome
      = true :=
  (pop_spec ((SearchQueue.new 0 0).run
      [Op.add (mkSearch 1 .NORMAL 1) 0 [], Op.add (mkSearch 2 .NORMAL 2) 0 []]) 10001 10001).1.2
    ⟨by decide, by decide⟩

/-- Claim C5, amended. With `minInterval` 10000 and a queue whose second entry is of
NORMAL priority, after a successful `pop` at tick `t` a `pop` at `t + 1000` and a `pop` at
exactly `t + 10000` return nothing and change nothing, and a `pop` at any tick after
`t + 10000` returns the next entry. -/
theorem pop_rate_floor (q : SearchQueue) (s1 s2 : Search) (rest : List Search) (t : Nat)
    (hmi : q.minInterval = 10000) (hq : q.searchQueue = s1 :: s2 :: rest)
    (hp : s2.priority = Priority.NORMAL) (hgate : q.getNextSearchTick < t)
    (ht : t + 10000 < 2 ^ 64) :
    (q.pop t t).1 = some s1 ∧
    (q.pop t t).2.pop (t + 1000) (t + 1000) = (none, (q.pop t t).2) ∧
    (q.pop t t).2.pop (t + 10000) (t + 10000) = (none, (q.pop t t).2) ∧
    ∀ now tick, t + 10000 < now → ((q.pop t t).2.pop now tick).1 = some s2 := by
  have h1 := pop_of_gate_cons q t t s1 (s2 :: rest) hgate hq
  have hI : getInterval q.minInterval s2.priority = 10000 := by
    rw [hmi, hp]; simp [getInterval]
  simp only [hI] at h1
  have hT : SearchQueue.getNextSearchTick
      { searchQueue := s2 :: rest, lastSearchTime := t, nextInterval := 10000,
        minInterval := q.minInterval } = t + 10000 := by
    simp only [SearchQueue.getNextSearchTick]
    omega
  rw [h1]
  refine ⟨rfl, ?_, ?_, ?_⟩
  · simp only [SearchQueue.pop, hT]
    rw [if_pos (by omega)]
  · simp only [SearchQueue.pop, hT]
    rw [if_pos (by omega)]
  · intro now tick hnow
    simp only [SearchQueue.pop, hT]
    rw [if_neg (by omega)]

/-- Witness of `pop_rate_floor`: two NORMAL requests added to a new queue with
`minInterval` 10000, first popped at tick 20000. -/
theorem pop_rate_floor_witness :
    (((SearchQueue.new 10000 0).run
        [Op.add (mkSearch 1 .NORMAL 1) 0 [], Op.add (mkSearch 2 .NORMAL 2) 0 [],
          Op.pop 20000 20000]).pop 30001 30001).1 = some (mkSearch 2 .NORMAL 2) :=
  (pop_rate_floor
    ((SearchQueue.new 10000 0).run
      [Op.add (mkSearch 1 .NORMAL 1) 0 [], Op.add (mkSearch 2 .NORMAL 2) 0 []])
    (mkSearch 1 .NORMAL 1) (mkSearch 2 .NORMAL 2) [] 20000 rfl (by decide) rfl (by decide)
    (by norm_num)).2.2.2 30001 30001 (by norm_num)

/-- Claim C5 fails as stated at exactly `t + 10000`: with `minInterval` 10000 and two
NORMAL requests queued, the `pop` at tick 20000 returns the first request and the `pop` at
tick 30000 returns nothing. -/
theorem pop_rate_floor_counterexample :
    (((SearchQueue.new 10000 0).run
        [Op.add (mkSearch 1 .NORMAL 1) 0 [], Op.add (mkSearch 2 .NORMAL 2) 0 []]).pop 20000 20000).1 =
      some (mkSearch 1 .NORMAL 1) ∧
    (((SearchQueue.new 10000 0).run
        [Op.add (mkSearch 1 .NORMAL 1) 0 [], Op.add (mkSearch 2 .NORMAL 2) 0 [],
          Op.pop 20000 20000]).pop 30000 30000).1 = none := by
  decide

theorem addScan_ne_nil (mi : Int) (s : Search) (l : List Search) (x : Nat) :
    (addScan mi s l x).2 ≠ some [] := by
  cases l with
  | nil => simp [addScan]
  | cons e rest =>
    unfold addScan
    split_ifs
    · simp
    · simp
    · cases s.owners <;> simp
    · simp

theorem cancelScan_nil_of_nil (a : Nat) (l : List Search) (h : l = []) :
    (cancelScan a l).2 = [] := by
  subst h; rfl

theorem pop_minInterval (q : SearchQueue) (now tick : Nat) :
    (q.pop now tick).2.minInterval = q.minInterval := by
  unfold SearchQueue.pop
  split_ifs
  · rfl
  · cases q.searchQueue <;> rfl

theorem step_minInterval (q : SearchQueue) (op : Op) :
    (q.step op).minInterval = q.minInterval := by
  cases op with
  | add s now u => exact add_minInterval q s now u
  | pop now tick => exact pop_minInterval q now tick
  | cancelSearch a => rfl
  | clear => rfl

theorem add_intervalSet (q : SearchQueue) (s : Search) (now : Nat) (u : List Search)
    (h : q.IntervalSet) : (q.add s now u).2.IntervalSet := by
  unfold SearchQueue.add
  simp only
  split_ifs with hx
  · intro _
    have hne : q.searchQueue ≠ [] := by
      intro h0
      rw [h0] at hx
      simp [addScan] at hx
    exact h hne
  · intro _
    have hne : q.searchQueue ≠ [] := by
      intro h0
      rw [h0] at hx
      simp [addScan] at hx
    exact h hne
  · split
    · next h0 =>
      intro hne
      exact absurd h0 hne
    · next f t h0 =>
      split_ifs <;> exact fun _ => getInterval_bounds _ _

theorem pop_intervalSet (q : SearchQueue) (now tick : Nat) (h : q.IntervalSet) :
    (q.pop now tick).2.IntervalSet := by
  unfold SearchQueue.pop
  split_ifs
  · exact h
  · cases hq : q.searchQueue with
    | nil => intro h0; simp at h0
    | cons s rest =>
      cases rest with
      | nil => intro h0; simp at h0
      | cons f t => exact fun _ => getInterval_bounds _ _

theorem step_intervalSet (q : SearchQueue) (op : Op) (h : q.IntervalSet) :
    (q.step op).IntervalSet := by
  cases op with
  | add s now u => exact add_intervalSet q s now u h
  | pop now tick => exact pop_intervalSet q now tick h
  | cancelSearch a =>
    intro hne
    have : q.searchQueue ≠ [] := fun h0 => hne (cancelScan_nil_of_nil a _ h0)
    exact h this
  | clear => intro hne; simp [SearchQueue.step, SearchQueue.clear] at hne

theorem run_intervalSet (q : SearchQueue) (ops : List Op) (h : q.IntervalSet) :
    (q.run ops).IntervalSet := by
  induction ops generalizing q with
  | nil => exact h
  | cons op ops ih => exact ih (q.step op) (step_intervalSet q op h)

theorem new_intervalSet (mi : Int) (t0 : Nat) : (SearchQueue.new mi t0).IntervalSet := by
  intro h; simp [SearchQueue.new] at h

theorem pop_isSome_iff (q : SearchQueue) (now tick : Nat) :
    (q.pop now tick).1.isSome = true ↔ q.getNextSearchTick < now ∧ q.searchQueue ≠ [] := by
  unfold SearchQueue.pop
  split_ifs with h
  · simp; omega
  · cases hq : q.searchQueue with
    | nil => simp
    | cons s rest => simp; omega

theorem pop_lastSearchTime (q : SearchQueue) (now tick : Nat) :
    (q.pop now tick).2.lastSearchTime =
      if (q.pop now tick).1.isSome then tick else q.lastSearchTime := by
  unfold SearchQueue.pop
  by_cases h : now ≤ q.getNextSearchTick
  · simp [h]
  · cases hq : q.searchQueue <;> simp [h]

theorem step_lastSearchTime (q : SearchQueue) (op : Op)
    (h : ∀ now tick, op = Op.pop now tick → (q.pop now tick).1.isSome = false) :
    (q.step op).lastSearchTime = q.lastSearchTime := by
  cases op with
  | add s now u => exact add_lastSearchTime q s now u
  | pop now tick =>
    simp only [SearchQueue.step]
    rw [pop_lastSearchTime, h now tick rfl]
    rfl
  | cancelSearch a => rfl
  | clear => rfl

/-- A dispatch from a queue with a known interval comes more than the smallest interval
after the last dispatch. -/
theorem pop_gap (q : SearchQueue) (now tick : Nat) (h : q.IntervalSet)
    (hw : (q.lastSearchTime : Int) + max 20000 q.minInterval < 2 ^ 64)
    (hs : (q.pop now tick).1.isSome = true) :
    (q.lastSearchTime : Int) + max 5000 q.minInterval < now := by
  obtain ⟨hg, hne⟩ := (pop_isSome_iff q now tick).1 hs
  obtain ⟨h1, h2⟩ := h hne
  have := getNextSearchTick_eq q (by omega) (by omega)
  omega

/-- Every dispatch of a run comes more than the smallest interval after the dispatch
recorded in the starting state. -/
theorem dispatches_after_last (ops : List Op) :
    ∀ (q : SearchQueue), q.IntervalSet →
      (q.lastSearchTime : Int) + max 20000 q.minInterval < 2 ^ 64 →
      (∀ now tick, Op.pop now tick ∈ ops →
        now ≤ tick ∧ (tick : Int) + max 20000 q.minInterval < 2 ^ 64) →
      ∀ d ∈ q.dispatches ops, (q.lastSearchTime : Int) + max 5000 q.minInterval < d.1 := by
  induction ops with
  | nil => intro q _ _ _ d hd; simp [SearchQueue.dispatches] at hd
  | cons op ops ih =>
    intro q hI hw hops d hd
    have hops2 : ∀ now tick, Op.pop now tick ∈ ops →
        now ≤ tick ∧ (tick : Int) + max 20000 q.minInterval < 2 ^ 64 :=
      fun now tick hm => hops now tick (List.mem_cons_of_mem _ hm)
    cases op with
    | pop now tick =>
      obtain ⟨hnt, htw⟩ := hops now tick (List.mem_cons_self _ _)
      have hI2 := pop_intervalSet q now tick hI
      have hmi := pop_minInterval q now tick
      simp only [SearchQueue.dispatches] at hd
      by_cases hs : (q.pop now tick).1.isSome = true
      · have hgap := pop_gap q now tick hI hw hs
        rw [if_pos hs] at hd
        simp only [List.mem_cons] at hd
        rcases hd with rfl | hd
        · exact hgap
        · have hl : (q.pop now tick).2.lastSearchTime = tick := by
            rw [pop_lastSearchTime, if_pos hs]
          have := ih (q.pop now tick).2 hI2 (by rw [hl, hmi]; exact htw)
            (by rw [hmi]; exact hops2) d hd
          rw [hl, hmi] at this
          omega
      · rw [if_neg hs] at hd
        have hl : (q.pop now tick).2.lastSearchTime = q.lastSearchTime := by
          rw [pop_lastSearchTime, if_neg hs]
        have := ih (q.pop now tick).2 hI2 (by rw [hl, hmi]; exact hw)
          (by rw [hmi]; exact hops2) d hd
        rw [hl, hmi] at this
        exact this
    | add s now u =>
      simp only [SearchQueue.dispatches] at hd
      have hmi := step_minInterval q (Op.add s now u)
      have hl := step_lastSearchTime q (Op.add s now u) (by intro _ _ h; cases h)
      have := ih _ (step_intervalSet q (Op.add s now u) hI) (by rw [hl, hmi]; exact hw)
        (by rw [hmi]; exact hops2) d hd
      rw [hl, hmi] at this
      exact this
    | cancelSearch a =>
      simp only [SearchQueue.dispatches] at hd
      exact ih _ (step_intervalSet q (Op.cancelSearch a) hI) hw hops2 d hd
    | clear =>
      simp only [SearchQueue.dispatches] at hd
      exact ih _ (step_intervalSet q Op.clear hI) hw hops2 d hd

theorem dispatches_pairwise (ops : List Op) :
    ∀ (q : SearchQueue), q.IntervalSet →
      (∀ now tick, Op.pop now tick ∈ ops →
        now ≤ tick ∧ (tick : Int) + max 20000 q.minInterval < 2 ^ 64) →
      (q.dispatches ops).Pairwise
        (fun d1 d2 => (d1.2 : Int) + max 5000 q.minInterval < d2.1) := by
  induction ops with
  | nil => intro q _ _; simp [SearchQueue.dispatches]
  | cons op ops ih =>
    intro q hI hops
    have hops2 : ∀ now tick, Op.pop now tick ∈ ops →
        now ≤ tick ∧ (tick : Int) + max 20000 q.minInterval < 2 ^ 64 :=
      fun now tick hm => hops now tick (List.mem_cons_of_mem _ hm)
    have hmi := step_minInterval q op
    have hrec := ih (q.step op) (step_intervalSet q op hI) (by rw [hmi]; exact hops2)
    rw [hmi] at hrec
    cases op with
    | pop now tick =>
      obtain ⟨hnt, htw⟩ := hops now tick (List.mem_cons_self _ _)
      simp only [SearchQueue.dispatches]
      simp only [SearchQueue.step] at hrec
      by_cases hs : (q.pop now tick).1.isSome = true
      · rw [if_pos hs, List.pairwise_cons]
        refine ⟨?_, hrec⟩
        intro d hd
        have hl : (q.pop now tick).2.lastSearchTime = tick := by
          rw [pop_lastSearchTime, if_pos hs]
        have hmi2 := pop_minInterval q now tick
        have := dispatches_after_last ops (q.pop now tick).2 (pop_intervalSet q now tick hI)
          (by rw [hl, hmi2]; exact htw) (by rw [hmi2]; exact hops2) d hd
        rw [hl, hmi2] at this
        exact this
      · rw [if_neg hs]; exact hrec
    | add s now u => simp only [SearchQueue.dispatches]; exact hrec
    | cancelSearch a => simp only [SearchQueue.dispatches]; exact hrec
    | clear => simp only [SearchQueue.dispatches]; exact hrec

/-- Claim C6. From a new queue with any fixed `minInterval`, whatever calls of `add`,
`cancelSearch`, `clear` and `pop` are made, any two dispatches are more than
`max 5000 minInterval` milliseconds apart: the gate tick of the later one exceeds the tick
stored by the earlier one by more than that. The clock does not go back inside a `pop`
and stays clear of the end of the 64-bit range. -/
theorem dispatches_spaced (mi : Int) (t0 : Nat) (ops : List Op)
    (hclock : ∀ now tick, Op.pop now tick ∈ ops →
      now ≤ tick ∧ (tick : Int) + max 20000 mi < 2 ^ 64) :
    ((SearchQueue.new mi t0).dispatches ops).Pairwise
      (fun d1 d2 => (d1.2 : Int) + max 5000 mi < d2.1) :=
  dispatches_pairwise ops (SearchQueue.new mi t0) (new_intervalSet mi t0) hclock

/-- Witness of `dispatches_spaced`: two HIGH requests dispatched at ticks 5001 and
10002. -/
theorem dispatches_spaced_witness :
    ((SearchQueue.new 0 0).dispatches
        [Op.add (mkSearch 1 .HIGH 1) 0 [], Op.add (mkSearch 2 .HIGH 2) 0 [], Op.pop 5001 5001,
          Op.pop 9000 9000, Op.pop 10002 10002]).Pairwise
        (fun d1 d2 => (d1.2 : Int) + max 5000 0 < d2.1) ∧
    (SearchQueue.new 0 0).dispatches
        [Op.add (mkSearch 1 .HIGH 1) 0 [], Op.add (mkSearch 2 .HIGH 2) 0 [], Op.pop 5001 5001,
          Op.pop 9000 9000, Op.pop 10002 10002] = [(5001, 5001), (10002, 10002)] :=
  ⟨dispatches_spaced 0 0 _ (by
      intro now tick h
      simp only [List.mem_cons, List.mem_singleton, Op.pop.injEq, reduceCtorEq, false_or,
        List.mem_nil_iff, or_false] at h
      rcases h with ⟨rfl, rfl⟩ | ⟨rfl, rfl⟩ | ⟨rfl, rfl⟩ <;> norm_num), by decide⟩

theorem scanSum_eq (mi : Int) (l : List Search) (x : Nat) :
    (scanSum mi l x : Int) =
      ((x : Int) + (l.map (fun e => getInterval mi e.priority)).sum) % 2 ^ 32 ∨ l = [] := by
  induction l generalizing x with
  | nil => exact Or.inr rfl
  | cons e rest ih =>
    left
    have hstep : scanSum mi (e :: rest) x =
        scanSum mi rest (addInterval x (getInterval mi e.priority)) := rfl
    rw [hstep]
    have ha : (addInterval x (getInterval mi e.priority) : Int) =
        ((x : Int) + getInterval mi e.priority) % 2 ^ 32 := by
      unfold addInterval; omega
    rcases ih (addInterval x (getInterval mi e.priority)) with h | h
    · rw [h, ha, List.map_cons, List.sum_cons]
      omega
    · subst h
      simp only [scanSum, List.foldl_nil, List.map_cons, List.map_nil, List.sum_cons,
        List.sum_nil, add_zero]
      exact ha

theorem scanSum_zero_eq (mi : Int) (l : List Search) :
    (scanSum mi l 0 : Int) = ((l.map (fun e => getInterval mi e.priority)).sum) % 2 ^ 32 := by
  rcases scanSum_eq mi l 0 with h | h
  · simpa using h
  · subst h; simp [scanSum]

/-- The scan of `add` sums `x` over the leading entries that pass its tests. -/
theorem addScan_fst (mi : Int) (s : Search) (l : List Search) (x : Nat) :
    (addScan mi s l x).1 = scanSum mi (l.takeWhile (scanPasses s)) x := by
  induction l generalizing x with
  | nil => simp [addScan, scanSum]
  | cons c rest ih =>
    by_cases hp : s.priority < c.priority
    · have hpass : scanPasses s c = false := by simp [scanPasses, hp]
      by_cases hq : c.queryEqual s = true <;>
        simp [addScan, hp, hq, List.takeWhile, hpass, scanSum]
    · by_cases hq : s.queryEqual c = true
      · have hpass : scanPasses s c = false := by simp [scanPasses, hp, hq]
        cases hso : s.owners <;> simp [addScan, hp, hq, hso, List.takeWhile, hpass, scanSum]
      · have hpass : scanPasses s c = true := by simp [scanPasses, hp, hq]
        simp only [addScan, hp, hq, if_false, Bool.false_eq_true, List.takeWhile, hpass]
        exact ih _

/-- The scan of `add` stops behind the leading entries that pass its tests, with `x` summed
over them, and, unless it ends in the insertion at the invalidated iterator, leaves there
an entry for the query of the request. -/
theorem addScan_spec (mi : Int) (s : Search) (l : List Search) (x : Nat) :
    (addScan mi s l x).1 = scanSum mi (l.takeWhile (scanPasses s)) x ∧
      ∀ l1, (addScan mi s l x).2 = some l1 →
        ∃ e tl, l1 = l.takeWhile (scanPasses s) ++ e :: tl ∧ e.queryEqual s = true := by
  refine ⟨addScan_fst mi s l x, ?_⟩
  induction l generalizing x with
  | nil =>
    intro l1 hl
    simp only [addScan, Option.some.injEq] at hl
    subst hl
    exact ⟨s, [], by simp, by simp [Search.queryEqual]⟩
  | cons c rest ih =>
    intro l1 hl
    rcases addScan_cons_some mi s c rest x l1 hl with
      ⟨hp, _, rfl⟩ | ⟨hp, hq, h2⟩ | ⟨hp, hq, l2, hl2, rfl⟩
    · have hpass : scanPasses s c = false := by simp [scanPasses, hp]
      exact ⟨s, c :: rest, by simp [List.takeWhile, hpass], by simp [Search.queryEqual]⟩
    · have hpass : scanPasses s c = false := by simp [scanPasses, hp, hq]
      have hq2 : c.queryEqual s = true := by rw [queryEqual_comm]; exact hq
      rcases h2 with rfl | ⟨a, rfl⟩
      · exact ⟨c, rest, by simp [List.takeWhile, hpass], hq2⟩
      · refine ⟨{ c with owners := ownersInsert a c.owners }, rest,
          by simp [List.takeWhile, hpass], ?_⟩
        simpa [Search.queryEqual] using hq2
    · have hpass : scanPasses s c = true := by simp [scanPasses, hp, hq]
      obtain ⟨e, tl, h2, h3⟩ := ih _ l2 hl2
      refine ⟨e, tl, ?_, h3⟩
      simp only [List.takeWhile, hpass, List.cons_append]
      rw [h2]

/-- Claim C7, amended. Take an `add` whose scan does not end at a query-equal entry of
strictly lower priority (the branch that erases and inserts at the invalidated iterator).
The entries ahead of the added or merged-into entry are the leading entries the scan
passes. The value returned by `add` is the sum of `getInterval` over them, taken modulo
`2^32`, plus the time still left until the next search tick
`lastSearchTime + nextInterval` (nothing once that tick is reached), the total modulo
`2^64`. The tick is read after `add` has set `nextInterval` from the head of the queue,
which it does when the sum is zero and only then. -/
theorem add_estimate (q : SearchQueue) (s : Search) (now : Nat) (u : List Search)
    (hdef : reachesErase s q.searchQueue = false) :
    (∃ e tl, (q.add s now u).2.searchQueue =
        q.searchQueue.takeWhile (scanPasses s) ++ e :: tl ∧ e.queryEqual s = true) ∧
    (q.add s now u).1 =
      (scanSum q.minInterval (q.searchQueue.takeWhile (scanPasses s)) 0 +
        ((q.add s now u).2.getNextSearchTick - now)) % 2 ^ 64 ∧
    (scanSum q.minInterval (q.searchQueue.takeWhile (scanPasses s)) 0 : Int) =
      ((q.searchQueue.takeWhile (scanPasses s)).map
        (fun e => getInterval q.minInterval e.priority)).sum % 2 ^ 32 ∧
    (0 < scanSum q.minInterval (q.searchQueue.takeWhile (scanPasses s)) 0 →
      (q.add s now u).2.nextInterval = q.nextInterval) ∧
    (scanSum q.minInterval (q.searchQueue.takeWhile (scanPasses s)) 0 = 0 →
      ∃ front tl, (q.add s now u).2.searchQueue = front :: tl ∧
        (q.add s now u).2.nextInterval = getInterval q.minInterval front.priority) := by
  obtain ⟨l1, hl1⟩ := addScan_some_of_avoids q.minInterval s q.searchQueue 0 hdef
  obtain ⟨hx, hspec⟩ := addScan_spec q.minInterval s q.searchQueue 0
  obtain ⟨e, tl, hq, he⟩ := hspec l1 hl1
  have hQ : addQueue q.minInterval s q.searchQueue u = l1 := by simp [addQueue, hl1]
  have hne : l1 ≠ [] := fun h0 => addScan_ne_nil _ _ _ _ (by rw [hl1, h0])
  obtain ⟨f, t, hft⟩ : ∃ f t, l1 = f :: t := by
    cases l1 with
    | nil => exact absurd rfl hne
    | cons f t => exact ⟨f, t, rfl⟩
  rw [hft] at hQ
  refine ⟨⟨e, tl, by rw [add_searchQueue_of_some q s now u l1 hl1]; exact hq, he⟩, ?_,
    scanSum_zero_eq _ _, ?_, ?_⟩
  · rw [← hx]
    unfold SearchQueue.add
    simp only [hQ]
    split_ifs with h1 h2 h3
    · have hlt : (addScan q.minInterval s q.searchQueue 0).1 < 2 ^ 32 := by
        rw [hx]
        have := scanSum_zero_eq q.minInterval (q.searchQueue.takeWhile (scanPasses s))
        omega
      simp only
      rw [Nat.sub_eq_zero_of_le h2, Nat.add_zero, Nat.mod_eq_of_lt (by omega)]
    · rfl
    · have h0 : (addScan q.minInterval s q.searchQueue 0).1 = 0 := by omega
      simp only [h0, Nat.zero_add]
      rw [Nat.sub_eq_zero_of_le h3]
      rfl
    · have h0 : (addScan q.minInterval s q.searchQueue 0).1 = 0 := by omega
      simp only [h0, Nat.zero_add]
      rw [Nat.mod_eq_of_lt]
      have := getNextSearchTick_lt
        { searchQueue := f :: t
          lastSearchTime := q.lastSearchTime
          nextInterval := getInterval q.minInterval f.priority
          minInterval := q.minInterval }
      omega
  · intro hpos
    rw [← hx] at hpos
    unfold SearchQueue.add
    simp only
    rw [if_pos hpos]
    split_ifs <;> rfl
  · intro hzero
    rw [← hx] at hzero
    unfold SearchQueue.add
    simp only [hQ]
    rw [if_neg (by omega)]
    refine ⟨f, t, ?_, ?_⟩
    · split_ifs <;> rfl
    · split_ifs <;> rfl

/-- Witness of `add_estimate`: a second NORMAL request added at tick 1000 behind a first
one is estimated at 19000 ms, the 10000 ms of the entry ahead plus the 9000 ms left of the
current window. -/
theorem add_estimate_witness :
    (((SearchQueue.new 0 0).run [Op.add (mkSearch 1 .NORMAL 1) 0 []]).add
        (mkSearch 2 .NORMAL 2) 1000 []).1 = (10000 + (10000 - 1000)) % 2 ^ 64 :=
  (add_estimate ((SearchQueue.new 0 0).run [Op.add (mkSearch 1 .NORMAL 1) 0 []])
    (mkSearch 2 .NORMAL 2) 1000 [] rfl).2.1

/-- In the branch that erases and inserts at the invalidated iterator the value returned
by `add` is still computed from the entries the scan has passed, wherever the insertion
leaves the request: the last `add` of `eraseOps` returns 10000, the 5000 ms of the HIGHEST
entry it passed plus the 5000 ms left of the window, also when the request ends up at the
head of the queue with no entry ahead of it. -/
theorem add_estimate_erase :
    reachesErase (mkSearch 7 .HIGH 6)
      ((SearchQueue.new 0 0).run
        [Op.add (mkSearch 1 .HIGHEST 1) 0 [], Op.add (mkSearch 7 .NORMAL 2) 0 [],
          Op.add (mkSearch 3 .NORMAL 3) 0 [], Op.add (mkSearch 4 .NORMAL 4) 0 [],
          Op.add (mkSearch 5 .NORMAL 5) 0 []]).searchQueue = true ∧
    (((SearchQueue.new 0 0).run
        [Op.add (mkSearch 1 .HIGHEST 1) 0 [], Op.add (mkSearch 7 .NORMAL 2) 0 [],
          Op.add (mkSearch 3 .NORMAL 3) 0 [], Op.add (mkSearch 4 .NORMAL 4) 0 [],
          Op.add (mkSearch 5 .NORMAL 5) 0 []]).add (mkSearch 7 .HIGH 6) 0 oneSlotEarly).1 =
      10000 ∧
    (((SearchQueue.new 0 0).run
        [Op.add (mkSearch 1 .HIGHEST 1) 0 [], Op.add (mkSearch 7 .NORMAL 2) 0 [],
          Op.add (mkSearch 3 .NORMAL 3) 0 [], Op.add (mkSearch 4 .NORMAL 4) 0 [],
          Op.add (mkSearch 5 .NORMAL 5) 0 []]).add (mkSearch 7 .HIGH 6) 0
        oneSlotEarly).2.searchQueue.head? = some (mkSearch 7 .HIGH 6) := by
  set_option maxRecDepth 8000 in
  decide

/-- Claim C7 fails as stated: with one NORMAL request queued and nothing dispatched yet, a
second NORMAL request added at tick 1000 gets the estimate 19000, while the sum over the
entry ahead minus the elapsed 1000 ms is 9000. -/
theorem add_estimate_counterexample :
    (((SearchQueue.new 0 0).run [Op.add (mkSearch 1 .NORMAL 1) 0 []]).add
        (mkSearch 2 .NORMAL 2) 1000 []).2.searchQueue =
      [mkSearch 1 .NORMAL 1, mkSearch 2 .NORMAL 2] ∧
    (((SearchQueue.new 0 0).run [Op.add (mkSearch 1 .NORMAL 1) 0 []]).add
        (mkSearch 2 .NORMAL 2) 1000 []).1 = 19000 ∧
    specAddEstimate 0 [mkSearch 1 .NORMAL 1] 1000
        ((SearchQueue.new 0 0).run [Op.add (mkSearch 1 .NORMAL 1) 0 []]).lastSearchTime = 9000 := by
  decide

theorem cancelScan_none (a : Nat) (l : List Search) (h : ∀ e ∈ l, a ∉ e.owners) :
    cancelScan a l = (false, l) := by
  have := cancelScan_append a l [] h
  simpa [cancelScan] using this

theorem cancelScan_fst (a : Nat) (l : List Search) :
    (cancelScan a l).1 = true ↔ ∃ e ∈ l, a ∈ e.owners := by
  induction l with
  | nil => simp [cancelScan]
  | cons c rest ih =>
    by_cases hc : a ∈ c.owners
    · have : (cancelScan a (c :: rest)).1 = true := by
        unfold cancelScan
        rw [if_pos hc]
        split_ifs <;> rfl
      simp only [this, true_iff]
      exact ⟨c, List.mem_cons_self _ _, hc⟩
    · have : (cancelScan a (c :: rest)).1 = (cancelScan a rest).1 := by
        simp [cancelScan, hc]
      rw [this, ih]
      simp [hc]

theorem ownersErase_mem (a b : Nat) (l : List Nat) :
    b ∈ ownersErase a l ↔ b ∈ l ∧ b ≠ a := by
  simp [ownersErase]

/-- Claim C8, amended. `cancelSearch` removes the token from the first queued entry whose
owner set contains it, and from that entry only: the entry loses the token and no other
owner, it leaves the queue when no owner remains, and every other entry, the order of the
queue and the other fields are unchanged. The call returns true exactly when some entry
contained the token, and changes nothing when none did. Afterwards no queued entry lists
the token, provided no entry behind the first match listed it. -/
theorem cancelSearch_first_match (q : SearchQueue) (aOwner : Nat) :
    ((q.cancelSearch aOwner).1 = true ↔ ∃ e ∈ q.searchQueue, aOwner ∈ e.owners) ∧
    ((∀ e ∈ q.searchQueue, aOwner ∉ e.owners) → q.cancelSearch aOwner = (false, q)) ∧
    (∀ A e B, q.searchQueue = A ++ e :: B → (∀ c ∈ A, aOwner ∉ c.owners) →
      aOwner ∈ e.owners →
      (q.cancelSearch aOwner).2 =
          { q with
            searchQueue :=
              A ++ (if ownersErase aOwner e.owners = [] then B
                else { e with owners := ownersErase aOwner e.owners } :: B) } ∧
        (∀ b, b ∈ ownersErase aOwner e.owners ↔ b ∈ e.owners ∧ b ≠ aOwner) ∧
        ((∀ c ∈ B, aOwner ∉ c.owners) →
          ∀ c ∈ (q.cancelSearch aOwner).2.searchQueue, aOwner ∉ c.owners)) := by
  refine ⟨cancelScan_fst aOwner q.searchQueue, ?_, ?_⟩
  · intro h
    simp [SearchQueue.cancelSearch, cancelScan_none aOwner _ h]
  · intro A e B hq hA he
    have hres : (q.cancelSearch aOwner).2 =
        { q with
          searchQueue :=
            A ++ (if ownersErase aOwner e.owners = [] then B
              else { e with owners := ownersErase aOwner e.owners } :: B) } := by
      simp only [SearchQueue.cancelSearch, hq, cancelScan_append _ _ _ hA, cancelScan, he,
        if_true]
      split_ifs <;> rfl
    refine ⟨hres, fun b => ownersErase_mem aOwner b e.owners, ?_⟩
    intro hB c hc
    rw [hres] at hc
    simp only [List.mem_append] at hc
    rcases hc with hc | hc
    · exact hA c hc
    · split_ifs at hc
      · exact hB c hc
      · simp only [List.mem_cons] at hc
        rcases hc with rfl | hc
        · simp [ownersErase]
        · exact hB c hc

/-- Witness of `cancelSearch_first_match`: cancelling owner 2 in a queue of two requests
removes the second request and returns true. -/
theorem cancelSearch_first_match_witness :
    (((SearchQueue.new 0 0).run
        [Op.add (mkSearch 1 .NORMAL 1) 0 [], Op.add (mkSearch 2 .NORMAL 2) 0 []]).cancelSearch 2).1 =
      true :=
  (cancelSearch_first_match ((SearchQueue.new 0 0).run
      [Op.add (mkSearch 1 .NORMAL 1) 0 [], Op.add (mkSearch 2 .NORMAL 2) 0 []]) 2).1.2
    ⟨mkSearch 2 .NORMAL 2, by decide, by decide⟩

/-- Claim C8 fails as stated: when owner 1 has two requests queued, `cancelSearch` takes
the token off the first one only, and the second one still lists it afterwards. -/
theorem cancelSearch_counterexample :
    (((SearchQueue.new 0 0).run
        [Op.add (mkSearch 1 .NORMAL 1) 0 [], Op.add (mkSearch 2 .NORMAL 1) 0 []]).cancelSearch 1) =
      (true, { searchQueue := [mkSearch 2 .NORMAL 1], lastSearchTime := 0,
               nextInterval := 10000, minInterval := 0 }) ∧
    ∃ e ∈ (((SearchQueue.new 0 0).run
        [Op.add (mkSearch 1 .NORMAL 1) 0 [], Op.add (mkSearch 2 .NORMAL 1) 0 []]).cancelSearch
          1).2.searchQueue, 1 ∈ e.owners := by
  decide

/-- Claim C9. `hasWaitingTime` is true exactly when `nextInterval` is negative or the tick
`lastSearchTime + nextInterval` lies after the tick asked about; and in every state reached
from a new queue, with any `minInterval` and any calls at any ticks, it is a sound skip
test: when it is true, a `pop` made at that tick returns nothing. -/
theorem hasWaitingTime_sound (mi : Int) (t0 : Nat) (ops : List Op) (t tick : Nat) :
    (((SearchQueue.new mi t0).run ops).hasWaitingTime t = true ↔
      ((SearchQueue.new mi t0).run ops).nextInterval < 0 ∨
        t < ((SearchQueue.new mi t0).run ops).getNextSearchTick) ∧
    (((SearchQueue.new mi t0).run ops).hasWaitingTime t = true →
      (((SearchQueue.new mi t0).run ops).pop t tick).1 = none) := by
  have hI := run_intervalSet (SearchQueue.new mi t0) ops (new_intervalSet mi t0)
  generalize (SearchQueue.new mi t0).run ops = q at hI
  have hiff : q.hasWaitingTime t = true ↔ q.nextInterval < 0 ∨ t < q.getNextSearchTick := by
    simp [SearchQueue.hasWaitingTime]
  refine ⟨hiff, ?_⟩
  intro hw
  rcases hiff.1 hw with hneg | hlt
  · have hempty : q.searchQueue = [] := by
      by_contra hne
      have := hI hne
      omega
    unfold SearchQueue.pop
    split_ifs
    · rfl
    · rw [hempty]
  · have : t ≤ q.getNextSearchTick := by omega
    simp [SearchQueue.pop, this]

/-- Witness of `hasWaitingTime_sound`: after a dispatch at tick 10001 the queue still has
waiting time at tick 15000, and a `pop` made then returns nothing. -/
theorem hasWaitingTime_sound_witness :
    (((SearchQueue.new 0 0).run
        [Op.add (mkSearch 1 .NORMAL 1) 0 [], Op.add (mkSearch 2 .NORMAL 2) 0 [],
          Op.pop 10001 10001]).pop 15000 15000).1 = none :=
  (hasWaitingTime_sound 0 0
    [Op.add (mkSearch 1 .NORMAL 1) 0 [], Op.add (mkSearch 2 .NORMAL 2) 0 [], Op.pop 10001 10001]
    15000 15000).2 rfl

theorem setConnectState_state (c : Client) (s : State) : (c.setConnectState s).state = s := by
  unfold Client.setConnectState
  split_ifs with h
  · exact h
  · rfl

theorem setConnectState_effects_length (c : Client) (s : State) :
    c.effects.length ≤ (c.setConnectState s).effects.length := by
  unfold Client.setConnectState
  split_ifs <;> simp

/-- After `connect` the connection is connecting, or disconnected when the socket
threw. -/
theorem connect_state (c : Client) (env : ConnectEnv) :
    (c.connect env).state = State.STATE_CONNECTING ∨
      (c.connect env).state = State.STATE_DISCONNECTED := by
  unfold Client.connect
  cases env.sockResult with
  | ok => left; simp [Client.updateActivity, setConnectState_state]
  | getSocketThrows e => right; simp [Client.updateActivity, setConnectState_state]
  | connectThrows e => right; simp [Client.updateActivity, setConnectState_state]

/-- Every `connect` leaves a trace: it makes a socket call or fires `Failed`. -/
theorem connect_effects_length (c : Client) (env : ConnectEnv) :
    c.effects.length < (c.connect env).effects.length := by
  have h1 : c.effects.length ≤
      (if c.sock then { c with sock := false, effects := c.effects ++ [Effect.putSocket] }
        else c).effects.length := by
    split_ifs <;> simp
  unfold Client.connect
  simp only
  generalize (if c.sock then { c with sock := false, effects := c.effects ++ [Effect.putSocket] }
        else c) = c1 at h1
  cases env.sockResult with
  | ok =>
    simp only [Client.updateActivity, List.length_append, List.length_singleton]
    have := setConnectState_effects_length
      { c1 with
        redirectUrl := ""
        autoReconnect := true
        reconnDelay := (120 + env.rand) % 2 ^ 32
        searchQueue := { c1.searchQueue with minInterval := env.searchInterval * 1000 }
        registered := false
        myIdentity := env.me } State.STATE_CONNECTING
    simp only at this
    omega
  | getSocketThrows e =>
    simp only [Client.updateActivity, List.length_append, List.length_singleton]
    have h2 := setConnectState_effects_length
      { c1 with
        redirectUrl := ""
        autoReconnect := true
        reconnDelay := (120 + env.rand) % 2 ^ 32
        searchQueue := { c1.searchQueue with minInterval := env.searchInterval * 1000 }
        registered := false
        myIdentity := env.me } State.STATE_CONNECTING
    have h3 := setConnectState_effects_length
      (Client.setConnectState { c1 with
        redirectUrl := ""
        autoReconnect := true
        reconnDelay := (120 + env.rand) % 2 ^ 32
        searchQueue := { c1.searchQueue with minInterval := env.searchInterval * 1000 }
        registered := false
        myIdentity := env.me } State.STATE_CONNECTING) State.STATE_DISCONNECTED
    simp only at h2 h3
    omega
  | connectThrows e =>
    simp only [Client.updateActivity, List.length_append, List.length_singleton]
    have h2 := setConnectState_effects_length
      { c1 with
        redirectUrl := ""
        autoReconnect := true
        reconnDelay := (120 + env.rand) % 2 ^ 32
        searchQueue := { c1.searchQueue with minInterval := env.searchInterval * 1000 }
        registered := false
        myIdentity := env.me } State.STATE_CONNECTING
    have h3 := setConnectState_effects_length
      { Client.setConnectState { c1 with
          redirectUrl := ""
          autoReconnect := true
          reconnDelay := (120 + env.rand) % 2 ^ 32
          searchQueue := { c1.searchQueue with minInterval := env.searchInterval * 1000 }
          registered := false
          myIdentity := env.me } State.STATE_CONNECTING with sock := true }
      State.STATE_DISCONNECTED
    simp only at h2 h3
    omega

/-- The search half of the tick does nothing while the connection is connecting or
disconnected. -/
theorem searchTick_not_connected (c : Client) (aTick popNow popTick : Nat)
    (h : c.state = State.STATE_CONNECTING ∨ c.state = State.STATE_DISCONNECTED) :
    c.searchTick aTick popNow popTick = c := by
  have : c.isConnected = false := by
    rcases h with h | h <;> simp [Client.isConnected, h]
  unfold Client.searchTick
  split_ifs <;> simp_all

/-- Claim C10, amended. On a tick in state DISCONNECTED with auto-reconnect enabled the
handler calls `connect` exactly when the tick is strictly after
`lastActivity + reconnDelay * 1000` (the product a 32-bit and the sum a 64-bit unsigned
value, which they are when in range), and otherwise does nothing at all; a call of
`connect` always leaves an effect behind. With a reconnect delay of 120 s and last
activity at `T` it does not connect on a tick up to and including `T + 120000`, and it
connects on every later tick. -/
theorem onSecond_reconnect (c : Client) (aTick : Nat) (env : ConnectEnv) (popNow popTick : Nat)
    (hs : c.state = State.STATE_DISCONNECTED) (ha : c.autoReconnect = true) :
    c.onSecond aTick env popNow popTick =
        (if (c.lastActivity + (c.reconnDelay * 1000) % 2 ^ 32) % 2 ^ 64 < aTick
          then c.connect env else c) ∧
    c.effects.length < (c.connect env).effects.length ∧
    (c.reconnDelay * 1000 < 2 ^ 32 → c.lastActivity + c.reconnDelay * 1000 < 2 ^ 64 →
      c.onSecond aTick env popNow popTick =
        (if c.lastActivity + c.reconnDelay * 1000 < aTick then c.connect env else c)) ∧
    (c.reconnDelay = 120 → c.lastActivity + 120000 < 2 ^ 64 →
      (aTick ≤ c.lastActivity + 120000 → c.onSecond aTick env popNow popTick = c) ∧
      (c.lastActivity + 120000 < aTick →
        c.onSecond aTick env popNow popTick = c.connect env)) := by
  have hmain : c.onSecond aTick env popNow popTick =
      (if (c.lastActivity + (c.reconnDelay * 1000) % 2 ^ 32) % 2 ^ 64 < aTick
        then c.connect env else c) := by
    unfold Client.onSecond
    simp only [Client.reconnectDue, hs, ha, decide_True, Bool.and_self, Bool.true_and,
      decide_eq_true_eq]
    split_ifs with h
    · exact searchTick_not_connected _ _ _ _ (connect_state c env)
    · exact searchTick_not_connected _ _ _ _ (Or.inr hs)
  refine ⟨hmain, connect_effects_length c env, ?_, ?_⟩
  · intro h1 h2
    rw [hmain, Nat.mod_eq_of_lt h1, Nat.mod_eq_of_lt h2]
  intro hd hw
  rw [hmain, hd]
  have e1 : (120 * 1000) % 2 ^ 32 = 120000 := by norm_num
  have e2 : (c.lastActivity + 120000) % 2 ^ 64 = c.lastActivity + 120000 :=
    Nat.mod_eq_of_lt hw
  rw [e1, e2]
  constructor
  · intro h; rw [if_neg (by omega)]
  · intro h; rw [if_pos h]

/-- Witness of `onSecond_reconnect`: last active at tick 1000 with a delay of 120 s, the
connection reconnects on the tick at 121001. -/
theorem onSecond_reconnect_witness :
    (idleClient 1000).onSecond 121001 (okEnv 121001) 121001 121001 =
      (idleClient 1000).connect (okEnv 121001) :=
  ((onSecond_reconnect (idleClient 1000) 121001 (okEnv 121001) 121001 121001 rfl rfl).2.2.2 rfl
    (by decide)).2 (by decide)

/-- Claim C10 fails as stated at exactly `T + 120000`: last active at tick 1000 with a
delay of 120 s, the tick at 121000 leaves the connection as it was, disconnected and
without any effect, so `connect` was not called. -/
theorem onSecond_reconnect_counterexample :
    (idleClient 1000).onSecond 121000 (okEnv 121000) 121000 121000 = idleClient 1000 ∧
    ((idleClient 1000).onSecond 121000 (okEnv 121000) 121000 121000).state =
      State.STATE_DISCONNECTED ∧
    ((idleClient 1000).onSecond 121000 (okEnv 121000) 121000 121000).effects = [] := by
  decide

theorem setConnectState_searchQueue (c : Client) (s : State) :
    (c.setConnectState s).searchQueue = c.searchQueue := by
  unfold Client.setConnectState
  split_ifs <;> rfl

/-- The effects of `connect`, in order: the old socket is handed back, observers learn of
the state CONNECTING unless it was the state already, and the socket is asked to connect
or, when a socket call throws, observers learn of the state DISCONNECTED and then of the
failure. -/
theorem connect_effects (c : Client) (env : ConnectEnv) :
    (c.connect env).effects =
      c.effects ++ (if c.sock then [Effect.putSocket] else []) ++
        (if c.state = State.STATE_CONNECTING then []
          else [Effect.ConnectStateChanged State.STATE_CONNECTING]) ++
        (match env.sockResult with
          | .ok => [Effect.sockConnect]
          | .getSocketThrows e =>
            [Effect.ConnectStateChanged State.STATE_DISCONNECTED, Effect.Failed c.hubUrl e]
          | .connectThrows e =>
            [Effect.ConnectStateChanged State.STATE_DISCONNECTED, Effect.Failed c.hubUrl e]) := by
  unfold Client.connect
  cases env.sockResult <;> by_cases hs : c.sock <;>
    by_cases hc : c.state = State.STATE_CONNECTING <;>
    simp [Client.updateActivity, Client.setConnectState, hs, hc]

theorem connect_searchQueue (c : Client) (env : ConnectEnv) :
    (c.connect env).searchQueue =
      { c.searchQueue with minInterval := env.searchInterval * 1000 } := by
  unfold Client.connect
  cases env.sockResult <;> by_cases hs : c.sock <;>
    by_cases hc : c.state = State.STATE_CONNECTING <;>
    simp [Client.updateActivity, Client.setConnectState, hs, hc]

/-- A call of `connect` dispatches no search and keeps the entries of the queue. -/
theorem connect_dispatched (c : Client) (env : ConnectEnv) :
    (c.connect env).dispatched = c.dispatched ∧
      (c.connect env).searchQueue.searchQueue = c.searchQueue.searchQueue := by
  refine ⟨?_, by rw [connect_searchQueue]⟩
  simp only [Client.dispatched, connect_effects, List.filterMap_append]
  cases env.sockResult <;> split_ifs <;> simp

theorem isConnected_false_iff (c : Client) :
    c.isConnected = false ↔
      c.state = State.STATE_CONNECTING ∨ c.state = State.STATE_DISCONNECTED := by
  cases h : c.state <;> simp [Client.isConnected, h]

theorem isConnected_true_iff (c : Client) :
    c.isConnected = true ↔
      c.state = State.STATE_PROTOCOL ∨ c.state = State.STATE_IDENTIFY ∨
        c.state = State.STATE_VERIFY ∨ c.state = State.STATE_NORMAL := by
  cases h : c.state <;> simp [Client.isConnected, h]

/-- While connected the tick is its search half: the reconnect is not due. -/
theorem onSecond_connected (c : Client) (aTick : Nat) (env : ConnectEnv) (popNow popTick : Nat)
    (h : c.isConnected = true) :
    c.onSecond aTick env popNow popTick = c.searchTick aTick popNow popTick := by
  have hs : c.state ≠ State.STATE_DISCONNECTED := by
    intro h0; simp [Client.isConnected, h0] at h
  simp [Client.onSecond, Client.reconnectDue, hs]

/-- Claim C11, amended. On every tick a queued search is popped and dispatched only if the
connection is connected in the sense of `isConnected`, that is in state PROTOCOL, IDENTIFY,
VERIFY or NORMAL: there, when the queue has no waiting time at the tick, the tick
dispatches what `pop` returns. In the states CONNECTING and DISCONNECTED the tick
dispatches no search and leaves the entries of the queue unchanged. -/
theorem onSecond_dispatch (c : Client) (aTick : Nat) (env : ConnectEnv) (popNow popTick : Nat) :
    ((c.onSecond aTick env popNow popTick).dispatched ≠ c.dispatched →
      c.state = State.STATE_PROTOCOL ∨ c.state = State.STATE_IDENTIFY ∨
        c.state = State.STATE_VERIFY ∨ c.state = State.STATE_NORMAL) ∧
    (c.state = State.STATE_CONNECTING ∨ c.state = State.STATE_DISCONNECTED →
      (c.onSecond aTick env popNow popTick).dispatched = c.dispatched ∧
      (c.onSecond aTick env popNow popTick).searchQueue.searchQueue =
        c.searchQueue.searchQueue) ∧
    (c.isConnected = true → c.searchQueue.hasWaitingTime aTick = false →
      (c.onSecond aTick env popNow popTick).dispatched =
        c.dispatched ++ (c.searchQueue.pop popNow popTick).1.toList ∧
      (c.onSecond aTick env popNow popTick).searchQueue =
        (c.searchQueue.pop popNow popTick).2) ∧
    (c.isConnected = true → c.searchQueue.hasWaitingTime aTick = true →
      c.onSecond aTick env popNow popTick = c) := by
  have hnot : c.state = State.STATE_CONNECTING ∨ c.state = State.STATE_DISCONNECTED →
      (c.onSecond aTick env popNow popTick).dispatched = c.dispatched ∧
      (c.onSecond aTick env popNow popTick).searchQueue.searchQueue =
        c.searchQueue.searchQueue := by
    intro h
    unfold Client.onSecond
    simp only
    split_ifs with hd
    · rw [searchTick_not_connected _ _ _ _ (connect_state c env)]
      exact connect_dispatched c env
    · rw [searchTick_not_connected _ _ _ _ h]
      exact ⟨rfl, rfl⟩
  refine ⟨?_, hnot, ?_, ?_⟩
  · intro hne
    by_contra hst
    have : c.isConnected = false := by
      cases hc : c.isConnected
      · rfl
      · exact absurd ((isConnected_true_iff c).1 hc) hst
    exact hne (hnot ((isConnected_false_iff c).1 this)).1
  · intro hc hw
    rw [onSecond_connected c aTick env popNow popTick hc]
    unfold Client.searchTick
    simp only [hw, hc, if_true, Bool.false_eq_true, if_false]
    cases hp : (c.searchQueue.pop popNow popTick).1 with
    | none => simp [Client.dispatched]
    | some s => simp [Client.dispatched, List.filterMap_append]
  · intro hc hw
    rw [onSecond_connected c aTick env popNow popTick hc]
    simp [Client.searchTick, hw]

/-- Witness of `onSecond_dispatch`: a new session on which a search was queued stays
disconnected on the tick at 20000, and the search stays queued. -/
theorem onSecond_dispatch_witness :
    ((Client.run (newClient, zeroCounts)
        [ClientOp.queueSearch (mkSearch 1 .NORMAL 1) 0 []]).1.onSecond 20000 (okEnv 20000)
        20000 20000).searchQueue.searchQueue =
      (Client.run (newClient, zeroCounts)
        [ClientOp.queueSearch (mkSearch 1 .NORMAL 1) 0 []]).1.searchQueue.searchQueue :=
  ((onSecond_dispatch
    (Client.run (newClient, zeroCounts) [ClientOp.queueSearch (mkSearch 1 .NORMAL 1) 0 []]).1
    20000 (okEnv 20000) 20000 20000).2.1 (Or.inr rfl)).2

/-- Claim C11 fails as stated in state PROTOCOL: a search is queued, the session connects
and the socket reports the connection, which puts the session in state PROTOCOL; the tick
at 20000 then pops the search and dispatches it. -/
theorem onSecond_dispatch_counterexample :
    (Client.run (newClient, zeroCounts)
        [ClientOp.queueSearch (mkSearch 1 .NORMAL 1) 0 [], ClientOp.connect (okEnv 0),
          ClientOp.onConnected 5 false]).1.state = State.STATE_PROTOCOL ∧
    (Client.run (newClient, zeroCounts)
        [ClientOp.queueSearch (mkSearch 1 .NORMAL 1) 0 [], ClientOp.connect (okEnv 0),
          ClientOp.onConnected 5 false]).1.dispatched = [] ∧
    (Client.run (newClient, zeroCounts)
        [ClientOp.queueSearch (mkSearch 1 .NORMAL 1) 0 [], ClientOp.connect (okEnv 0),
          ClientOp.onConnected 5 false,
          ClientOp.onSecond 20000 (okEnv 20000) 20000 20000]).1.dispatched =
      [mkSearch 1 .NORMAL 1] ∧
    (Client.run (newClient, zeroCounts)
        [ClientOp.queueSearch (mkSearch 1 .NORMAL 1) 0 [], ClientOp.connect (okEnv 0),
          ClientOp.onConnected 5 false,
          ClientOp.onSecond 20000 (okEnv 20000) 20000 20000]).1.searchQueue.searchQueue = [] := by
  decide

theorem connect_fields (c : Client) (env : ConnectEnv) :
    (c.connect env).redirectUrl = "" ∧ (c.connect env).autoReconnect = true ∧
      (c.connect env).registered = false ∧
      (c.connect env).reconnDelay = (120 + env.rand) % 2 ^ 32 ∧
      (c.connect env).lastActivity = env.tick ∧ (c.connect env).hubUrl = c.hubUrl := by
  unfold Client.connect
  cases env.sockResult <;> by_cases hs : c.sock <;>
    by_cases hc : c.state = State.STATE_CONNECTING <;>
    simp [Client.updateActivity, Client.setConnectState, hs, hc]

theorem connect_state_of_result (c : Client) (env : ConnectEnv) :
    (c.connect env).state =
      match env.sockResult with
      | .ok => State.STATE_CONNECTING
      | .getSocketThrows _ => State.STATE_DISCONNECTED
      | .connectThrows _ => State.STATE_DISCONNECTED := by
  unfold Client.connect
  cases env.sockResult <;> simp [Client.updateActivity, setConnectState_state]

/-- Claim C12. After `connect`, from every prior state and with `Util::rand(0, 60)`
yielding a value below 60: the redirect target is empty, auto-reconnect is enabled,
registered is false, the reconnect delay is between 120 and 179 seconds and the last
activity is the current tick. The state is CONNECTING when the socket accepted the
request. When a socket call threw, the state is DISCONNECTED and the effects of the call
end with the notification of that state followed by one `Failed` notification carrying the
hub URL and the error, no other `Failed` being fired by the call. -/
theorem connect_post (c : Client) (env : ConnectEnv) (hr : env.rand < 60) :
    (c.connect env).redirectUrl = "" ∧
    (c.connect env).autoReconnect = true ∧
    (c.connect env).registered = false ∧
    (120 ≤ (c.connect env).reconnDelay ∧ (c.connect env).reconnDelay < 180) ∧
    (c.connect env).lastActivity = env.tick ∧
    (env.sockResult = SockResult.ok → (c.connect env).state = State.STATE_CONNECTING) ∧
    (∀ e, env.sockResult = SockResult.getSocketThrows e ∨
        env.sockResult = SockResult.connectThrows e →
      (c.connect env).state = State.STATE_DISCONNECTED ∧
      ∃ mid, (c.connect env).effects =
          c.effects ++ mid ++
            [Effect.ConnectStateChanged State.STATE_DISCONNECTED, Effect.Failed c.hubUrl e] ∧
        ∀ u x, Effect.Failed u x ∉ mid) := by
  obtain ⟨h1, h2, h3, h4, h5, _⟩ := connect_fields c env
  refine ⟨h1, h2, h3, ?_, h5, ?_, ?_⟩
  · rw [h4]; omega
  · intro h
    rw [connect_state_of_result, h]
  · intro e he
    constructor
    · rw [connect_state_of_result]
      rcases he with he | he <;> rw [he]
    · refine ⟨(if c.sock then [Effect.putSocket] else []) ++
          (if c.state = State.STATE_CONNECTING then []
            else [Effect.ConnectStateChanged State.STATE_CONNECTING]), ?_, ?_⟩
      · rw [connect_effects]
        rcases he with he | he <;> rw [he] <;> simp [List.append_assoc]
      · intro u x hm
        simp only [List.mem_append] at hm
        rcases hm with hm | hm <;> split_ifs at hm <;> simp at hm

/-- Witness of `connect_post`: a session whose socket throws on `connect`. -/
theorem connect_post_witness :
    (newClient.connect
        { rand := 59, searchInterval := 10, sockResult := SockResult.connectThrows "refused",
          tick := 77, me := { isOp := false, isRegistered := false } }).state =
      State.STATE_DISCONNECTED :=
  ((connect_post newClient
    { rand := 59, searchInterval := 10, sockResult := SockResult.connectThrows "refused",
      tick := 77, me := { isOp := false, isRegistered := false } } (by decide)).2.2.2.2.2.2
    "refused" (Or.inr rfl)).1

/-- What `statusMessage` does: unless the flag marks spam the message is appended to the
cache, and logged when logging is on; then the notification is fired. -/
theorem statusMessage_spec (c : Client) (aMessage : String) (aSeverity : Severity)
    (aFlag : StatusFlag) (l : Bool) :
    c.statusMessage aMessage aSeverity aFlag l =
      { c with
        cache :=
          if aFlag = StatusFlag.FLAG_IS_SPAM then c.cache
          else c.cache.addMessage { text := aMessage, isChat := false, read := false }
        effects :=
          c.effects ++
            (if aFlag = StatusFlag.FLAG_IS_SPAM then []
              else [Effect.cacheAddMessage aMessage] ++
                (if l then [Effect.logStatus aMessage] else [])) ++
            [Effect.StatusMessage aMessage aSeverity aFlag] } := by
  cases aFlag <;> cases l <;>
    simp [Client.statusMessage, Client.statusKeep, Client.cacheAdd]

theorem failedText_cases (c : Client) (aLine : String) (a k : Bool) :
    (c.keyprintFailure a k = false → c.failedText aLine a k = aLine) ∧
    (c.keyprintFailure a k = true →
      c.failedText aLine a k =
        aLine ++ ", type /allow to proceed with untrusted connection") := by
  constructor <;> intro h <;> simp [Client.failedText, h]

/-- Claim C14. From every connection state, the handling of a transport failure reported
by the socket clears the user roster, appends one status line to the message cache of the
session, leaves the state DISCONNECTED and ends by firing a `Failed` notification with the
hub URL. The status line and the notification carry the same text: the reported error,
followed by the hint at `/allow` when the failure is a keyprint failure. -/
theorem onFailed_spec (c : Client) (aLine : String) (a k l : Bool) :
    (c.onFailed aLine a k l).state = State.STATE_DISCONNECTED ∧
    (c.onFailed aLine a k l).cache =
      c.cache.addMessage { text := c.failedText aLine a k, isChat := false, read := false } ∧
    (c.onFailed aLine a k l).effects =
      c.effects ++ [Effect.clearUsers] ++
        (if c.stateNormal then [Effect.removeUserCommand c.hubUrl] else []) ++
        (if c.state = State.STATE_DISCONNECTED then []
          else [Effect.ConnectStateChanged State.STATE_DISCONNECTED]) ++
        [Effect.cacheAddMessage (c.failedText aLine a k)] ++
        (if l then [Effect.logStatus (c.failedText aLine a k)] else []) ++
        [Effect.StatusMessage (c.failedText aLine a k) Severity.SEV_WARNING
            StatusFlag.FLAG_NORMAL,
          Effect.sockRemoveListener, Effect.Failed c.hubUrl (c.failedText aLine a k)] ∧
    (∃ t, c.failedText aLine a k = aLine ++ t) ∧
    (c.keyprintFailure a k = false → c.failedText aLine a k = aLine) ∧
    (0 < c.cache.limit →
      (c.onFailed aLine a k l).cache.messages.getLast? =
        some { text := c.failedText aLine a k, isChat := false, read := false }) := by
  have hcache : (c.onFailed aLine a k l).cache =
      c.cache.addMessage { text := c.failedText aLine a k, isChat := false, read := false } := by
    simp only [Client.onFailed, statusMessage_spec]
    by_cases hd : c.state = State.STATE_DISCONNECTED <;>
      simp [Client.setConnectState, Client.failedStart, hd]
  refine ⟨?_, hcache, ?_, ?_, (failedText_cases c aLine a k).1, ?_⟩
  · simp only [Client.onFailed, statusMessage_spec]
    exact setConnectState_state _ _
  · simp only [Client.onFailed, statusMessage_spec]
    by_cases hd : c.state = State.STATE_DISCONNECTED <;> cases l <;>
      simp [Client.setConnectState, Client.failedStart, hd]
  · cases h : c.keyprintFailure a k
    · exact ⟨"", by rw [(failedText_cases c aLine a k).1 h]; simp⟩
    · exact ⟨_, (failedText_cases c aLine a k).2 h⟩
  · intro hl
    rw [hcache]
    simp only [MessageCache.addMessage]
    have hlen : (c.cache.messages ++
        [({ text := c.failedText aLine a k, isChat := false, read := false } :
          CachedMessage)]).length - c.cache.limit < (c.cache.messages ++
        [({ text := c.failedText aLine a k, isChat := false, read := false } :
          CachedMessage)]).length := by
      simp only [List.length_append, List.length_singleton]
      omega
    rw [List.getLast?_drop, if_neg (by omega)]
    simp

/-- Witness of `onFailed_spec`: a connecting session whose socket reports a failure. -/
theorem onFailed_spec_witness :
    ((newClient.connect (okEnv 0)).onFailed "timeout" false true false).cache.messages.getLast? =
      some { text := (newClient.connect (okEnv 0)).failedText "timeout" false true,
             isChat := false, read := false } :=
  (onFailed_spec (newClient.connect (okEnv 0)) "timeout" false true false).2.2.2.2.2
    (by decide)

theorem setConnectState_iskeypError (c : Client) (s : State) :
    (c.setConnectState s).iskeypError = c.iskeypError := by
  unfold Client.setConnectState
  split_ifs <;> rfl

theorem connect_iskeypError (c : Client) (env : ConnectEnv) :
    (c.connect env).iskeypError = c.iskeypError := by
  unfold Client.connect
  cases env.sockResult <;> by_cases hs : c.sock <;>
    by_cases hc : c.state = State.STATE_CONNECTING <;>
    simp [Client.updateActivity, Client.setConnectState, hs, hc]

theorem searchTick_iskeypError (c : Client) (aTick popNow popTick : Nat) :
    (c.searchTick aTick popNow popTick).iskeypError = c.iskeypError := by
  unfold Client.searchTick
  split_ifs
  · rfl
  · simp only
    cases h : (c.searchQueue.pop popNow popTick).1 <;> rfl
  · rfl

theorem onSecond_iskeypError (c : Client) (aTick : Nat) (env : ConnectEnv)
    (popNow popTick : Nat) :
    (c.onSecond aTick env popNow popTick).iskeypError = c.iskeypError := by
  unfold Client.onSecond
  simp only [searchTick_iskeypError]
  split_ifs
  · exact connect_iskeypError c env
  · rfl

theorem onConnected_iskeypError (c : Client) (tick : Nat) (l : Bool) :
    (c.onConnected tick l).iskeypError = c.iskeypError := by
  simp [Client.onConnected, setConnectState_iskeypError, Client.updateActivity,
    statusMessage_spec]

theorem onFailed_iskeypError (c : Client) (aLine : String) (a k l : Bool) :
    (c.onFailed aLine a k l).iskeypError = (c.iskeypError || c.keyprintFailure a k) := by
  simp [Client.onFailed, statusMessage_spec, setConnectState_iskeypError, Client.failedStart]

theorem uncount_iskeypError (c : Client) (n : Counts) :
    (c.uncount n).1.iskeypError = c.iskeypError := by
  unfold Client.uncount
  split_ifs <;> rfl

theorem disconnect_iskeypError (c : Client) (g : Bool) :
    (c.disconnect g).iskeypError = c.iskeypError := by
  unfold Client.disconnect
  split_ifs <;> rfl

theorem updateCounts_iskeypError (c : Client) (n : Counts) (r d : Bool) :
    (c.updateCounts n r d).2.1.iskeypError = c.iskeypError := by
  unfold Client.updateCounts
  split_ifs <;> simp [uncount_iskeypError, disconnect_iskeypError]

theorem doRedirect_iskeypError (c : Client) (hasClient : String → Bool) (l : Bool) :
    (c.doRedirect hasClient l).iskeypError = c.iskeypError := by
  unfold Client.doRedirect
  split_ifs <;> simp [statusMessage_spec]

theorem onRedirect_iskeypError (c : Client) (url : String) (hasClient : String → Bool)
    (a l : Bool) :
    (c.onRedirect url hasClient a l).iskeypError = c.iskeypError := by
  unfold Client.onRedirect
  split_ifs <;> simp [statusMessage_spec, doRedirect_iskeypError]

theorem allowUntrustedConnect_iskeypError (c : Client) (env : ConnectEnv) :
    (c.allowUntrustedConnect env).iskeypError = c.iskeypError := by
  unfold Client.allowUntrustedConnect
  split_ifs
  · rfl
  · rw [connect_iskeypError]

/-- One event raises the keyprint error mark exactly when it is a transport failure with a
keyprint failure, and no event takes the mark back. -/
theorem step_iskeypError (x : Client × Counts) (op : ClientOp) :
    (Client.step x op).1.iskeypError =
      (x.1.iskeypError || Client.sawKeyprintFailure x [op]) := by
  cases op with
  | connect env => simp [Client.step, Client.sawKeyprintFailure, connect_iskeypError]
  | onConnected tick l =>
    simp only [Client.step, Client.sawKeyprintFailure, Bool.or_false]
    split_ifs
    · exact onConnected_iskeypError _ _ _
    · rfl
  | onFailed aLine a k l =>
    simp only [Client.step, Client.sawKeyprintFailure, Bool.or_false]
    split_ifs with hs
    · exact onFailed_iskeypError _ _ _ _ _
    · have : x.1.keyprintFailure a k = false := by
        simp [Client.keyprintFailure, hs]
      simp [this]
  | onSecond aTick env popNow popTick =>
    simp [Client.step, Client.sawKeyprintFailure, onSecond_iskeypError]
  | setConnectState s =>
    simp [Client.step, Client.sawKeyprintFailure, setConnectState_iskeypError]
  | setMyIdentity me => simp [Client.step, Client.sawKeyprintFailure]
  | updateCounts r d =>
    simp [Client.step, Client.sawKeyprintFailure, updateCounts_iskeypError]
  | shutdown r => simp [Client.step, Client.sawKeyprintFailure, Client.shutdown]
  | shutdownCallback r =>
    simp [Client.step, Client.sawKeyprintFailure, Client.shutdownCallback,
      uncount_iskeypError]
  | allowUntrustedConnect env =>
    simp [Client.step, Client.sawKeyprintFailure, allowUntrustedConnect_iskeypError]
  | reconnect =>
    simp [Client.step, Client.sawKeyprintFailure, Client.reconnect, disconnect_iskeypError]
  | onRedirect url hasClient a l =>
    simp [Client.step, Client.sawKeyprintFailure, onRedirect_iskeypError]
  | doRedirect hasClient l =>
    simp [Client.step, Client.sawKeyprintFailure, doRedirect_iskeypError]
  | setRead =>
    simp only [Client.step, Client.sawKeyprintFailure, Bool.or_false, Client.setRead]
    split_ifs <;> rfl
  | clearCache =>
    simp only [Client.step, Client.sawKeyprintFailure, Bool.or_false, Client.clearCache]
    split_ifs <;> rfl
  | queueSearch s now u => simp [Client.step, Client.sawKeyprintFailure]
  | cancelSearch a => simp [Client.step, Client.sawKeyprintFailure]

theorem sawKeyprintFailure_cons (x : Client × Counts) (op : ClientOp) (ops : List ClientOp) :
    Client.sawKeyprintFailure x (op :: ops) =
      (Client.sawKeyprintFailure x [op] || Client.sawKeyprintFailure (Client.step x op) ops) := by
  cases op <;> simp [Client.sawKeyprintFailure]

/-- After a run the keyprint error mark is set exactly when it was set before or some
event of the run was a transport failure with a keyprint failure. -/
theorem run_iskeypError (ops : List ClientOp) :
    ∀ x : Client × Counts,
      (Client.run x ops).1.iskeypError =
        (x.1.iskeypError || Client.sawKeyprintFailure x ops) := by
  induction ops with
  | nil => intro x; simp [Client.run, Client.sawKeyprintFailure]
  | cons op ops ih =>
    intro x
    have h1 : Client.run x (op :: ops) = Client.run (Client.step x op) ops := rfl
    rw [h1, ih, step_iskeypError, sawKeyprintFailure_cons x op ops, Bool.or_assoc]

theorem connect_keyprint (c : Client) (env : ConnectEnv) :
    (c.connect env).keyprint = c.keyprint := by
  unfold Client.connect
  cases env.sockResult <;> by_cases hs : c.sock <;>
    by_cases hc : c.state = State.STATE_CONNECTING <;>
    simp [Client.updateActivity, Client.setConnectState, hs, hc]

/-- Claim C15. Take a session whose keyprint error mark is unset, as it is after
construction, and any run of events of it. `allowUntrustedConnect` then clears the
keyprint pin and performs `connect` exactly when the session is not connected and some
earlier event of the run was a transport failure on a secure hub URL, under the
allow-untrusted policy, with a keyprint mismatch reported by the socket; the `connect` is
made with the pin cleared and leaves effects behind. In every other case the call changes
nothing at all. -/
theorem allowUntrustedConnect_spec (x0 : Client × Counts) (ops : List ClientOp)
    (env : ConnectEnv) (h0 : x0.1.iskeypError = false) :
    (Client.run x0 ops).1.allowUntrustedConnect env =
        (if (Client.run x0 ops).1.isConnected = false ∧
            Client.sawKeyprintFailure x0 ops = true
          then Client.connect { (Client.run x0 ops).1 with keyprint := "" } env
          else (Client.run x0 ops).1) ∧
    (Client.connect { (Client.run x0 ops).1 with keyprint := "" } env).keyprint = "" ∧
    (Client.run x0 ops).1.effects.length <
      (Client.connect { (Client.run x0 ops).1 with keyprint := "" } env).effects.length ∧
    (∀ hubUrl secure keyprint me tick cache mi t0,
      (Client.new hubUrl secure keyprint me tick cache mi t0).iskeypError = false) := by
  have hk := run_iskeypError ops x0
  rw [h0, Bool.false_or] at hk
  refine ⟨?_, by rw [connect_keyprint], ?_, fun _ _ _ _ _ _ _ _ => rfl⟩
  · rw [← hk]
    generalize (Client.run x0 ops).1 = c
    unfold Client.allowUntrustedConnect
    by_cases h1 : c.isConnected = true <;> by_cases h2 : c.iskeypError = true <;>
      simp [h1, h2]
  · exact connect_effects_length { (Client.run x0 ops).1 with keyprint := "" } env

/-- Witness of `allowUntrustedConnect_spec`: a secure session connects, the socket reports
a failure with a keyprint mismatch while untrusted hubs are allowed, and the user then
proceeds with the untrusted connection. -/
theorem allowUntrustedConnect_spec_witness :
    (Client.run (secureClient, zeroCounts)
        [ClientOp.connect (okEnv 0),
          ClientOp.onFailed "keyprint mismatch" true false false]).1.allowUntrustedConnect
        (okEnv 9) =
      (if (Client.run (secureClient, zeroCounts)
            [ClientOp.connect (okEnv 0),
              ClientOp.onFailed "keyprint mismatch" true false false]).1.isConnected = false ∧
          Client.sawKeyprintFailure (secureClient, zeroCounts)
            [ClientOp.connect (okEnv 0),
              ClientOp.onFailed "keyprint mismatch" true false false] = true
        then Client.connect
          { (Client.run (secureClient, zeroCounts)
              [ClientOp.connect (okEnv 0),
                ClientOp.onFailed "keyprint mismatch" true false false]).1 with
            keyprint := "" } (okEnv 9)
        else (Client.run (secureClient, zeroCounts)
          [ClientOp.connect (okEnv 0),
            ClientOp.onFailed "keyprint mismatch" true false false]).1) :=
  (allowUntrustedConnect_spec (secureClient, zeroCounts)
    [ClientOp.connect (okEnv 0), ClientOp.onFailed "keyprint mismatch" true false false]
    (okEnv 9) rfl).1

theorem uncount_spec (c : Client) (n : Counts) :
    c.uncount n =
      ({ c with countType := CountType.COUNT_UNCOUNTED }, n.add c.countType (-1)) := by
  unfold Client.uncount
  split_ifs with h
  · rfl
  · have h' : c.countType = CountType.COUNT_UNCOUNTED := by
      by_contra h2; exact h h2
    cases c
    simp only at h'
    subst h'
    rfl

/-- Claim C16. `updateCounts(false)` first takes the session out of the counter it is in.
It then classifies the session as OP if the local identity is an operator, else as
REGISTERED if it is registered, else as NORMAL, adds one to the counter of that type and
returns true. But when the identity is neither and the policy that forbids hubs without
password is set, it tells observers, asks the socket, when there is one, to disconnect
gracelessly, switches auto-reconnect off, leaves the session UNCOUNTED without adding to
any counter and returns false. -/
theorem updateCounts_false_spec (c : Client) (n : Counts) (d : Bool) :
    (c.myIdentity.isOp = true →
      c.updateCounts n false d =
        (true, { c with countType := CountType.COUNT_OP },
          (n.add c.countType (-1)).add CountType.COUNT_OP 1)) ∧
    (c.myIdentity.isOp = false → c.myIdentity.isRegistered = true →
      c.updateCounts n false d =
        (true, { c with countType := CountType.COUNT_REGISTERED },
          (n.add c.countType (-1)).add CountType.COUNT_REGISTERED 1)) ∧
    (c.myIdentity.isOp = false → c.myIdentity.isRegistered = false → d = false →
      c.updateCounts n false d =
        (true, { c with countType := CountType.COUNT_NORMAL },
          (n.add c.countType (-1)).add CountType.COUNT_NORMAL 1)) ∧
    (c.myIdentity.isOp = false → c.myIdentity.isRegistered = false → d = true →
      c.updateCounts n false d =
        (false,
          { c with
            countType := CountType.COUNT_UNCOUNTED
            autoReconnect := false
            effects := c.effects ++ [Effect.AddLine STRING_HUB_NOT_PROTECTED] ++
              (if c.sock then [Effect.sockDisconnect true] else []) },
          n.add c.countType (-1))) ∧
    ((c.updateCounts n false d).1 = false ↔
      c.myIdentity.isOp = false ∧ c.myIdentity.isRegistered = false ∧ d = true) := by
  refine ⟨?_, ?_, ?_, ?_, ?_⟩
  · intro h1
    simp [Client.updateCounts, uncount_spec, h1]
  · intro h1 h2
    simp [Client.updateCounts, uncount_spec, h1, h2]
  · intro h1 h2 h3
    simp [Client.updateCounts, uncount_spec, h1, h2, h3]
  · intro h1 h2 h3
    by_cases hs : c.sock <;>
      simp [Client.updateCounts, uncount_spec, h1, h2, h3, Client.disconnect, hs]
  · cases h1 : c.myIdentity.isOp <;> cases h2 : c.myIdentity.isRegistered <;> cases d <;>
      simp [Client.updateCounts, h1, h2]

/-- Witness of `updateCounts_false_spec`: a session whose identity is an operator is
classified as OP. -/
theorem updateCounts_false_spec_witness :
    Client.updateCounts { newClient with myIdentity := { isOp := true, isRegistered := false } }
        zeroCounts false true =
      (true,
        { { newClient with myIdentity := { isOp := true, isRegistered := false } } with
          countType := CountType.COUNT_OP },
        (zeroCounts.add CountType.COUNT_UNCOUNTED (-1)).add CountType.COUNT_OP 1) :=
  (updateCounts_false_spec
    { newClient with myIdentity := { isOp := true, isRegistered := false } } zeroCounts
    true).1 rfl

theorem setConnectState_countType (c : Client) (s : State) :
    (c.setConnectState s).countType = c.countType := by
  unfold Client.setConnectState
  split_ifs <;> rfl

theorem connect_countType (c : Client) (env : ConnectEnv) :
    (c.connect env).countType = c.countType := by
  unfold Client.connect
  cases env.sockResult <;> by_cases hs : c.sock <;>
    by_cases hc : c.state = State.STATE_CONNECTING <;>
    simp [Client.updateActivity, Client.setConnectState, hs, hc]

theorem searchTick_countType (c : Client) (aTick popNow popTick : Nat) :
    (c.searchTick aTick popNow popTick).countType = c.countType := by
  unfold Client.searchTick
  split_ifs
  · rfl
  · simp only
    cases h : (c.searchQueue.pop popNow popTick).1 <;> rfl
  · rfl

theorem onSecond_countType (c : Client) (aTick : Nat) (env : ConnectEnv)
    (popNow popTick : Nat) :
    (c.onSecond aTick env popNow popTick).countType = c.countType := by
  unfold Client.onSecond
  simp only [searchTick_countType]
  split_ifs
  · exact connect_countType c env
  · rfl

theorem onConnected_countType (c : Client) (tick : Nat) (l : Bool) :
    (c.onConnected tick l).countType = c.countType := by
  simp [Client.onConnected, setConnectState_countType, Client.updateActivity,
    statusMessage_spec]

theorem onFailed_countType (c : Client) (aLine : String) (a k l : Bool) :
    (c.onFailed aLine a k l).countType = c.countType := by
  simp [Client.onFailed, statusMessage_spec, setConnectState_countType, Client.failedStart]

theorem disconnect_countType (c : Client) (g : Bool) :
    (c.disconnect g).countType = c.countType := by
  unfold Client.disconnect
  split_ifs <;> rfl

theorem doRedirect_countType (c : Client) (hasClient : String → Bool) (l : Bool) :
    (c.doRedirect hasClient l).countType = c.countType := by
  unfold Client.doRedirect
  split_ifs <;> simp [statusMessage_spec]

theorem onRedirect_countType (c : Client) (url : String) (hasClient : String → Bool)
    (a l : Bool) :
    (c.onRedirect url hasClient a l).countType = c.countType := by
  unfold Client.onRedirect
  split_ifs <;> simp [statusMessage_spec, doRedirect_countType]

theorem allowUntrustedConnect_countType (c : Client) (env : ConnectEnv) :
    (c.allowUntrustedConnect env).countType = c.countType := by
  unfold Client.allowUntrustedConnect
  split_ifs
  · rfl
  · rw [connect_countType]

theorem counts_add_cancel (n : Counts) (t : CountType) : (n.add t (-1)).add t 1 = n := by
  cases t <;> simp [Counts.add]

/-- The counters after `updateCounts`: the session left the counter of its old
classification and joined the counter of its new one. -/
theorem updateCounts_counts (c : Client) (n : Counts) (r d : Bool) :
    (c.updateCounts n r d).2.2 =
      (n.add c.countType (-1)).add (c.updateCounts n r d).2.1.countType 1 := by
  unfold Client.updateCounts
  split_ifs <;> simp [uncount_spec, disconnect_countType, Counts.add]

/-- One event changes the counters only by moving the session from the counter of its old
classification to the counter of its new one. -/
theorem step_counts (x : Client × Counts) (op : ClientOp) :
    (Client.step x op).2 =
      (x.2.add x.1.countType (-1)).add (Client.step x op).1.countType 1 := by
  cases op with
  | connect env => simp [Client.step, connect_countType, counts_add_cancel]
  | onConnected tick l =>
    simp only [Client.step]
    split_ifs <;> simp [onConnected_countType, counts_add_cancel]
  | onFailed aLine a k l =>
    simp only [Client.step]
    split_ifs <;> simp [onFailed_countType, counts_add_cancel]
  | onSecond aTick env popNow popTick =>
    simp [Client.step, onSecond_countType, counts_add_cancel]
  | setConnectState s => simp [Client.step, setConnectState_countType, counts_add_cancel]
  | setMyIdentity me => simp [Client.step, counts_add_cancel]
  | updateCounts r d => exact updateCounts_counts _ _ _ _
  | shutdown r => simp [Client.step, Client.shutdown, counts_add_cancel]
  | shutdownCallback r =>
    simp [Client.step, Client.shutdownCallback, uncount_spec, Counts.add]
  | allowUntrustedConnect env =>
    simp [Client.step, allowUntrustedConnect_countType, counts_add_cancel]
  | reconnect => simp [Client.step, Client.reconnect, disconnect_countType, counts_add_cancel]
  | onRedirect url hasClient a l =>
    simp [Client.step, onRedirect_countType, counts_add_cancel]
  | doRedirect hasClient l => simp [Client.step, doRedirect_countType, counts_add_cancel]
  | setRead =>
    simp only [Client.step, Client.setRead]
    split_ifs <;> simp [counts_add_cancel]
  | clearCache =>
    simp only [Client.step, Client.clearCache]
    split_ifs <;> simp [counts_add_cancel]
  | queueSearch s now u => simp [Client.step, counts_add_cancel]
  | cancelSearch a => simp [Client.step, counts_add_cancel]

theorem countP_set (p : Client → Bool) (l : List Client) (i : Nat) (c d : Client)
    (h : l[i]? = some c) :
    ((l.set i d).countP p : Int) =
      l.countP p - (if p c then 1 else 0) + (if p d then 1 else 0) := by
  induction l generalizing i with
  | nil => simp at h
  | cons a rest ih =>
    cases i with
    | zero =>
      simp only [List.getElem?_cons_zero, Option.some.injEq] at h
      subst h
      simp only [List.set_cons_zero, List.countP_cons]
      split_ifs <;> push_cast <;> omega
    | succ j =>
      simp only [List.getElem?_cons_succ] at h
      have := ih j h
      simp only [List.set_cons_succ, List.countP_cons]
      push_cast
      rw [this]
      ring

theorem counts_move (n : Counts) (t t2 : CountType) :
    ((n.add t (-1)).add t2 1).normal =
        n.normal - (if t = CountType.COUNT_NORMAL then 1 else 0) +
          (if t2 = CountType.COUNT_NORMAL then 1 else 0) ∧
    ((n.add t (-1)).add t2 1).registered =
        n.registered - (if t = CountType.COUNT_REGISTERED then 1 else 0) +
          (if t2 = CountType.COUNT_REGISTERED then 1 else 0) ∧
    ((n.add t (-1)).add t2 1).op =
        n.op - (if t = CountType.COUNT_OP then 1 else 0) +
          (if t2 = CountType.COUNT_OP then 1 else 0) := by
  cases t <;> cases t2 <;> simp [Counts.add] <;> omega

/-- One event of one session keeps the counters in agreement with the classifications. -/
theorem hubs_step_countsMatch (w : Hubs) (e : Nat × ClientOp) (h : w.CountsMatch) :
    (w.step e).CountsMatch := by
  unfold Hubs.step
  cases hc : w.clients[e.1]? with
  | none => exact h
  | some c =>
    obtain ⟨h1, h2, h3⟩ := h
    have hs := step_counts (c, w.counts) e.2
    simp only at hs
    obtain ⟨m1, m2, m3⟩ := counts_move w.counts c.countType (Client.step (c, w.counts) e.2).1.countType
    simp only [Hubs.CountsMatch, Hubs.classified]
    rw [hs, m1, m2, m3]
    rw [countP_set _ _ _ c _ hc, countP_set _ _ _ c _ hc, countP_set _ _ _ c _ hc]
    simp only [Hubs.classified] at h1 h2 h3
    rw [h1, h2, h3]
    simp

theorem hubs_run_countsMatch (ops : List (Nat × ClientOp)) :
    ∀ w : Hubs, w.CountsMatch → (w.run ops).CountsMatch := by
  induction ops with
  | nil => intro w h; exact h
  | cons e ops ih => intro w h; exact ih (w.step e) (hubs_step_countsMatch w e h)

theorem countP_classes (l : List Client) :
    l.countP (fun c => c.countType = CountType.COUNT_NORMAL) +
        l.countP (fun c => c.countType = CountType.COUNT_REGISTERED) +
        l.countP (fun c => c.countType = CountType.COUNT_OP) =
      l.countP (fun c => decide (c.countType ≠ CountType.COUNT_UNCOUNTED)) ∧
    l.countP (fun c => decide (c.countType ≠ CountType.COUNT_UNCOUNTED)) +
        l.countP (fun c => c.countType = CountType.COUNT_UNCOUNTED) = l.length := by
  induction l with
  | nil => simp
  | cons a rest ih =>
    obtain ⟨i1, i2⟩ := ih
    simp only [List.countP_cons, List.length_cons]
    cases h : a.countType <;> simp at i1 i2 ⊢ <;> omega

theorem hubs_step_length (w : Hubs) (e : Nat × ClientOp) :
    (w.step e).clients.length = w.clients.length := by
  unfold Hubs.step
  cases w.clients[e.1]? <;> simp

theorem hubs_run_length (ops : List (Nat × ClientOp)) :
    ∀ w : Hubs, (w.run ops).clients.length = w.clients.length := by
  induction ops with
  | nil => intro w; rfl
  | cons e ops ih =>
    intro w
    have h1 : w.run (e :: ops) = (w.step e).run ops := rfl
    rw [h1, ih, hubs_step_length]

/-- With every session uncounted and the counters at zero, the counters agree with the
classifications. -/
theorem hubs_initial_countsMatch (w : Hubs) (h0 : w.counts = zeroCounts)
    (hU : ∀ c ∈ w.clients, c.countType = CountType.COUNT_UNCOUNTED) : w.CountsMatch := by
  have hz : ∀ t, t ≠ CountType.COUNT_UNCOUNTED → w.classified t = 0 := by
    intro t ht
    simp only [Hubs.classified, List.countP_eq_zero, decide_eq_true_eq]
    intro c hc h
    exact ht (by rw [← h, hU c hc])
  simp only [Hubs.CountsMatch, h0, zeroCounts]
  rw [hz _ (by decide), hz _ (by decide), hz _ (by decide)]
  simp

/-- Claim C17. Start with the counters at zero and every session UNCOUNTED. After any
sequence of events of any sessions, among them `updateCounts(true)` and
`updateCounts(false)` under any identity, each of the three counters NORMAL, REGISTERED and
OP is the number of sessions currently classified at its type. So no counter is negative,
every session is in exactly one of the four classes, and `getTotalCounts()` is the number
of sessions that are not UNCOUNTED (there being fewer than `2^31` sessions). -/
theorem counts_match_classification (w : Hubs) (ops : List (Nat × ClientOp))
    (h0 : w.counts = zeroCounts)
    (hU : ∀ c ∈ w.clients, c.countType = CountType.COUNT_UNCOUNTED) :
    ((w.run ops).counts.normal = (w.run ops).classified CountType.COUNT_NORMAL ∧
      (w.run ops).counts.registered = (w.run ops).classified CountType.COUNT_REGISTERED ∧
      (w.run ops).counts.op = (w.run ops).classified CountType.COUNT_OP) ∧
    (0 ≤ (w.run ops).counts.normal ∧ 0 ≤ (w.run ops).counts.registered ∧
      0 ≤ (w.run ops).counts.op) ∧
    (w.run ops).classified CountType.COUNT_NORMAL +
        (w.run ops).classified CountType.COUNT_REGISTERED +
        (w.run ops).classified CountType.COUNT_OP +
        (w.run ops).classified CountType.COUNT_UNCOUNTED = (w.run ops).clients.length ∧
    (w.clients.length < 2 ^ 31 →
      getTotalCounts (w.run ops).counts =
        (w.run ops).clients.countP
          (fun c => decide (c.countType ≠ CountType.COUNT_UNCOUNTED))) := by
  have hm := hubs_run_countsMatch ops w (hubs_initial_countsMatch w h0 hU)
  obtain ⟨h1, h2, h3⟩ := hm
  obtain ⟨p1, p2⟩ := countP_classes (w.run ops).clients
  have hl := hubs_run_length ops w
  simp only [Hubs.classified] at h1 h2 h3 ⊢
  refine ⟨⟨h1, h2, h3⟩, ⟨by rw [h1]; positivity, by rw [h2]; positivity,
    by rw [h3]; positivity⟩, by omega, ?_⟩
  intro hlt
  unfold getTotalCounts
  rw [h1, h2, h3]
  omega

/-- Witness of `counts_match_classification`: two sessions, the first counted as an
operator, the second counted and then uncounted again. -/
theorem counts_match_classification_witness :
    (Hubs.run { clients := [newClient, newClient], counts := zeroCounts }
        [(0, ClientOp.setMyIdentity { isOp := true, isRegistered := false }),
          (0, ClientOp.updateCounts false false), (1, ClientOp.updateCounts false false),
          (1, ClientOp.updateCounts true false)]).counts.op =
      (Hubs.run { clients := [newClient, newClient], counts := zeroCounts }
        [(0, ClientOp.setMyIdentity { isOp := true, isRegistered := false }),
          (0, ClientOp.updateCounts false false), (1, ClientOp.updateCounts false false),
          (1, ClientOp.updateCounts true false)]).classified CountType.COUNT_OP :=
  (counts_match_classification { clients := [newClient, newClient], counts := zeroCounts }
    [(0, ClientOp.setMyIdentity { isOp := true, isRegistered := false }),
      (0, ClientOp.updateCounts false false), (1, ClientOp.updateCounts false false),
      (1, ClientOp.updateCounts true false)] rfl (by decide)).1.2.2

/-- Claim C18, amended. Start with the counters at zero and every session UNCOUNTED. In
every state reached through events of the sessions, the sum of the NORMAL, REGISTERED and
OP counters is the number of sessions whose count classification is not UNCOUNTED; the
connection state is not part of it. `connect`, the connection and the failure reported by
the socket and the tick change neither the classification of the session nor the counters;
the callback that `shutdown` hands over with the socket leaves the session DISCONNECTED and
UNCOUNTED and takes it out of its counter. -/
theorem counts_sum_classified (w : Hubs) (ops : List (Nat × ClientOp))
    (h0 : w.counts = zeroCounts)
    (hU : ∀ c ∈ w.clients, c.countType = CountType.COUNT_UNCOUNTED) :
    ((w.run ops).counts.normal + (w.run ops).counts.registered + (w.run ops).counts.op =
      (w.run ops).clients.countP
        (fun c => decide (c.countType ≠ CountType.COUNT_UNCOUNTED))) ∧
    (∀ (c : Client) (n : Counts) (env : ConnectEnv) (tick aTick popNow popTick : Nat)
        (aLine : String) (a k l : Bool),
      ((c.connect env).countType = c.countType ∧
        (Client.step (c, n) (ClientOp.connect env)).2 = n) ∧
      ((c.onConnected tick l).countType = c.countType ∧
        (Client.step (c, n) (ClientOp.onConnected tick l)).2 = n) ∧
      ((c.onFailed aLine a k l).countType = c.countType ∧
        (Client.step (c, n) (ClientOp.onFailed aLine a k l)).2 = n) ∧
      ((c.onSecond aTick env popNow popTick).countType = c.countType ∧
        (Client.step (c, n) (ClientOp.onSecond aTick env popNow popTick)).2 = n)) ∧
    (∀ (c : Client) (n : Counts) (r : Bool),
      (c.shutdownCallback n r).1.state = State.STATE_DISCONNECTED ∧
      (c.shutdownCallback n r).1.countType = CountType.COUNT_UNCOUNTED ∧
      (c.shutdownCallback n r).2 = n.add c.countType (-1)) := by
  obtain ⟨h1, h2, h3⟩ := hubs_run_countsMatch ops w (hubs_initial_countsMatch w h0 hU)
  obtain ⟨p1, _⟩ := countP_classes (w.run ops).clients
  simp only [Hubs.classified] at h1 h2 h3
  refine ⟨by rw [h1, h2, h3]; omega, ?_, ?_⟩
  · intro c n env tick aTick popNow popTick aLine a k l
    exact ⟨⟨connect_countType c env, rfl⟩, ⟨onConnected_countType c tick l, rfl⟩,
      ⟨onFailed_countType c aLine a k l, rfl⟩,
      ⟨onSecond_countType c aTick env popNow popTick, rfl⟩⟩
  · intro c n r
    simp [Client.shutdownCallback, uncount_spec]

/-- Witness of `counts_sum_classified`: one session is counted as an operator and its
socket then reports a failure. -/
theorem counts_sum_classified_witness :
    (Hubs.run { clients := [newClient], counts := zeroCounts }
        [(0, ClientOp.connect (okEnv 0)),
          (0, ClientOp.setMyIdentity { isOp := true, isRegistered := false }),
          (0, ClientOp.updateCounts false false),
          (0, ClientOp.onFailed "reset" false true false)]).counts.normal +
      (Hubs.run { clients := [newClient], counts := zeroCounts }
        [(0, ClientOp.connect (okEnv 0)),
          (0, ClientOp.setMyIdentity { isOp := true, isRegistered := false }),
          (0, ClientOp.updateCounts false false),
          (0, ClientOp.onFailed "reset" false true false)]).counts.registered +
      (Hubs.run { clients := [newClient], counts := zeroCounts }
        [(0, ClientOp.connect (okEnv 0)),
          (0, ClientOp.setMyIdentity { isOp := true, isRegistered := false }),
          (0, ClientOp.updateCounts false false),
          (0, ClientOp.onFailed "reset" false true false)]).counts.op =
    (Hubs.run { clients := [newClient], counts := zeroCounts }
        [(0, ClientOp.connect (okEnv 0)),
          (0, ClientOp.setMyIdentity { isOp := true, isRegistered := false }),
          (0, ClientOp.updateCounts false false),
          (0, ClientOp.onFailed "reset" false true false)]).clients.countP
      (fun c => decide (c.countType ≠ CountType.COUNT_UNCOUNTED)) :=
  (counts_sum_classified { clients := [newClient], counts := zeroCounts }
    [(0, ClientOp.connect (okEnv 0)),
      (0, ClientOp.setMyIdentity { isOp := true, isRegistered := false }),
      (0, ClientOp.updateCounts false false),
      (0, ClientOp.onFailed "reset" false true false)] rfl (by decide)).1

/-- Claim C18 fails as stated. A new session on which `updateCounts(false)` is called is
counted though it is in state DISCONNECTED. And a session that connected, reached state
NORMAL and was counted as an operator stays counted when its socket reports a failure and
the state becomes DISCONNECTED: the counters sum to one while no session is in state
NORMAL. -/
theorem counts_sum_counterexample :
    ((Hubs.run { clients := [newClient], counts := zeroCounts }
        [(0, ClientOp.updateCounts false false)]).counts.normal = 1 ∧
      (Hubs.run { clients := [newClient], counts := zeroCounts }
        [(0, ClientOp.updateCounts false false)]).inStateNormal = 0) ∧
    ((Hubs.run { clients := [newClient], counts := zeroCounts }
        [(0, ClientOp.connect (okEnv 0)), (0, ClientOp.onConnected 1 false),
          (0, ClientOp.setMyIdentity { isOp := true, isRegistered := false }),
          (0, ClientOp.setConnectState State.STATE_NORMAL),
          (0, ClientOp.updateCounts false false)]).inStateNormal = 1 ∧
      (Hubs.run { clients := [newClient], counts := zeroCounts }
        [(0, ClientOp.connect (okEnv 0)), (0, ClientOp.onConnected 1 false),
          (0, ClientOp.setMyIdentity { isOp := true, isRegistered := false }),
          (0, ClientOp.setConnectState State.STATE_NORMAL),
          (0, ClientOp.updateCounts false false),
          (0, ClientOp.onFailed "reset" false true false)]).counts =
        { normal := 0, registered := 0, op := 1 } ∧
      (Hubs.run { clients := [newClient], counts := zeroCounts }
        [(0, ClientOp.connect (okEnv 0)), (0, ClientOp.onConnected 1 false),
          (0, ClientOp.setMyIdentity { isOp := true, isRegistered := false }),
          (0, ClientOp.setConnectState State.STATE_NORMAL),
          (0, ClientOp.updateCounts false false),
          (0, ClientOp.onFailed "reset" false true false)]).inStateNormal = 0) := by
  decide

/-- Claim C19. For the hub connection and for the private chat alike: `setRead` fires one
`MessagesRead` notification when the cache reports at least one message newly marked read,
and none when it reports zero, as it does when no cached message is unread; `clearCache`
fires one `MessagesCleared` notification when the cache reports at least one message
removed, and none when it reports zero, and returns the count of the cache. Both leave the
cache as the cache operation left it and fire nothing else. -/
theorem read_clear_notifications (c : Client) (p : PrivateChat) :
    (c.setRead.effects =
        c.effects ++ (if 0 < c.cache.setRead.1 then [Effect.MessagesRead] else []) ∧
      c.setRead.cache = c.cache.setRead.2 ∧
      ((∀ m ∈ c.cache.messages, m.read = true) → c.setRead.effects = c.effects)) ∧
    (c.clearCache.2.effects =
        c.effects ++ (if 0 < c.cache.clear.1 then [Effect.MessagesCleared] else []) ∧
      c.clearCache.2.cache = c.cache.clear.2 ∧ c.clearCache.1 = c.cache.clear.1) ∧
    (p.setRead.effects =
        p.effects ++ (if 0 < p.cache.setRead.1 then [ChatEffect.MessagesRead] else []) ∧
      p.setRead.cache = p.cache.setRead.2 ∧
      ((∀ m ∈ p.cache.messages, m.read = true) → p.setRead.effects = p.effects)) ∧
    (p.clearCache.2.effects =
        p.effects ++ (if 0 < p.cache.clear.1 then [ChatEffect.MessagesCleared] else []) ∧
      p.clearCache.2.cache = p.cache.clear.2 ∧ p.clearCache.1 = p.cache.clear.1) := by
  have hzero : ∀ m : MessageCache, (∀ x ∈ m.messages, x.read = true) → m.setRead.1 = 0 := by
    intro m h
    simp only [MessageCache.setRead, List.length_eq_zero, List.filter_eq_nil_iff]
    intro x hx
    simp [h x hx]
  refine ⟨⟨?_, ?_, ?_⟩, ⟨?_, ?_, ?_⟩, ⟨?_, ?_, ?_⟩, ⟨?_, ?_, ?_⟩⟩
  · unfold Client.setRead; split_ifs <;> simp
  · unfold Client.setRead; split_ifs <;> rfl
  · intro h
    unfold Client.setRead
    rw [hzero c.cache h]
    simp
  · unfold Client.clearCache; split_ifs <;> simp
  · unfold Client.clearCache; split_ifs <;> rfl
  · unfold Client.clearCache; split_ifs <;> rfl
  · unfold PrivateChat.setRead; split_ifs <;> simp
  · unfold PrivateChat.setRead; split_ifs <;> rfl
  · intro h
    unfold PrivateChat.setRead
    rw [hzero p.cache h]
    simp
  · unfold PrivateChat.clearCache; split_ifs <;> simp
  · unfold PrivateChat.clearCache; split_ifs <;> rfl
  · unfold PrivateChat.clearCache; split_ifs <;> rfl

/-- Witness of `read_clear_notifications`: a session with one unread status line fires
`MessagesRead` once, and a second `setRead` fires nothing. -/
theorem read_clear_notifications_witness :
    ((newClient.statusMessage "hello" Severity.SEV_INFO StatusFlag.FLAG_NORMAL false).setRead).setRead.effects
      = ((newClient.statusMessage "hello" Severity.SEV_INFO StatusFlag.FLAG_NORMAL
          false).setRead).effects :=
  (read_clear_notifications
    ((newClient.statusMessage "hello" Severity.SEV_INFO StatusFlag.FLAG_NORMAL false).setRead)
    emptyChat).1.2.2 (by decide)

/-- Claim C20. When a session for the target URL exists, `onRedirect` appends the "already
connected" status message and does nothing else: the result is that of `statusMessage`,
whose effects are the append to the cache, the log entry when logging is on and the
`StatusMessage` notification, so that no session is created, neither `Redirect` nor
`Redirected` is fired and the stored redirect target is unchanged. `doRedirect` does the
same when a session for its stored target exists, and nothing at all when the stored
target is empty. -/
theorem redirect_guard (c : Client) (url : String) (hasClient : String → Bool) (a l : Bool) :
    (hasClient url = true →
      c.onRedirect url hasClient a l =
        c.statusMessage STRING_REDIRECT_ALREADY_CONNECTED Severity.SEV_INFO
          StatusFlag.FLAG_NORMAL l) ∧
    (c.redirectUrl ≠ "" → hasClient c.redirectUrl = true →
      c.doRedirect hasClient l =
        c.statusMessage STRING_REDIRECT_ALREADY_CONNECTED Severity.SEV_INFO
          StatusFlag.FLAG_NORMAL l) ∧
    (c.redirectUrl = "" → c.doRedirect hasClient l = c) ∧
    ((c.statusMessage STRING_REDIRECT_ALREADY_CONNECTED Severity.SEV_INFO
          StatusFlag.FLAG_NORMAL l).redirectUrl = c.redirectUrl ∧
      (c.statusMessage STRING_REDIRECT_ALREADY_CONNECTED Severity.SEV_INFO
          StatusFlag.FLAG_NORMAL l).effects =
        c.effects ++ [Effect.cacheAddMessage STRING_REDIRECT_ALREADY_CONNECTED] ++
          (if l then [Effect.logStatus STRING_REDIRECT_ALREADY_CONNECTED] else []) ++
          [Effect.StatusMessage STRING_REDIRECT_ALREADY_CONNECTED Severity.SEV_INFO
            StatusFlag.FLAG_NORMAL] ∧
      (c.statusMessage STRING_REDIRECT_ALREADY_CONNECTED Severity.SEV_INFO
          StatusFlag.FLAG_NORMAL l).cache =
        c.cache.addMessage
          { text := STRING_REDIRECT_ALREADY_CONNECTED, isChat := false, read := false }) := by
  refine ⟨?_, ?_, ?_, ?_, ?_, ?_⟩
  · intro h
    simp [Client.onRedirect, h]
  · intro h1 h2
    simp [Client.doRedirect, h1, h2]
  · intro h
    simp [Client.doRedirect, h]
  · simp [statusMessage_spec]
  · cases l <;> simp [statusMessage_spec]
  · simp [statusMessage_spec]

/-- Witness of `redirect_guard`: a redirect to the hub the session itself is on. -/
theorem redirect_guard_witness :
    newClient.onRedirect "adc://hub.example:411" (fun u => u == "adc://hub.example:411")
        true false =
      newClient.statusMessage STRING_REDIRECT_ALREADY_CONNECTED Severity.SEV_INFO
        StatusFlag.FLAG_NORMAL false :=
  (redirect_guard newClient "adc://hub.example:411" (fun u => u == "adc://hub.example:411")
    true false).1 (by decide)

theorem queue_run_minInterval (q : SearchQueue) (ops : List Op) :
    (q.run ops).minInterval = q.minInterval := by
  induction ops generalizing q with
  | nil => rfl
  | cons op ops ih =>
    show ((q.step op).run ops).minInterval = q.minInterval
    rw [ih, step_minInterval]

/-- Claim C29. In every state that a fresh queue reaches by `add`, `pop`, `cancelSearch` and
`clear`, a non-empty queue has `nextInterval` at least `max 5000 minInterval`, so the
negative value that stands for an unknown interval is not active; `hasWaitingTime` is then
false from the next search tick on, and a `pop` after that tick returns a search. -/
theorem nonempty_interval_known (mi : Int) (t0 : Nat) (ops : List Op)
    (hne : ((SearchQueue.new mi t0).run ops).searchQueue ≠ []) :
    max 5000 mi ≤ ((SearchQueue.new mi t0).run ops).nextInterval ∧
    ¬ ((SearchQueue.new mi t0).run ops).nextInterval < 0 ∧
    ((SearchQueue.new mi t0).run ops).getNextSearchTick < 2 ^ 64 ∧
    (∀ t, ((SearchQueue.new mi t0).run ops).getNextSearchTick ≤ t →
      ((SearchQueue.new mi t0).run ops).hasWaitingTime t = false) ∧
    (∀ now tick, ((SearchQueue.new mi t0).run ops).getNextSearchTick < now →
      (((SearchQueue.new mi t0).run ops).pop now tick).1.isSome = true) := by
  have hI := run_intervalSet (SearchQueue.new mi t0) ops (new_intervalSet mi t0) hne
  have hmi : ((SearchQueue.new mi t0).run ops).minInterval = mi := by
    rw [queue_run_minInterval]; rfl
  rw [hmi] at hI
  have h5 : (0 : Int) ≤ ((SearchQueue.new mi t0).run ops).nextInterval := by
    have := hI.1
    omega
  refine ⟨hI.1, by omega, getNextSearchTick_lt _, ?_, ?_⟩
  · intro t ht
    simp only [SearchQueue.hasWaitingTime, Bool.or_eq_false_iff, decide_eq_false_iff_not]
    exact ⟨by omega, by omega⟩
  · intro now tick hlt
    exact (pop_isSome_iff _ now tick).2 ⟨hlt, hne⟩

theorem nonempty_interval_known_witness :
    (5000 : Int) ≤ ((SearchQueue.new 0 0).run
      [Op.add (mkSearch 1 .NORMAL 1) 0 [], Op.clear, Op.add (mkSearch 2 .LOW 2) 7 []]).nextInterval :=
  (nonempty_interval_known 0 0
    [Op.add (mkSearch 1 .NORMAL 1) 0 [], Op.clear, Op.add (mkSearch 2 .LOW 2) 7 []]
    (by decide)).1

/-- Claim C21, evaluated on the code: the order of the append to the cache and of the
notification in the four operations that do both. `Client::statusMessage` (for a message
that is kept), `Client::onChatMessage` and `PrivateChat::handleMessage` append the message
to the cache and then fire the notification; `PrivateChat::statusMessage` fires
`StatusMessage` first and appends the message after it, so on a chat with an empty cache
the observer runs while the cache holds no message. -/
theorem cache_before_notification :
    (∀ (c : Client) (m : String) (sev : Severity) (f : StatusFlag) (l : Bool),
      (c.statusMessage m sev f l).effects =
        c.effects ++
          (if f = StatusFlag.FLAG_IS_SPAM then []
            else [Effect.cacheAddMessage m] ++ (if l then [Effect.logStatus m] else [])) ++
          [Effect.StatusMessage m sev f]) ∧
    (∀ (c : Client) (m : String) (l : Bool),
      (c.onChatMessage m false l).effects =
        c.effects ++ (if l then [Effect.logChat m] else []) ++
          [Effect.cacheAddMessage m, Effect.ChatMessage m]) ∧
    (∀ (p : PrivateChat) (m u n : String),
      (p.handleMessage m u n).effects =
        (p.handleHub u n).effects ++
          [ChatEffect.cacheAddMessage m, ChatEffect.PrivateMessage m]) ∧
    (∀ (p : PrivateChat) (m : String) (sev : Severity),
      (p.statusMessage m sev).effects =
        p.effects ++ [ChatEffect.StatusMessage m sev, ChatEffect.cacheAddMessage m]) ∧
    (emptyChat.statusMessage STRING_CCPM_TIMEOUT Severity.SEV_INFO).effects =
      [ChatEffect.StatusMessage STRING_CCPM_TIMEOUT Severity.SEV_INFO,
        ChatEffect.cacheAddMessage STRING_CCPM_TIMEOUT] ∧
    emptyChat.cache.messages = [] := by
  refine ⟨?_, ?_, ?_, ?_, rfl, rfl⟩
  · intro c m sev f l
    rw [statusMessage_spec]
  · intro c m l
    cases l <;> simp [Client.onChatMessage]
  · intro p m u n
    simp [PrivateChat.handleMessage, PrivateChat.fire]
  · intro p m sev
    rfl

theorem connectRequests_append (a b : List ChatEffect) :
    connectRequests (a ++ b) = connectRequests a + connectRequests b := by
  simp [connectRequests, List.countP_append]

theorem startCC_attempt (p : PrivateChat) (r : ConnectResult)
    (hs : p.ccpmState = CCPMState.DISCONNECTED) :
    p.startCC true r =
      (({ p with
          ccpmState := CCPMState.CONNECTING
          lastCCPMError := r.lastCCPMError
          allowAutoCCPM := !r.protocolError } : PrivateChat).fire
        (ChatEffect.connect p.hint)).startCCResult r.connecting := by
  simp [PrivateChat.startCC, hs, CCPMState.rank]

theorem startCC_failed (p : PrivateChat) (r : ConnectResult)
    (hs : p.ccpmState = CCPMState.DISCONNECTED) (hc : r.connecting = false) :
    (p.startCC true r).ccpmState = CCPMState.DISCONNECTED ∧
    (p.startCC true r).allowAutoCCPM = !r.protocolError ∧
    (p.startCC true r).ccpmAttempts = p.ccpmAttempts ∧
    (p.startCC true r).supportsCCPM = p.supportsCCPM ∧
    (p.startCC true r).uc = p.uc ∧
    connectRequests (p.startCC true r).effects = connectRequests p.effects + 1 := by
  rw [startCC_attempt p r hs, hc]
  by_cases he : r.lastCCPMError.isEmpty = true <;>
    simp [PrivateChat.startCCResult, PrivateChat.fire, PrivateChat.statusMessage, he,
      connectRequests, List.countP_append, List.countP_cons]

theorem checkAlwaysCCPM_attempt (p : PrivateChat) (g : AutoEnv) (r : ConnectResult)
    (hg : g.passes) (hsup : p.supportsCCPM = true) (ha : p.allowAutoCCPM = true)
    (hs : p.ccpmState = CCPMState.DISCONNECTED) :
    p.checkAlwaysCCPM g r = (p.startCC true r).countAttempt := by
  obtain ⟨h1, h2, h3, h4⟩ := hg
  simp [PrivateChat.checkAlwaysCCPM, h1, h2, h3, h4, hsup, ha, hs]

theorem checkAlwaysCCPM_failed (p : PrivateChat) (g : AutoEnv) (r : ConnectResult)
    (hg : g.passes) (hsup : p.supportsCCPM = true) (ha : p.allowAutoCCPM = true)
    (hs : p.ccpmState = CCPMState.DISCONNECTED) (hc : r.connecting = false)
    (hp : r.protocolError = false) :
    (p.checkAlwaysCCPM g r).ccpmState = CCPMState.DISCONNECTED ∧
    (p.checkAlwaysCCPM g r).allowAutoCCPM = decide (p.ccpmAttempts < 3) ∧
    (p.checkAlwaysCCPM g r).ccpmAttempts = p.ccpmAttempts + 1 ∧
    (p.checkAlwaysCCPM g r).supportsCCPM = true ∧
    connectRequests (p.checkAlwaysCCPM g r).effects = connectRequests p.effects + 1 := by
  rw [checkAlwaysCCPM_attempt p g r hg hsup ha hs]
  obtain ⟨f1, f2, f3, f4, _, f6⟩ := startCC_failed p r hs hc
  rw [hp] at f2
  simp only [Bool.not_false] at f2
  simp [PrivateChat.countAttempt, f1, f2, f3, f4, f6, hsup]

theorem checkAlwaysCCPM_blocked (p : PrivateChat) (g : AutoEnv) (r : ConnectResult)
    (ha : p.allowAutoCCPM = false) :
    (p.checkAlwaysCCPM g r).effects = p.effects ∧
    (p.checkAlwaysCCPM g r).ccpmState = p.ccpmState ∧
    (p.checkAlwaysCCPM g r).uc = p.uc ∧
    (p.checkAlwaysCCPM g r).allowAutoCCPM = (p.ccReady && !(!g.userOnline || !g.alwaysCCPM ||
      !p.supportsCCPM || g.isNMDC || g.isBot)) := by
  unfold PrivateChat.checkAlwaysCCPM
  by_cases hgate : (!g.userOnline || !g.alwaysCCPM || !p.supportsCCPM || g.isNMDC || g.isBot) = true
  · simp [hgate, ha]
  · by_cases hr : p.ccReady = true <;> simp [hgate, ha, hr]

/-- Claim C22, evaluated on the code: the attempt budget of the automatic upgrade check.
From a fresh session whose peer passes the policy gate, three automatic checks whose
connection requests fail without a protocol error leave `allowAutoCCPM` true with the
counter at 3; the fourth check makes a fourth connection request and only then clears the
flag; the fifth makes none. The counter is compared before it is incremented
(`ccpmAttempts++ < 3`). -/
theorem auto_attempt_budget (p : PrivateChat) (g : AutoEnv) (r1 r2 r3 r4 r5 : ConnectResult)
    (hfresh : p.ccpmAttempts = 0 ∧ p.allowAutoCCPM = true ∧
      p.ccpmState = CCPMState.DISCONNECTED)
    (hpolicy : g.passes ∧ p.supportsCCPM = true)
    (hfail : (r1.connecting = false ∧ r1.protocolError = false) ∧
      (r2.connecting = false ∧ r2.protocolError = false) ∧
      (r3.connecting = false ∧ r3.protocolError = false) ∧
      (r4.connecting = false ∧ r4.protocolError = false)) :
    (((p.checkAlwaysCCPM g r1).checkAlwaysCCPM g r2).checkAlwaysCCPM g r3).allowAutoCCPM = true ∧
    (((p.checkAlwaysCCPM g r1).checkAlwaysCCPM g r2).checkAlwaysCCPM g r3).ccpmAttempts = 3 ∧
    connectRequests
      (((p.checkAlwaysCCPM g r1).checkAlwaysCCPM g r2).checkAlwaysCCPM g r3).effects =
        connectRequests p.effects + 3 ∧
    connectRequests
      ((((p.checkAlwaysCCPM g r1).checkAlwaysCCPM g r2).checkAlwaysCCPM g r3).checkAlwaysCCPM
        g r4).effects = connectRequests p.effects + 4 ∧
    ((((p.checkAlwaysCCPM g r1).checkAlwaysCCPM g r2).checkAlwaysCCPM g r3).checkAlwaysCCPM
        g r4).allowAutoCCPM = false ∧
    connectRequests
      (((((p.checkAlwaysCCPM g r1).checkAlwaysCCPM g r2).checkAlwaysCCPM g r3).checkAlwaysCCPM
        g r4).checkAlwaysCCPM g r5).effects = connectRequests p.effects + 4 := by
  obtain ⟨h0, ha, hs⟩ := hfresh
  obtain ⟨hg, hsup⟩ := hpolicy
  obtain ⟨⟨c1, e1⟩, ⟨c2, e2⟩, ⟨c3, e3⟩, ⟨c4, e4⟩⟩ := hfail
  obtain ⟨s1, a1, n1, u1, k1⟩ := checkAlwaysCCPM_failed p g r1 hg hsup ha hs c1 e1
  rw [h0] at a1 n1
  obtain ⟨s2, a2, n2, u2, k2⟩ :=
    checkAlwaysCCPM_failed (p.checkAlwaysCCPM g r1) g r2 hg u1 (by rw [a1]; rfl) s1 c2 e2
  rw [n1] at a2 n2
  obtain ⟨s3, a3, n3, u3, k3⟩ :=
    checkAlwaysCCPM_failed ((p.checkAlwaysCCPM g r1).checkAlwaysCCPM g r2) g r3 hg u2
      (by rw [a2]; rfl) s2 c3 e3
  rw [n2] at a3 n3
  have a3t : (((p.checkAlwaysCCPM g r1).checkAlwaysCCPM g r2).checkAlwaysCCPM g
      r3).allowAutoCCPM = true := by rw [a3]; rfl
  obtain ⟨s4, a4, n4, u4, k4⟩ :=
    checkAlwaysCCPM_failed (((p.checkAlwaysCCPM g r1).checkAlwaysCCPM g r2).checkAlwaysCCPM g r3)
      g r4 hg u3 a3t s3 c4 e4
  rw [n3] at a4
  have a4f : ((((p.checkAlwaysCCPM g r1).checkAlwaysCCPM g r2).checkAlwaysCCPM g
      r3).checkAlwaysCCPM g r4).allowAutoCCPM = false := by rw [a4]; rfl
  refine ⟨a3t, n3, by omega, by omega, a4f, ?_⟩
  rw [(checkAlwaysCCPM_blocked _ g r5 a4f).1]
  omega

theorem auto_attempt_budget_witness :
    (((freshChat.checkAlwaysCCPM passEnv rejected).checkAlwaysCCPM passEnv
      rejected).checkAlwaysCCPM passEnv rejected).allowAutoCCPM = true ∧
    connectRequests
      ((((freshChat.checkAlwaysCCPM passEnv rejected).checkAlwaysCCPM passEnv
        rejected).checkAlwaysCCPM passEnv rejected).checkAlwaysCCPM passEnv rejected).effects =
          connectRequests freshChat.effects + 4 :=
  ⟨(auto_attempt_budget freshChat passEnv rejected rejected rejected rejected rejected
      ⟨rfl, rfl, rfl⟩ ⟨⟨rfl, rfl, rfl, rfl⟩, rfl⟩ ⟨⟨rfl, rfl⟩, ⟨rfl, rfl⟩, ⟨rfl, rfl⟩, ⟨rfl, rfl⟩⟩).1,
    (auto_attempt_budget freshChat passEnv rejected rejected rejected rejected rejected
      ⟨rfl, rfl, rfl⟩ ⟨⟨rfl, rfl, rfl, rfl⟩, rfl⟩
      ⟨⟨rfl, rfl⟩, ⟨rfl, rfl⟩, ⟨rfl, rfl⟩, ⟨rfl, rfl⟩⟩).2.2.2.1⟩

theorem mem_addEvent (es : List PendingEvent) (k : DelayEvent) (c : DelayCallback) (d : Nat) :
    ({ kind := k, callback := c, delay := d } : PendingEvent) ∈ addEvent es k c d := by
  simp [addEvent]

theorem startCC_noop (p : PrivateChat) (userOnline : Bool) (r : ConnectResult)
    (h : ¬ (userOnline = true ∧ p.ccpmState = CCPMState.DISCONNECTED)) :
    p.startCC userOnline r = p := by
  unfold PrivateChat.startCC
  cases userOnline
  · simp
  · cases hs : p.ccpmState
    · simp [CCPMState.rank]
    · simp [CCPMState.rank]
    · exact absurd ⟨rfl, hs⟩ h

theorem ccReady_false (p : PrivateChat) (hs : p.ccpmState ≠ CCPMState.CONNECTED) :
    p.ccReady = false := by
  simp [PrivateChat.ccReady, hs]

theorem connectRequests_fire (p : PrivateChat) (e : ChatEffect)
    (he : ∀ h, e ≠ ChatEffect.connect h) :
    connectRequests (p.fire e).effects = connectRequests p.effects := by
  cases e <;> simp [PrivateChat.fire, connectRequests, List.countP_append] at he ⊢

theorem checkUserHub_keeps (p : PrivateChat) (w : Bool) (hubs : List (String × String)) :
    (p.checkUserHub w hubs).allowAutoCCPM = p.allowAutoCCPM ∧
    (p.checkUserHub w hubs).ccpmState = p.ccpmState ∧
    (p.checkUserHub w hubs).uc = p.uc ∧
    (p.checkUserHub w hubs).online = p.online ∧
    connectRequests (p.checkUserHub w hubs).effects = connectRequests p.effects := by
  unfold PrivateChat.checkUserHub
  cases hubs with
  | nil => simp
  | cons h t =>
    simp only
    split_ifs <;>
      simp [PrivateChat.statusMessage, connectRequests, List.countP_append, List.countP_cons]

theorem handleHub_keeps (p : PrivateChat) (u n : String) :
    (p.handleHub u n).allowAutoCCPM = p.allowAutoCCPM ∧
    (p.handleHub u n).ccpmState = p.ccpmState ∧
    (p.handleHub u n).uc = p.uc ∧
    connectRequests (p.handleHub u n).effects = connectRequests p.effects := by
  unfold PrivateChat.handleHub
  split_ifs <;>
    simp [PrivateChat.statusMessage, PrivateChat.setHubUrl, PrivateChat.fire, connectRequests,
      List.countP_append, List.countP_cons]

theorem step_keeps_blocked (p : PrivateChat) (op : ChatOp) (hre : op.reenables = false)
    (ha : p.allowAutoCCPM = false) (hs : p.ccpmState ≠ CCPMState.CONNECTED) :
    (p.step op).allowAutoCCPM = false ∧ (p.step op).ccpmState ≠ CCPMState.CONNECTED ∧
    connectRequests (p.step op).effects = connectRequests p.effects := by
  have hr := ccReady_false p hs
  cases op with
  | startCC o r => simp [ChatOp.reenables] at hre
  | CCPMConnected u => simp [ChatOp.reenables] at hre
  | CCPMDisconnected => simp [PrivateChat.step, PrivateChat.CCPMDisconnected, hr, ha, hs]
  | closeCC now na cpmi => simp [PrivateChat.step, PrivateChat.closeCC, hr, ha, hs]
  | close cpmi =>
    have hr2 : (p.fire ChatEffect.Close).ccReady = false := hr
    simp [PrivateChat.step, PrivateChat.close, PrivateChat.closeChannel, hr2]
    simp [PrivateChat.fire, ha, hs, connectRequests, List.countP_append, List.countP_cons]
  | checkCCPMTimeout =>
    simp only [PrivateChat.step, PrivateChat.checkCCPMTimeout, PrivateChat.fired]
    split_ifs <;>
      simp [PrivateChat.statusMessage, PrivateChat.fire, ha, hs, connectRequests,
        List.countP_append, List.countP_cons]
  | checkAlwaysCCPM g r =>
    have hb := checkAlwaysCCPM_blocked (p.fired DelayEvent.CCPM_AUTO) g r ha
    have hr2 : (p.fired DelayEvent.CCPM_AUTO).ccReady = false := hr
    simp only [PrivateChat.step]
    rw [hb.1, hb.2.1, hb.2.2.2, hr2]
    exact ⟨by simp, hs, rfl⟩
  | userDisconnected su wo s cpmi =>
    simp only [ChatOp.reenables] at hre
    simp only [PrivateChat.step, PrivateChat.onUserDisconnected]
    cases su
    · simp [ha, hs]
    · cases wo
      · simp [PrivateChat.updateSupports, ha, hs]
      · simp at hre
  | userUpdated su s =>
    simp only [PrivateChat.step, PrivateChat.onUserUpdated]
    cases su <;> simp [PrivateChat.updateSupports, ha, hs]
  | userDisconnectedUpdate hubs =>
    obtain ⟨h1, h2, _, _, h4⟩ := checkUserHub_keeps (p.fired DelayEvent.USER_UPDATE) true hubs
    simp only [PrivateChat.step, PrivateChat.userDisconnectedUpdate]
    rw [connectRequests_fire _ _ (by simp)]
    exact ⟨h1.trans ha, fun h => hs (h2.symm.trans h), h4⟩
  | userUpdatedUpdate names hubs =>
    simp only [PrivateChat.step, PrivateChat.userUpdatedUpdate]
    split_ifs
    · obtain ⟨h1, h2, _, _, h4⟩ :=
        checkUserHub_keeps ((p.fired DelayEvent.USER_UPDATE).statusMessage
          (STRING_USER_WENT_ONLINE ++ names) Severity.SEV_INFO) false hubs
      rw [connectRequests_fire _ _ (by simp)]
      refine ⟨h1.trans ha, ?_, ?_⟩
      · exact fun h => hs (h2.symm.trans h)
      · show connectRequests (_ : PrivateChat).effects = _
        rw [h4]
        simp [PrivateChat.statusMessage, PrivateChat.fired, connectRequests, List.countP_append,
          List.countP_cons]
    · rw [connectRequests_fire _ _ (by simp)]
      exact ⟨ha, hs, rfl⟩
  | clientDisconnected u hubs =>
    simp only [PrivateChat.step, PrivateChat.onClientDisconnected]
    split_ifs
    · obtain ⟨h1, h2, _, _, h4⟩ := checkUserHub_keeps p true hubs
      rw [connectRequests_fire _ _ (by simp)]
      exact ⟨h1.trans ha, fun h => hs (h2.symm.trans h), h4⟩
    · exact ⟨ha, hs, rfl⟩
  | pmi cmd =>
    simp only [ChatOp.reenables] at hre
    simp only [PrivateChat.step, PrivateChat.onPMI]
    split_ifs <;>
      simp [PrivateChat.fire, ha, hs, hre, connectRequests, List.countP_append,
        List.countP_cons]
  | handleMessage m u n =>
    obtain ⟨h1, h2, _, h4⟩ := handleHub_keeps p u n
    simp only [PrivateChat.step, PrivateChat.handleMessage]
    rw [connectRequests_fire _ _ (by simp), connectRequests_fire _ _ (by simp)]
    exact ⟨h1.trans ha, fun h => hs (h2.symm.trans h), h4⟩
  | statusMessage m sev =>
    simp [PrivateChat.step, PrivateChat.statusMessage, ha, hs, connectRequests,
      List.countP_append, List.countP_cons]
  | sendMessage m rel =>
    simp [PrivateChat.step, PrivateChat.sendMessage, hr, PrivateChat.fire, ha, hs,
      connectRequests, List.countP_append, List.countP_cons]
  | sendPMInfo t cpmi =>
    simp [PrivateChat.step, PrivateChat.sendPMInfo, hr, ha, hs]
  | setRead =>
    simp only [PrivateChat.step, PrivateChat.setRead]
    split_ifs <;> simp [ha, hs, connectRequests, List.countP_append, List.countP_cons]
  | clearCache =>
    simp only [PrivateChat.step, PrivateChat.clearCache]
    split_ifs <;> simp [ha, hs, connectRequests, List.countP_append, List.countP_cons]

theorem run_keeps_blocked (p : PrivateChat) (ops : List ChatOp)
    (hre : ∀ op ∈ ops, op.reenables = false)
    (ha : p.allowAutoCCPM = false) (hs : p.ccpmState ≠ CCPMState.CONNECTED) :
    (p.run ops).allowAutoCCPM = false ∧ (p.run ops).ccpmState ≠ CCPMState.CONNECTED ∧
    connectRequests (p.run ops).effects = connectRequests p.effects := by
  induction ops generalizing p with
  | nil => exact ⟨ha, hs, rfl⟩
  | cons op ops ih =>
    obtain ⟨a1, s1, k1⟩ := step_keeps_blocked p op (hre op (List.mem_cons_self _ _)) ha hs
    obtain ⟨a2, s2, k2⟩ :=
      ih (p.step op) (fun o ho => hre o (List.mem_cons_of_mem _ ho)) a1 s1
    exact ⟨a2, s2, k2.trans k1⟩

/-- Claim C24, amended. After a `startCC` whose connection request is rejected with the protocol error
flag, `allowAutoCCPM` is false, and it stays false, with no further connection request, along
every later sequence of events that holds no manual `startCC`, no `CCPMConnected`, no
peer-offline event for this peer and no PMI command whose `AC` parameter is read with the
value "1"; the automatic checks of such a sequence start no connection attempt. -/
theorem protocol_rejection_blocks_auto (p0 : PrivateChat) (r : ConnectResult)
    (ops : List ChatOp) (hs : p0.ccpmState = CCPMState.DISCONNECTED)
    (hc : r.connecting = false) (hp : r.protocolError = true)
    (hre : ∀ op ∈ ops, op.reenables = false) :
    (p0.startCC true r).allowAutoCCPM = false ∧
    ((p0.startCC true r).run ops).allowAutoCCPM = false ∧
    connectRequests ((p0.startCC true r).run ops).effects =
      connectRequests (p0.startCC true r).effects := by
  obtain ⟨f1, f2, _⟩ := startCC_failed p0 r hs hc
  rw [hp] at f2
  have hs1 : (p0.startCC true r).ccpmState ≠ CCPMState.CONNECTED := by rw [f1]; decide
  obtain ⟨a, _, k⟩ := run_keeps_blocked (p0.startCC true r) ops hre f2 hs1
  exact ⟨f2, a, k⟩

theorem protocol_rejection_blocks_auto_witness :
    ((freshChat.startCC true protocolRejected).run
      [ChatOp.userUpdated true supported, ChatOp.checkAlwaysCCPM passEnv rejected,
        ChatOp.checkCCPMTimeout, ChatOp.pmi (acCommand "0"),
        ChatOp.checkAlwaysCCPM passEnv rejected]).allowAutoCCPM = false ∧
    connectRequests ((freshChat.startCC true protocolRejected).run
      [ChatOp.userUpdated true supported, ChatOp.checkAlwaysCCPM passEnv rejected,
        ChatOp.checkCCPMTimeout, ChatOp.pmi (acCommand "0"),
        ChatOp.checkAlwaysCCPM passEnv rejected]).effects =
      connectRequests (freshChat.startCC true protocolRejected).effects :=
  (protocol_rejection_blocks_auto freshChat protocolRejected
    [ChatOp.userUpdated true supported, ChatOp.checkAlwaysCCPM passEnv rejected,
      ChatOp.checkCCPMTimeout, ChatOp.pmi (acCommand "0"),
      ChatOp.checkAlwaysCCPM passEnv rejected] rfl rfl rfl (by decide)).2

/-- Claim C24 fails as stated: after the rejection with the protocol error flag, a peer-offline
event sets `allowAutoCCPM` again and the next automatic check makes a connection request,
with no manual `startCC` in between; a PMI command with `AC` of value "1" does the same,
and so does a channel that connects and is lost. -/
theorem protocol_rejection_counterexample :
    (freshChat.startCC true protocolRejected).allowAutoCCPM = false ∧
    connectRequests ((freshChat.startCC true protocolRejected).run
      [ChatOp.userDisconnected true true supported false, ChatOp.userUpdated true supported,
        ChatOp.userUpdatedUpdate "" [], ChatOp.checkAlwaysCCPM passEnv rejected]).effects =
      connectRequests (freshChat.startCC true protocolRejected).effects + 1 ∧
    connectRequests ((freshChat.startCC true protocolRejected).run
      [ChatOp.pmi (acCommand "1"), ChatOp.checkAlwaysCCPM passEnv rejected]).effects =
      connectRequests (freshChat.startCC true protocolRejected).effects + 1 ∧
    connectRequests ((freshChat.startCC true protocolRejected).run
      [ChatOp.CCPMConnected 7, ChatOp.checkAlwaysCCPM passEnv rejected,
        ChatOp.CCPMDisconnected, ChatOp.checkAlwaysCCPM passEnv rejected]).effects =
      connectRequests (freshChat.startCC true protocolRejected).effects + 1 := by
  refine ⟨rfl, ?_, ?_, ?_⟩ <;> decide

/-- Claim C25, amended. `CCPMConnected(uc)` leaves the sub-state `CONNECTED` with `uc` as the channel
handle and does not touch `allowAutoCCPM`; the flag is set at the next automatic check
that passes the policy gate while the channel is `CONNECTED`, and that check makes no
connection request. -/
theorem CCPMConnected_spec (p : PrivateChat) (aUc : Option Nat) (g : AutoEnv)
    (r : ConnectResult) (hg : g.passes) (hsup : p.supportsCCPM = true) :
    (p.CCPMConnected aUc).ccpmState = CCPMState.CONNECTED ∧
    (p.CCPMConnected aUc).uc = aUc ∧
    (p.CCPMConnected aUc).allowAutoCCPM = p.allowAutoCCPM ∧
    (p.CCPMConnected aUc).effects =
      p.effects ++ [ChatEffect.ucAddListener aUc,
        ChatEffect.StatusMessage STRING_CCPM_ESTABLISHED Severity.SEV_INFO,
        ChatEffect.cacheAddMessage STRING_CCPM_ESTABLISHED, ChatEffect.CCPMStatusUpdated] ∧
    ((p.CCPMConnected aUc).checkAlwaysCCPM g r).allowAutoCCPM = true ∧
    ((p.CCPMConnected aUc).checkAlwaysCCPM g r).ccpmState = CCPMState.CONNECTED ∧
    ((p.CCPMConnected aUc).checkAlwaysCCPM g r).effects = (p.CCPMConnected aUc).effects := by
  obtain ⟨h1, h2, h3, h4⟩ := hg
  refine ⟨rfl, rfl, rfl, ?_, ?_, ?_, ?_⟩
  · simp [PrivateChat.CCPMConnected, PrivateChat.fire, PrivateChat.statusMessage]
  · simp [PrivateChat.checkAlwaysCCPM, PrivateChat.CCPMConnected, PrivateChat.fire,
      PrivateChat.statusMessage, PrivateChat.ccReady, h1, h2, h3, h4, hsup]
  · simp [PrivateChat.checkAlwaysCCPM, PrivateChat.CCPMConnected, PrivateChat.fire,
      PrivateChat.statusMessage, PrivateChat.ccReady, h1, h2, h3, h4, hsup]
  · simp [PrivateChat.checkAlwaysCCPM, PrivateChat.CCPMConnected, PrivateChat.fire,
      PrivateChat.statusMessage, PrivateChat.ccReady, h1, h2, h3, h4, hsup]

theorem CCPMConnected_spec_witness :
    (((freshChat.startCC true protocolRejected).CCPMConnected (some 7)).checkAlwaysCCPM passEnv
      rejected).allowAutoCCPM = true :=
  (CCPMConnected_spec (freshChat.startCC true protocolRejected) (some 7) passEnv rejected
    ⟨rfl, rfl, rfl, rfl⟩ rfl).2.2.2.2.1

/-- Claim C25 fails as stated: a session whose flag was cleared by a rejection with the
protocol error flag still has `allowAutoCCPM` false after `CCPMConnected`. -/
theorem CCPMConnected_counterexample :
    (freshChat.startCC true protocolRejected).allowAutoCCPM = false ∧
    ((freshChat.startCC true protocolRejected).CCPMConnected (some 7)).ccpmState =
      CCPMState.CONNECTED ∧
    ((freshChat.startCC true protocolRejected).CCPMConnected (some 7)).allowAutoCCPM = false :=
  ⟨rfl, rfl, rfl⟩

/-- Claim C26. `checkCCPMTimeout` in sub-state `CONNECTING` leaves the sub-state `DISCONNECTED`,
appends one timeout status message to the cache and fires one `StatusMessage` and one
`CCPMStatusUpdated` notification, changing nothing else; in the sub-states `CONNECTED` and
`DISCONNECTED` it changes nothing at all. -/
theorem checkCCPMTimeout_spec (p : PrivateChat) :
    (p.ccpmState = CCPMState.CONNECTING →
      p.checkCCPMTimeout =
        { p with
          ccpmState := CCPMState.DISCONNECTED
          cache := p.cache.addMessage
            { text := STRING_CCPM_TIMEOUT, isChat := false, read := false }
          effects := p.effects ++
            [ChatEffect.StatusMessage STRING_CCPM_TIMEOUT Severity.SEV_INFO,
              ChatEffect.cacheAddMessage STRING_CCPM_TIMEOUT, ChatEffect.CCPMStatusUpdated] }) ∧
    (p.ccpmState = CCPMState.CONNECTED ∨ p.ccpmState = CCPMState.DISCONNECTED →
      p.checkCCPMTimeout = p) := by
  constructor
  · intro h
    simp [PrivateChat.checkCCPMTimeout, h, PrivateChat.statusMessage, PrivateChat.fire]
  · intro h
    have hne : p.ccpmState ≠ CCPMState.CONNECTING := by
      rcases h with h | h <;> rw [h] <;> decide
    simp [PrivateChat.checkCCPMTimeout, hne]

theorem checkCCPMTimeout_spec_witness :
    (emptyChat.startCC true started).checkCCPMTimeout =
      { (emptyChat.startCC true started) with
        ccpmState := CCPMState.DISCONNECTED
        cache := (emptyChat.startCC true started).cache.addMessage
          { text := STRING_CCPM_TIMEOUT, isChat := false, read := false }
        effects := (emptyChat.startCC true started).effects ++
          [ChatEffect.StatusMessage STRING_CCPM_TIMEOUT Severity.SEV_INFO,
            ChatEffect.cacheAddMessage STRING_CCPM_TIMEOUT, ChatEffect.CCPMStatusUpdated] } ∧
    emptyChat.checkCCPMTimeout = emptyChat :=
  ⟨(checkCCPMTimeout_spec (emptyChat.startCC true started)).1 rfl,
    (checkCCPMTimeout_spec emptyChat).2 (Or.inr rfl)⟩

theorem mem_removeEvent (es : List PendingEvent) (k : DelayEvent) (e : PendingEvent) :
    e ∈ removeEvent es k ↔ e ∈ es ∧ e.kind ≠ k := by
  simp [removeEvent]

/-- Claim C27, amended. The peer-offline event for this session's peer, from a state whose channel handle
is set exactly when the sub-state is `CONNECTED`. Afterwards the sub-state is
`DISCONNECTED`, no handle is held (an open channel was disconnected gracelessly and its
listener removed), no user-update event is pending, the timeout event is not pending if the
sub-state was `CONNECTING` (otherwise the pending events other than the user update are
kept), `allowAutoCCPM` is true, `online` is false, and `UserUpdated` was fired, followed by
the offline status message. An event for another user changes nothing. -/
theorem peer_offline_spec (p : PrivateChat) (s : SupportsResult) (cpmi : Bool)
    (hinv : p.HandleMatchesState) :
    (p.onUserDisconnected true true s cpmi).ccpmState = CCPMState.DISCONNECTED ∧
    (p.onUserDisconnected true true s cpmi).uc = none ∧
    (∀ e ∈ (p.onUserDisconnected true true s cpmi).delayEvents,
      e.kind ≠ DelayEvent.USER_UPDATE) ∧
    (p.ccpmState = CCPMState.CONNECTING →
      ∀ e ∈ (p.onUserDisconnected true true s cpmi).delayEvents,
        e.kind ≠ DelayEvent.CCPM_TIMEOUT) ∧
    (p.ccpmState ≠ CCPMState.CONNECTING →
      (p.onUserDisconnected true true s cpmi).delayEvents =
        removeEvent p.delayEvents DelayEvent.USER_UPDATE) ∧
    (p.onUserDisconnected true true s cpmi).allowAutoCCPM = true ∧
    (p.onUserDisconnected true true s cpmi).online = false ∧
    (p.onUserDisconnected true true s cpmi).effects =
      p.effects ++
        (if p.ccpmState = CCPMState.CONNECTED then
          [ChatEffect.ucDisconnect p.uc true, ChatEffect.ucRemoveListener p.uc] else []) ++
        [ChatEffect.UserUpdated,
          ChatEffect.StatusMessage STRING_USER_WENT_OFFLINE Severity.SEV_INFO,
          ChatEffect.cacheAddMessage STRING_USER_WENT_OFFLINE] ∧
    (∀ w, p.onUserDisconnected false w s cpmi = p) := by
  have hu : p.ccpmState ≠ CCPMState.CONNECTED → p.uc = none := by
    intro h
    cases hc : p.uc with
    | none => rfl
    | some x => exact absurd (hinv.1 (by rw [hc]; rfl)) h
  cases hs : p.ccpmState
  · have := hu (by rw [hs]; decide)
    simp [PrivateChat.onUserDisconnected, PrivateChat.wentOffline, PrivateChat.updateSupports,
      PrivateChat.dropAttempt, PrivateChat.closeCC, PrivateChat.ccReady, PrivateChat.fire,
      PrivateChat.statusMessage, hs, this, mem_removeEvent]
    exact fun e _ h _ => h
  · simp [PrivateChat.onUserDisconnected, PrivateChat.wentOffline, PrivateChat.updateSupports,
      PrivateChat.dropAttempt, PrivateChat.closeCC, PrivateChat.ccReady, PrivateChat.fire,
      PrivateChat.statusMessage, PrivateChat.closeCCNotify, PrivateChat.closeCCNow, hs,
      mem_removeEvent]
  · have := hu (by rw [hs]; decide)
    simp [PrivateChat.onUserDisconnected, PrivateChat.wentOffline, PrivateChat.updateSupports,
      PrivateChat.dropAttempt, PrivateChat.closeCC, PrivateChat.ccReady, PrivateChat.fire,
      PrivateChat.statusMessage, hs, this, mem_removeEvent]

theorem peer_offline_spec_witness :
    ((freshChat.run [ChatOp.startCC true started, ChatOp.CCPMConnected 7]).onUserDisconnected
      true true supported false).uc = none ∧
    ((freshChat.run [ChatOp.startCC true started, ChatOp.CCPMConnected 7]).onUserDisconnected
      true true supported false).allowAutoCCPM = true :=
  ⟨(peer_offline_spec (freshChat.run [ChatOp.startCC true started, ChatOp.CCPMConnected 7])
      supported false ⟨fun _ => rfl, fun _ => rfl⟩).2.1,
    (peer_offline_spec (freshChat.run [ChatOp.startCC true started, ChatOp.CCPMConnected 7])
      supported false ⟨fun _ => rfl, fun _ => rfl⟩).2.2.2.2.2.1⟩

/-- Claim C27 fails as stated: when an attempt reached `CONNECTED` before its timeout fired,
the timeout event is still pending after the peer-offline event, which removes it only in
sub-state `CONNECTING`. -/
theorem peer_offline_counterexample :
    ({ kind := DelayEvent.CCPM_TIMEOUT, callback := DelayCallback.checkCCPMTimeout,
        delay := 30000 } : PendingEvent) ∈
      (freshChat.run [ChatOp.startCC true started, ChatOp.CCPMConnected 7,
        ChatOp.userDisconnected true true supported false]).delayEvents ∧
    (freshChat.run [ChatOp.startCC true started, ChatOp.CCPMConnected 7,
        ChatOp.userDisconnected true true supported false]).ccpmState =
      CCPMState.DISCONNECTED := by
  decide

/-- Claim C28, amended. A received PMI command is read as the first of `SN`, `TP`, `AC`, `QU` that it
carries and fires one `PMStatus` notification of that type, adding nothing to the cache;
the branch of `AC` also assigns `allowAutoCCPM`, false for every value but "1" (the
declined signal is sent as `AC` "0") and true for "1"; a command that carries none of the
four changes nothing and fires nothing. -/
theorem onPMI_spec (p : PrivateChat) (cmd : PMICommand) :
    (cmd.hasSN = true → p.onPMI cmd = p.fire (ChatEffect.PMStatus PMInfo.MSG_SEEN)) ∧
    (∀ v, cmd.hasSN = false → cmd.tp = some v →
      p.onPMI cmd = p.fire (ChatEffect.PMStatus
        (if v = "1" then PMInfo.TYPING_ON else PMInfo.TYPING_OFF))) ∧
    (∀ v, cmd.hasSN = false → cmd.tp = none → cmd.ac = some v →
      p.onPMI cmd = ({ p with allowAutoCCPM := decide (v = "1") } : PrivateChat).fire
        (ChatEffect.PMStatus PMInfo.NO_AUTOCONNECT)) ∧
    (cmd.hasSN = false → cmd.tp = none → cmd.ac = none → cmd.hasQU = true →
      p.onPMI cmd = p.fire (ChatEffect.PMStatus PMInfo.QUIT)) ∧
    (cmd.hasSN = false → cmd.tp = none → cmd.ac = none → cmd.hasQU = false →
      p.onPMI cmd = p) ∧
    (p.onPMI cmd).cache = p.cache ∧
    pmiParam PMInfo.NO_AUTOCONNECT = ("AC", "0") ∧
    (p.onPMI (acCommand "0")).allowAutoCCPM = false ∧
    (p.onPMI (acCommand "1")).allowAutoCCPM = true := by
  refine ⟨?_, ?_, ?_, ?_, ?_, ?_, rfl, ?_, ?_⟩
  · intro h
    simp [PrivateChat.onPMI, pmiType, pmiAllow, h]
  · intro v h1 h2
    by_cases hv : v = "1" <;> simp [PrivateChat.onPMI, pmiType, pmiAllow, h1, h2, hv]
  · intro v h1 h2 h3
    simp [PrivateChat.onPMI, pmiType, pmiAllow, h1, h2, h3]
  · intro h1 h2 h3 h4
    simp [PrivateChat.onPMI, pmiType, pmiAllow, h1, h2, h3, h4]
  · intro h1 h2 h3 h4
    simp [PrivateChat.onPMI, pmiType, pmiAllow, h1, h2, h3, h4]
  · unfold PrivateChat.onPMI
    split_ifs <;> rfl
  · simp [PrivateChat.onPMI, pmiType, pmiAllow, acCommand, PrivateChat.fire]
  · simp [PrivateChat.onPMI, pmiType, pmiAllow, acCommand, PrivateChat.fire]

theorem onPMI_spec_witness :
    freshChat.onPMI (acCommand "0") =
      ({ freshChat with allowAutoCCPM := decide ("0" = "1") } : PrivateChat).fire
        (ChatEffect.PMStatus PMInfo.NO_AUTOCONNECT) :=
  (onPMI_spec freshChat (acCommand "0")).2.2.1 "0" rfl rfl rfl

/-- Claim C28 fails as stated: an `AC` parameter with the value "1" sets a cleared
`allowAutoCCPM` again, and an `AC` parameter "0" in a command that also carries `SN` is not
read, so the flag stays true and the notification is of type `MSG_SEEN`. -/
theorem onPMI_counterexample :
    (freshChat.startCC true protocolRejected).allowAutoCCPM = false ∧
    ((freshChat.startCC true protocolRejected).onPMI (acCommand "1")).allowAutoCCPM = true ∧
    (freshChat.onPMI seenAndDeclined).allowAutoCCPM = true ∧
    (freshChat.onPMI seenAndDeclined).effects = [ChatEffect.PMStatus PMInfo.MSG_SEEN] := by
  decide

theorem good_congr (p q : PrivateChat) (hu : q.uc = p.uc) (hs : q.ccpmState = p.ccpmState)
    (he : q.effects = p.effects) (hg : p.HandleMatchesState ∧ p.NoNullDeref) :
    q.HandleMatchesState ∧ q.NoNullDeref := by
  unfold PrivateChat.HandleMatchesState PrivateChat.NoNullDeref at *
  rw [hu, hs, he]
  exact hg

theorem fire_good (p : PrivateChat) (e : ChatEffect) (he : e.deref ≠ some none)
    (hm : p.HandleMatchesState) (hn : p.NoNullDeref) :
    (p.fire e).HandleMatchesState ∧ (p.fire e).NoNullDeref := by
  refine ⟨hm, ?_⟩
  intro x hx
  simp only [PrivateChat.fire, List.mem_append, List.mem_singleton] at hx
  rcases hx with hx | hx
  · exact hn x hx
  · subst hx; exact he

theorem statusMessage_good (p : PrivateChat) (m : String) (sev : Severity)
    (hm : p.HandleMatchesState) (hn : p.NoNullDeref) :
    (p.statusMessage m sev).HandleMatchesState ∧ (p.statusMessage m sev).NoNullDeref := by
  refine ⟨hm, ?_⟩
  intro e he
  simp only [PrivateChat.statusMessage, List.mem_append, List.mem_cons,
    List.mem_singleton, List.not_mem_nil, or_false] at he
  rcases he with he | he | he
  · exact hn e he
  · subst he; simp [ChatEffect.deref]
  · subst he; simp [ChatEffect.deref]

theorem checkUserHub_good (p : PrivateChat) (w : Bool) (hubs : List (String × String))
    (hm : p.HandleMatchesState) (hn : p.NoNullDeref) :
    (p.checkUserHub w hubs).HandleMatchesState ∧ (p.checkUserHub w hubs).NoNullDeref := by
  unfold PrivateChat.checkUserHub
  cases hubs with
  | nil => exact ⟨hm, hn⟩
  | cons h t =>
    simp only
    by_cases ha : ((h :: t).any fun x => x.1 == p.hint) = true
    · simp only [ha, if_true]
      exact ⟨hm, hn⟩
    · by_cases hr : (!p.ccReady) = true
      · simp only [ha, hr, if_true, if_false]
        exact good_congr (p.statusMessage _ Severity.SEV_INFO) _ rfl rfl rfl
          (statusMessage_good p _ _ hm hn)
      · simp only [ha, hr, if_false]
        exact good_congr p _ rfl rfl rfl ⟨hm, hn⟩

theorem uc_of_ready (p : PrivateChat) (hm : p.HandleMatchesState) (hr : p.ccReady = true) :
    ∃ x, p.uc = some x := by
  have hs : p.ccpmState = CCPMState.CONNECTED := by
    simpa [PrivateChat.ccReady] using hr
  exact Option.isSome_iff_exists.1 (hm.2 hs)

theorem uc_of_not_ready (p : PrivateChat) (hm : p.HandleMatchesState)
    (hr : p.ccReady = false) : p.uc = none := by
  have hs : p.ccpmState ≠ CCPMState.CONNECTED := by
    simpa [PrivateChat.ccReady] using hr
  cases hc : p.uc with
  | none => rfl
  | some x => exact absurd (hm.1 (by rw [hc]; rfl)) hs

theorem closeCC_good (p : PrivateChat) (now na cpmi : Bool)
    (hm : p.HandleMatchesState) (hn : p.NoNullDeref) :
    (p.closeCC now na cpmi).HandleMatchesState ∧ (p.closeCC now na cpmi).NoNullDeref := by
  unfold PrivateChat.closeCC
  by_cases hr : p.ccReady = true
  · obtain ⟨x, hx⟩ := uc_of_ready p hm hr
    have hs : p.ccpmState = CCPMState.CONNECTED := by
      simpa [PrivateChat.ccReady] using hr
    have hn2 : ∀ e ∈ p.effects, e.deref ≠ some none := hn
    cases now <;> cases na <;> cases cpmi <;>
      simp [hr, PrivateChat.closeCCNotify, PrivateChat.closeCCNow, PrivateChat.sendPMInfo,
        PrivateChat.fire, PrivateChat.HandleMatchesState, PrivateChat.NoNullDeref, hx, hs,
        ChatEffect.deref, or_imp, forall_and] <;> exact hn2
  · simp only [hr]
    exact ⟨hm, hn⟩

theorem startCC_good (p : PrivateChat) (o : Bool) (r : ConnectResult)
    (hm : p.HandleMatchesState) (hn : p.NoNullDeref) :
    (p.startCC o r).HandleMatchesState ∧ (p.startCC o r).NoNullDeref := by
  by_cases h : o = true ∧ p.ccpmState = CCPMState.DISCONNECTED
  · obtain ⟨ho, hs⟩ := h
    subst ho
    have hu : p.uc = none := uc_of_not_ready p hm (by simp [PrivateChat.ccReady, hs])
    have hn2 : ∀ e ∈ p.effects, e.deref ≠ some none := hn
    rw [startCC_attempt p r hs]
    cases hc : r.connecting <;> by_cases he : r.lastCCPMError.isEmpty = true <;>
      simp [PrivateChat.startCCResult, PrivateChat.fire, PrivateChat.statusMessage,
        PrivateChat.HandleMatchesState, PrivateChat.NoNullDeref, hu, he, ChatEffect.deref,
        or_imp, forall_and] <;> exact hn2
  · rw [startCC_noop p o r h]
    exact ⟨hm, hn⟩

theorem CCPMConnected_good (p : PrivateChat) (u : Nat) (hn : p.NoNullDeref) :
    (p.CCPMConnected (some u)).HandleMatchesState ∧ (p.CCPMConnected (some u)).NoNullDeref := by
  have hn2 : ∀ e ∈ p.effects, e.deref ≠ some none := hn
  simp [PrivateChat.CCPMConnected, PrivateChat.fire, PrivateChat.statusMessage,
    PrivateChat.HandleMatchesState, PrivateChat.NoNullDeref, ChatEffect.deref, or_imp,
    forall_and]
  exact hn2

theorem CCPMDisconnected_good (p : PrivateChat)
    (hm : p.HandleMatchesState) (hn : p.NoNullDeref) :
    p.CCPMDisconnected.HandleMatchesState ∧ p.CCPMDisconnected.NoNullDeref := by
  unfold PrivateChat.CCPMDisconnected
  by_cases hr : p.ccReady = true
  · obtain ⟨x, hx⟩ := uc_of_ready p hm hr
    have hn2 : ∀ e ∈ p.effects, e.deref ≠ some none := hn
    simp [hr, PrivateChat.channelLost, PrivateChat.fire, PrivateChat.statusMessage,
      PrivateChat.HandleMatchesState, PrivateChat.NoNullDeref, hx, ChatEffect.deref, or_imp,
      forall_and]
    exact hn2
  · simp only [hr]
    exact ⟨hm, hn⟩

theorem sendPMInfo_good (p : PrivateChat) (t : PMInfo) (cpmi : Bool)
    (hm : p.HandleMatchesState) (hn : p.NoNullDeref) :
    (p.sendPMInfo t cpmi).HandleMatchesState ∧ (p.sendPMInfo t cpmi).NoNullDeref := by
  unfold PrivateChat.sendPMInfo
  split_ifs with h
  · simp only [Bool.and_eq_true] at h
    obtain ⟨x, hx⟩ := Option.isSome_iff_exists.1 h.1.2
    exact fire_good p _ (by rw [hx]; simp [ChatEffect.deref]) hm hn
  · exact ⟨hm, hn⟩

theorem close_good (p : PrivateChat) (cpmi : Bool)
    (hm : p.HandleMatchesState) (hn : p.NoNullDeref) :
    (p.close cpmi).HandleMatchesState ∧ (p.close cpmi).NoNullDeref := by
  obtain ⟨m1, n1⟩ := fire_good p ChatEffect.Close (by simp [ChatEffect.deref]) hm hn
  have h2 : ((p.fire ChatEffect.Close).closeChannel cpmi).HandleMatchesState ∧
      ((p.fire ChatEffect.Close).closeChannel cpmi).NoNullDeref := by
    unfold PrivateChat.closeChannel
    split_ifs
    · exact sendPMInfo_good _ _ _ m1 n1
    · exact closeCC_good _ _ _ _ m1 n1
    · exact ⟨m1, n1⟩
  exact fire_good _ ChatEffect.removePmCache (by simp [ChatEffect.deref]) h2.1 h2.2

theorem checkCCPMTimeout_good (p : PrivateChat)
    (hm : p.HandleMatchesState) (hn : p.NoNullDeref) :
    p.checkCCPMTimeout.HandleMatchesState ∧ p.checkCCPMTimeout.NoNullDeref := by
  unfold PrivateChat.checkCCPMTimeout
  split_ifs with hs
  · have hu : p.uc = none := uc_of_not_ready p hm (by simp [PrivateChat.ccReady, hs])
    have hn2 : ∀ e ∈ p.effects, e.deref ≠ some none := hn
    simp [PrivateChat.fire, PrivateChat.statusMessage, PrivateChat.HandleMatchesState,
      PrivateChat.NoNullDeref, hu, ChatEffect.deref, or_imp, forall_and]
    exact hn2
  · exact ⟨hm, hn⟩

theorem checkAlwaysCCPM_good (p : PrivateChat) (g : AutoEnv) (r : ConnectResult)
    (hm : p.HandleMatchesState) (hn : p.NoNullDeref) :
    (p.checkAlwaysCCPM g r).HandleMatchesState ∧ (p.checkAlwaysCCPM g r).NoNullDeref := by
  unfold PrivateChat.checkAlwaysCCPM
  split_ifs
  · exact ⟨hm, hn⟩
  · have h := startCC_good p g.userOnline r hm hn
    unfold PrivateChat.countAttempt
    split_ifs
    · exact good_congr (p.startCC g.userOnline r) _ rfl rfl rfl h
    · exact h
  · exact good_congr p _ rfl rfl rfl ⟨hm, hn⟩
  · exact ⟨hm, hn⟩

theorem onUserDisconnected_good (p : PrivateChat) (su wo : Bool) (s : SupportsResult)
    (cpmi : Bool) (hm : p.HandleMatchesState) (hn : p.NoNullDeref) :
    (p.onUserDisconnected su wo s cpmi).HandleMatchesState ∧
    (p.onUserDisconnected su wo s cpmi).NoNullDeref := by
  unfold PrivateChat.onUserDisconnected
  split_ifs
  · exact ⟨hm, hn⟩
  · have h0 : (({ (p.updateSupports s) with
        delayEvents := removeEvent (p.updateSupports s).delayEvents DelayEvent.USER_UPDATE } :
        PrivateChat).dropAttempt).HandleMatchesState ∧
        (({ (p.updateSupports s) with
        delayEvents := removeEvent (p.updateSupports s).delayEvents DelayEvent.USER_UPDATE } :
        PrivateChat).dropAttempt).NoNullDeref := by
      unfold PrivateChat.dropAttempt
      split_ifs with hs
      · have hs2 : p.ccpmState = CCPMState.CONNECTING := hs
        have hu : p.uc = none := uc_of_not_ready p hm (by simp [PrivateChat.ccReady, hs2])
        refine ⟨?_, hn⟩
        simp [PrivateChat.HandleMatchesState, PrivateChat.updateSupports, hu]
      · exact good_congr p _ rfl rfl rfl ⟨hm, hn⟩
    have h1 := closeCC_good _ true false cpmi h0.1 h0.2
    have h2 := good_congr _ ({ ((({ (p.updateSupports s) with
        delayEvents := removeEvent (p.updateSupports s).delayEvents DelayEvent.USER_UPDATE } :
        PrivateChat).dropAttempt).closeCC true false cpmi) with
        allowAutoCCPM := true, online := false } : PrivateChat) rfl rfl rfl h1
    have h3 := fire_good _ ChatEffect.UserUpdated (by simp [ChatEffect.deref]) h2.1 h2.2
    exact statusMessage_good _ STRING_USER_WENT_OFFLINE Severity.SEV_INFO h3.1 h3.2
  · exact good_congr p _ rfl rfl rfl ⟨hm, hn⟩

theorem step_good (p : PrivateChat) (op : ChatOp)
    (hm : p.HandleMatchesState) (hn : p.NoNullDeref) :
    (p.step op).HandleMatchesState ∧ (p.step op).NoNullDeref := by
  cases op with
  | startCC o r => exact startCC_good p o r hm hn
  | CCPMConnected u => exact CCPMConnected_good p u hn
  | CCPMDisconnected => exact CCPMDisconnected_good p hm hn
  | closeCC now na cpmi => exact closeCC_good p now na cpmi hm hn
  | close cpmi => exact close_good p cpmi hm hn
  | checkCCPMTimeout => exact checkCCPMTimeout_good _ hm hn
  | checkAlwaysCCPM g r => exact checkAlwaysCCPM_good _ g r hm hn
  | userDisconnected su wo s cpmi => exact onUserDisconnected_good p su wo s cpmi hm hn
  | userUpdated su s =>
    simp only [PrivateChat.step, PrivateChat.onUserUpdated]
    split_ifs
    · exact ⟨hm, hn⟩
    · exact good_congr p _ rfl rfl rfl ⟨hm, hn⟩
  | userDisconnectedUpdate hubs =>
    have h := checkUserHub_good (p.fired DelayEvent.USER_UPDATE) true hubs hm hn
    exact fire_good _ ChatEffect.UserUpdated (by simp [ChatEffect.deref]) h.1 h.2
  | userUpdatedUpdate names hubs =>
    simp only [PrivateChat.step, PrivateChat.userUpdatedUpdate]
    split_ifs
    · have h1 := statusMessage_good (p.fired DelayEvent.USER_UPDATE)
        (STRING_USER_WENT_ONLINE ++ names) Severity.SEV_INFO hm hn
      have h2 := checkUserHub_good _ false hubs h1.1 h1.2
      have h3 := good_congr _ ({ (((p.fired DelayEvent.USER_UPDATE).statusMessage
        (STRING_USER_WENT_ONLINE ++ names) Severity.SEV_INFO).checkUserHub false hubs) with
        online := true } : PrivateChat) rfl rfl rfl h2
      exact fire_good _ ChatEffect.UserUpdated (by simp [ChatEffect.deref]) h3.1 h3.2
    · exact fire_good _ ChatEffect.UserUpdated (by simp [ChatEffect.deref]) hm hn
  | clientDisconnected u hubs =>
    simp only [PrivateChat.step, PrivateChat.onClientDisconnected]
    split_ifs
    · have h := checkUserHub_good p true hubs hm hn
      exact fire_good _ ChatEffect.UserUpdated (by simp [ChatEffect.deref]) h.1 h.2
    · exact ⟨hm, hn⟩
  | pmi cmd =>
    simp only [PrivateChat.step, PrivateChat.onPMI]
    split_ifs
    · exact fire_good _ _ (by simp [ChatEffect.deref]) hm hn
    · exact good_congr p _ rfl rfl rfl ⟨hm, hn⟩
  | handleMessage m u n =>
    have h0 : (p.handleHub u n).HandleMatchesState ∧ (p.handleHub u n).NoNullDeref := by
      unfold PrivateChat.handleHub
      split_ifs
      · have h1 := statusMessage_good p (STRING_F_MESSAGES_SENT_THROUGH_REMOTE n)
          Severity.SEV_INFO hm hn
        exact fire_good _ ChatEffect.UserUpdated (by simp [ChatEffect.deref]) h1.1 h1.2
      · exact fire_good (p.setHubUrl u n) ChatEffect.UserUpdated (by simp [ChatEffect.deref])
          hm hn
      · exact ⟨hm, hn⟩
    have h1 := good_congr _ ({ (p.handleHub u n) with
      cache := (p.handleHub u n).cache.addMessage
        { text := m, isChat := true, read := false } } : PrivateChat) rfl rfl rfl h0
    have h2 := fire_good _ (ChatEffect.cacheAddMessage m) (by simp [ChatEffect.deref])
      h1.1 h1.2
    exact fire_good _ (ChatEffect.PrivateMessage m) (by simp [ChatEffect.deref]) h2.1 h2.2
  | statusMessage m sev => exact statusMessage_good p m sev hm hn
  | sendMessage m rel =>
    simp only [PrivateChat.step, PrivateChat.sendMessage]
    split_ifs with hr
    · obtain ⟨x, hx⟩ := uc_of_ready p hm hr
      exact fire_good p _ (by rw [hx]; simp [ChatEffect.deref]) hm hn
    · exact fire_good p _ (by simp [ChatEffect.deref]) hm hn
  | sendPMInfo t cpmi => exact sendPMInfo_good p t cpmi hm hn
  | setRead =>
    simp only [PrivateChat.step, PrivateChat.setRead]
    split_ifs
    · exact fire_good ({ p with cache := p.cache.setRead.2 } : PrivateChat)
        ChatEffect.MessagesRead (by simp [ChatEffect.deref]) hm hn
    · exact good_congr p _ rfl rfl rfl ⟨hm, hn⟩
  | clearCache =>
    simp only [PrivateChat.step, PrivateChat.clearCache]
    split_ifs
    · exact fire_good ({ p with cache := p.cache.clear.2 } : PrivateChat)
        ChatEffect.MessagesCleared (by simp [ChatEffect.deref]) hm hn
    · exact good_congr p _ rfl rfl rfl ⟨hm, hn⟩

theorem run_good (p : PrivateChat) (ops : List ChatOp)
    (hm : p.HandleMatchesState) (hn : p.NoNullDeref) :
    (p.run ops).HandleMatchesState ∧ (p.run ops).NoNullDeref := by
  induction ops generalizing p with
  | nil => exact ⟨hm, hn⟩
  | cons op ops ih =>
    obtain ⟨m1, n1⟩ := step_good p op hm hn
    exact ih (p.step op) m1 n1

theorem new_good (hint : String) (aUc : Option Nat) (o : Bool) (n : String)
    (s : SupportsResult) (limit : Nat) :
    (PrivateChat.new hint aUc o n s limit).HandleMatchesState ∧
    (PrivateChat.new hint aUc o n s limit).NoNullDeref := by
  cases aUc <;>
    simp [PrivateChat.new, PrivateChat.HandleMatchesState, PrivateChat.NoNullDeref,
      ChatEffect.deref]

/-- Claim C30. In every state that a private chat reaches from its construction, with or
without a connection, through any sequence of its events (`startCC`, `CCPMConnected` with
a connection that is not null, `CCPMDisconnected`, `closeCC`, `close`, `checkCCPMTimeout`,
`checkAlwaysCCPM`, the peer-offline event and the other events of the chat), the channel
handle `uc` is set exactly when the CCPM sub-state is `CONNECTED`, and no call through `uc`
made along the way (`pm`, `disconnect`, `removeListener`, `send`, `addListener`) was made
on a null pointer. -/
theorem handle_matches_state (hint : String) (aUc : Option Nat) (o : Bool) (n : String)
    (s : SupportsResult) (limit : Nat) (ops : List ChatOp) :
    (((PrivateChat.new hint aUc o n s limit).run ops).uc.isSome = true ↔
      ((PrivateChat.new hint aUc o n s limit).run ops).ccpmState = CCPMState.CONNECTED) ∧
    (((PrivateChat.new hint aUc o n s limit).run ops).ccReady = true →
      ∃ x, ((PrivateChat.new hint aUc o n s limit).run ops).uc = some x) ∧
    ∀ e ∈ ((PrivateChat.new hint aUc o n s limit).run ops).effects, e.deref ≠ some none := by
  obtain ⟨m0, n0⟩ := new_good hint aUc o n s limit
  obtain ⟨m1, n1⟩ := run_good _ ops m0 n0
  exact ⟨m1, uc_of_ready _ m1, n1⟩

theorem handle_matches_state_witness :
    ((freshChat.run [ChatOp.startCC true started, ChatOp.CCPMConnected 7,
        ChatOp.sendMessage "hello" true, ChatOp.close false]).uc.isSome = true ↔
      (freshChat.run [ChatOp.startCC true started, ChatOp.CCPMConnected 7,
        ChatOp.sendMessage "hello" true, ChatOp.close false]).ccpmState =
          CCPMState.CONNECTED) ∧
    ∀ e ∈ (freshChat.run [ChatOp.startCC true started, ChatOp.CCPMConnected 7,
        ChatOp.sendMessage "hello" true, ChatOp.close false]).effects, e.deref ≠ some none :=
  ⟨(handle_matches_state "adc://hub.example:411" none true "hub"
      { supports := true, lastCCPMError := "" } 100
      [ChatOp.startCC true started, ChatOp.CCPMConnected 7, ChatOp.sendMessage "hello" true,
        ChatOp.close false]).1,
    (handle_matches_state "adc://hub.example:411" none true "hub"
      { supports := true, lastCCPMError := "" } 100
      [ChatOp.startCC true started, ChatOp.CCPMConnected 7, ChatOp.sendMessage "hello" true,
        ChatOp.close false]).2.2⟩

/-- Claim C13, amended. `setConnectState s` changes nothing when `s` is the current state:
the state stays and no notification is fired. Otherwise it sets the state to `s` and
fires one `ConnectStateChanged` notification carrying `s`, as the next effect and the only
one of the call, and changes nothing else. Calling it twice in a row gives the same
session, with the same notifications, as calling it once. The notification is not the
first side effect of every transition: `on(Connected)` appends and fires the status
message and fires `Connected` before `ConnectStateChanged` of PROTOCOL, and `on(Failed)`
clears the users, and removes the user commands of a hub in state NORMAL, before
`ConnectStateChanged` of DISCONNECTED; `connect` fires `ConnectStateChanged` of CONNECTING
before it asks for a socket, after it has released the socket it held. -/
theorem setConnectState_spec (c : Client) (s : State) :
    (c.state = s → c.setConnectState s = c) ∧
    (c.state ≠ s →
      c.setConnectState s =
        { c with state := s, effects := c.effects ++ [Effect.ConnectStateChanged s] }) ∧
    (c.setConnectState s).state = s ∧
    (c.setConnectState s).effects =
      c.effects ++ (if c.state = s then [] else [Effect.ConnectStateChanged s]) ∧
    (c.setConnectState s).setConnectState s = c.setConnectState s ∧
    (∀ (tick : Nat) (l : Bool), c.state ≠ State.STATE_PROTOCOL →
      (c.onConnected tick l).effects =
        c.effects ++ [Effect.cacheAddMessage STRING_CONNECTED] ++
          (if l then [Effect.logStatus STRING_CONNECTED] else []) ++
          [Effect.StatusMessage STRING_CONNECTED Severity.SEV_INFO StatusFlag.FLAG_NORMAL,
            Effect.Connected, Effect.ConnectStateChanged State.STATE_PROTOCOL]) ∧
    (∀ (aLine : String) (a k l : Bool), c.state ≠ State.STATE_DISCONNECTED →
      (c.onFailed aLine a k l).effects =
        c.effects ++ [Effect.clearUsers] ++
          (if c.stateNormal then [Effect.removeUserCommand c.hubUrl] else []) ++
          [Effect.ConnectStateChanged State.STATE_DISCONNECTED,
            Effect.cacheAddMessage (c.failedText aLine a k)] ++
          (if l then [Effect.logStatus (c.failedText aLine a k)] else []) ++
          [Effect.StatusMessage (c.failedText aLine a k) Severity.SEV_WARNING
              StatusFlag.FLAG_NORMAL,
            Effect.sockRemoveListener, Effect.Failed c.hubUrl (c.failedText aLine a k)]) ∧
    (∀ (env : ConnectEnv), c.state ≠ State.STATE_CONNECTING →
      env.sockResult = SockResult.ok →
      (c.connect env).effects =
        c.effects ++ (if c.sock then [Effect.putSocket] else []) ++
          [Effect.ConnectStateChanged State.STATE_CONNECTING, Effect.sockConnect]) := by
  refine ⟨?_, ?_, setConnectState_state c s, ?_, ?_, ?_, ?_, ?_⟩
  · intro h; simp [Client.setConnectState, h]
  · intro h; simp [Client.setConnectState, h]
  · unfold Client.setConnectState
    split_ifs <;> simp
  · have := setConnectState_state c s
    generalize c.setConnectState s = d at this
    simp [Client.setConnectState, this]
  · intro tick l h
    simp only [Client.onConnected, statusMessage_spec]
    cases l <;> simp [Client.setConnectState, Client.updateActivity, h]
  · intro aLine a k l h
    simp only [Client.onFailed, statusMessage_spec]
    cases l <;> simp [Client.setConnectState, Client.failedStart, h]
  · intro env h hr
    rw [connect_effects, hr]
    simp [h]

/-- Witness of `setConnectState_spec`: a new session is moved to state CONNECTING. -/
theorem setConnectState_spec_witness :
    newClient.setConnectState State.STATE_CONNECTING =
      { newClient with
        state := State.STATE_CONNECTING
        effects := newClient.effects ++
          [Effect.ConnectStateChanged State.STATE_CONNECTING] } :=
  (setConnectState_spec newClient State.STATE_CONNECTING).2.1 (by decide)

/-- Claim C13 fails as stated: when the socket of a connecting session reports the
connection, the status message is cached and fired and `Connected` is fired, and only then
`ConnectStateChanged` of PROTOCOL; when a session in state PROTOCOL fails, the users are
cleared before `ConnectStateChanged` of DISCONNECTED. -/
theorem setConnectState_counterexample :
    ((newClient.connect (okEnv 0)).onConnected 5 false).effects =
      [Effect.ConnectStateChanged State.STATE_CONNECTING, Effect.sockConnect,
        Effect.cacheAddMessage STRING_CONNECTED,
        Effect.StatusMessage STRING_CONNECTED Severity.SEV_INFO StatusFlag.FLAG_NORMAL,
        Effect.Connected, Effect.ConnectStateChanged State.STATE_PROTOCOL] ∧
    (((newClient.connect (okEnv 0)).onConnected 5 false).onFailed "reset" false true
        false).effects =
      ((newClient.connect (okEnv 0)).onConnected 5 false).effects ++
        [Effect.clearUsers, Effect.ConnectStateChanged State.STATE_DISCONNECTED,
          Effect.cacheAddMessage "reset",
          Effect.StatusMessage "reset" Severity.SEV_WARNING StatusFlag.FLAG_NORMAL,
          Effect.sockRemoveListener, Effect.Failed "adc://hub.example:411" "reset"] := by
  decide

end dcpp
